import Mathlib

/-!
# Draw-and-guess server: shallow embedding of `draw_guess_server.c`

The server keeps two global tables, `rooms[MAX_ROOMS]` and `clients[MAX_CLIENTS]`.
Every handler of the C program is embedded as a function from the server state to
the new state together with the list of effects it performed (frames sent on a
stream socket, datagrams forwarded, AI threads spawned, sockets closed), in the
order in which the C code performs them.  A handler runs atomically.

Conventions of the embedding:

* a `char[]` buffer is the list of its bytes, a missing tail standing for NUL bytes;
  `strcpy` of a received string into a buffer stores the bytes before the first NUL when
  they fit with the closing NUL, and is undefined behaviour when they do not; a copy
  between two fields of the same width keeps the string; `memset(.., 0, ..)` stores `[]`;
* C `int` flags that only ever hold `0` or `1` are `Bool`;
* `int` counters, ids with a `-1` sentinel and `time_t` values are `Int`; the one `int`
  computed from the clock, `current_game_id`, wraps to 32 bits;
* the result `none` stands for undefined behaviour of the C program
  (an index outside an array, a division by zero, a `strcpy` that overruns its destination);
* the clock, `rand()` and the word store are inputs (`Env`);
* `printf` and the SQLite writes do not touch the two tables and are left out, except where
  an argument of `printf` is read outside an array.
-/

namespace DrawGuess

/-! ## Constants (`draw_guess_server.c`, `protocol.h`) -/

def MAX_CLIENTS : Nat := 10
def MAX_ROOMS : Nat := 10
def MAX_DRAWING_POINTS : Nat := 4096

def MSG_CLIENT_JOIN : Nat := 1
def MSG_CLIENT_READY : Nat := 2
def MSG_GAME_START : Nat := 3
def MSG_PAINT_DATA : Nat := 4
def MSG_GUESS_SUBMIT : Nat := 5
def MSG_GAME_END : Nat := 6
def MSG_CLIENT_LEAVE : Nat := 7
def MSG_ERROR : Nat := 8
def MSG_PAINTER_FINISH : Nat := 9
def MSG_HISTORY_REQ : Nat := 10
def MSG_HISTORY_DATA : Nat := 11
def MSG_HISTORY_END : Nat := 12
def MSG_ROOM_LIST_REQ : Nat := 13
def MSG_ROOM_LIST : Nat := 14
def MSG_CREATE_ROOM : Nat := 15
def MSG_JOIN_ROOM : Nat := 16
def MSG_LEAVE_ROOM : Nat := 17
def MSG_ROOM_CREATED : Nat := 18
def MSG_ROOM_JOINED : Nat := 19
def MSG_ROOM_LEFT : Nat := 20
def MSG_AI_GUESS_REQ : Nat := 21
def MSG_AI_GUESS_RESULT : Nat := 22

/-- The enum `GameState` of `protocol.h`. -/
inductive GameState where
  | GAME_WAITING
  | GAME_READY
  | GAME_PAINTING
  | GAME_GUESSING
  | GAME_FINISHED
  deriving DecidableEq, Repr

/-! ## C strings -/

/-- The C string held by a buffer: the bytes before the first NUL. -/
def cstr : List Nat → List Nat
  | [] => []
  | b :: bs => if b = 0 then [] else b :: cstr bs

/-- The function `strcmp` on two buffers (the end of a list reads as NUL). -/
def strcmp : List Nat → List Nat → Int
  | [], [] => 0
  | [], b :: _ => 0 - (b : Int)
  | a :: _, [] => (a : Int)
  | a :: as, b :: bs =>
    if a ≠ b then (a : Int) - (b : Int)
    else if a = 0 then 0
    else strcmp as bs

/-- The call `strcpy(dst, src)` into a destination of `cap` bytes: the destination then holds
the bytes of `src` before the first NUL.  The result is `none` when these bytes and the
closing NUL do not fit in `cap` bytes: the copy then overruns the fields that follow the
destination. -/
def strcpy (cap : Nat) (src : List Nat) : Option (List Nat) :=
  if (cstr src).length < cap then some (cstr src) else none

/-- The conversion of a wider integer to a 32-bit `int`, and the result of an `int`
addition as the machine computes it (two's complement, modulo `2^32`). -/
def int32 (n : Int) : Int := (n + 2147483648) % 4294967296 - 2147483648

/-- The test `buf[0] == 0`. -/
def first_is_nul (buf : List Nat) : Bool := buf.headD 0 == 0

/-- The conversion of an `int` to `uint8_t`. -/
def u8 (n : Int) : Nat := (n % 256).toNat

/-! ## Struct sizes under natural alignment -/

/-- The offset `off` rounded up to a multiple of `a`. -/
def align_up (off a : Nat) : Nat := (off + a - 1) / a * a

/-- The size of a struct whose members are given as (size, alignment) pairs, in order. -/
def struct_size (fields : List (Nat × Nat)) : Nat :=
  let r := fields.foldl (fun acc f => (align_up acc.1 f.2 + f.1, max acc.2 f.2)) (0, 1)
  align_up r.1 r.2

def sizeof_BaseMessage : Nat := struct_size [(1, 1), (1, 1), (2, 2)]
def sizeof_GameStartMessage : Nat := struct_size [(sizeof_BaseMessage, 2), (1, 1), (32, 1), (4, 4)]
def sizeof_GameEndMessage : Nat := struct_size [(sizeof_BaseMessage, 2), (32, 1), (1, 1), (1, 1)]
def sizeof_HistoryDataMessage : Nat :=
  struct_size [(sizeof_BaseMessage, 2), (4, 4), (32, 1), (64, 1), (32, 1)]
def sizeof_RoomInfo : Nat := struct_size [(1, 1), (32, 1), (1, 1)]
def sizeof_RoomListMessage : Nat :=
  struct_size [(sizeof_BaseMessage, 2), (1, 1), (10 * sizeof_RoomInfo, 1)]
def sizeof_RoomCreatedMessage : Nat :=
  struct_size [(sizeof_BaseMessage, 2), (1, 1), (32, 1), (32, 1), (1, 1)]
def sizeof_RoomJoinedMessage : Nat :=
  struct_size [(sizeof_BaseMessage, 2), (1, 1), (32, 1), (32, 1), (1, 1)]
def sizeof_RoomLeftMessage : Nat := struct_size [(sizeof_BaseMessage, 2), (1, 1)]
def sizeof_AiGuessResultMessage : Nat :=
  struct_size [(sizeof_BaseMessage, 2), (32, 1), (1, 1), (1, 1)]

/-! ## Server tables -/

/-- The struct `ClientInfo`. -/
structure ClientInfo where
  socket_fd : Int
  id : Nat
  nickname : List Nat
  ready : Bool
  is_painter : Bool
  guess : List Nat
  has_guessed : Bool
  udp_addr : Nat
  has_udp_addr : Bool
  room_id : Int
  deriving DecidableEq, Repr

/-- The struct `GameInfo`. -/
structure GameInfo where
  state : GameState
  painter_id : Int
  current_word : List Nat
  ready_count : Int
  total_clients : Int
  paint_start_time : Int
  guess_start_time : Int
  current_game_id : Int
  deriving DecidableEq, Repr

/-- The struct `DrawingPoint`. -/
structure DrawingPoint where
  x : Nat
  y : Nat
  action : Nat
  deriving DecidableEq, Repr

/-- The struct `Room`.  The list `drawing_history` holds the entries
`drawing_history[0 .. history_count)` of the C array, the only ones ever read. -/
structure Room where
  id : Nat
  name : List Nat
  clients : List ClientInfo
  game : GameInfo
  client_count : Int
  drawing_history : List DrawingPoint
  ai_predicted_word : List Nat
  ai_score : Nat
  ai_is_correct : Nat
  ai_result_ready : Bool
  deriving DecidableEq, Repr

/-- The field `history_count` of a room. -/
def Room.history_count (r : Room) : Nat := r.drawing_history.length

/-- The two global tables `rooms` and `clients`. -/
structure Server where
  rooms : List Room
  clients : List ClientInfo
  deriving DecidableEq, Repr

/-! ## Frames and effects -/

/-- The struct `BaseMessage`, the 4-byte header of every frame. -/
structure BaseMessage where
  type : Nat
  client_id : Nat
  data_len : Nat
  deriving DecidableEq, Repr

/-- The struct `RoomInfo`. -/
structure RoomInfo where
  room_id : Nat
  name : List Nat
  num_players : Nat
  deriving DecidableEq, Repr

/-- The body that follows the header, one constructor per message struct. -/
inductive Body where
  | empty
  | gameStart (painter_id : Nat) (word : List Nat) (paint_time : Nat)
  | gameEnd (correct_word : List Nat) (winner_id guess_count : Nat)
  | historyData (game_id : Int) (word user_guess game_time : List Nat)
  | roomList (num_rooms : Nat) (rooms : List RoomInfo)
  | roomCreated (room_id : Nat) (room_name nickname : List Nat) (num_players : Nat)
  | roomJoined (room_id : Nat) (room_name nickname : List Nat) (num_players : Nat)
  | roomLeft (room_id : Nat)
  | aiGuessResult (predicted_word : List Nat) (score is_correct : Nat)
  deriving DecidableEq, Repr

/-- A frame written to a stream socket. -/
structure Frame where
  base : BaseMessage
  body : Body
  deriving DecidableEq, Repr

/-- The struct `PaintDataMessage`, the only datagram. -/
structure PaintDataMessage where
  base : BaseMessage
  x : Nat
  y : Nat
  action : Nat
  color_r : Nat
  color_g : Nat
  color_b : Nat
  deriving DecidableEq, Repr

/-- An effect of a handler on the outside world. -/
inductive Out where
  | send (fd : Int) (f : Frame)
  | sendto (addr : Nat) (d : PaintDataMessage)
  | spawn_ai (room_id : Nat)
  | close (fd : Int)
  deriving DecidableEq, Repr

/-- The inputs a handler reads from outside the two tables: the clock `time(NULL)`, the
values of the two calls of `rand()` in `start_game`, the dictionary entry that
`get_random_word` leaves in `current_word`, and the rows of the history query. -/
structure Env where
  now : Int
  rand1 : Nat
  rand2 : Nat
  word : List Nat
  history : List (Int × List Nat × List Nat × List Nat)

/-! ## Helpers shared by the handlers -/

/-- The element `rooms[room_id]` for an `int` index; `none` outside the table. -/
def room_at (s : Server) (room_id : Int) : Option Room :=
  if room_id < 0 then none else s.rooms[room_id.toNat]?

/-- The first entry of an array satisfying `p`, with its index: the C loops
`for (i = 0; i < N; i++) if (p(a[i])) { ...; break; }`. -/
def find_first {α : Type} (p : α → Bool) : List α → Option (Nat × α)
  | [] => none
  | c :: cs => if p c then some (0, c) else (find_first p cs).map (fun r => (r.1 + 1, r.2))

/-- The test `slot.socket_fd != -1`: the slot is occupied. -/
def seated (c : ClientInfo) : Bool := c.socket_fd != -1

/-- The function `init_game` (lines 349-355). -/
def init_game (game_info : GameInfo) : GameInfo :=
  { game_info with
    state := GameState.GAME_WAITING
    painter_id := -1
    ready_count := 0
    total_clients := 0
    current_word := [] }

/-- The function `broadcast_message` (lines 428-444): one `send` per occupied slot of the room
whose id differs from `exclude_id`, in slot order. -/
def broadcast_message (s : Server) (msg : Frame) (exclude_id : Int) (room_id : Int) : List Out :=
  if room_id < 0 ∨ (MAX_ROOMS : Int) ≤ room_id then []
  else
    match s.rooms[room_id.toNat]? with
    | none => []
    | some room =>
      (room.clients.filter (fun c => seated c && ((c.id : Int) != exclude_id))).map
        (fun c => Out.send c.socket_fd msg)

/-! ## `start_game` (lines 446-514) -/

/-- The painter search of `start_game` (lines 464-477): the occupied slot reached when the
running `count` of occupied slots equals `start_index`, with its index. -/
def find_painter (start_index : Int) : List ClientInfo → Nat → Option (Nat × ClientInfo)
  | [], _ => none
  | c :: cs, count =>
    if seated c then
      if (count : Int) = start_index then some (0, c)
      else (find_painter start_index cs (count + 1)).map (fun r => (r.1 + 1, r.2))
    else (find_painter start_index cs count).map (fun r => (r.1 + 1, r.2))

/-- The frame `start_msg` built for the slot `c` (lines 500-506). -/
def game_start_msg (game : GameInfo) (c : ClientInfo) : Frame :=
  { base :=
      { type := MSG_GAME_START
        client_id := c.id % 256
        data_len := sizeof_GameStartMessage - sizeof_BaseMessage }
    body := Body.gameStart (u8 game.painter_id) (cstr game.current_word) 60 }

/-- The tail of `start_game` once the painter search is over (lines 484-509): pick the word,
enter PAINTING, reset the stroke history and the AI result, send GAME_START to every
occupied slot. -/
def start_round (env : Env) (s : Server) (room_id : Nat) (room : Room) : Server × List Out :=
  let game : GameInfo :=
    { room.game with
      current_word := cstr env.word
      state := GameState.GAME_PAINTING
      paint_start_time := env.now
      current_game_id := int32 (int32 env.now + (env.rand2 : Int)) }
  let room1 : Room :=
    { room with
      game := game
      drawing_history := []
      ai_result_ready := false
      ai_predicted_word := [] }
  ({ s with rooms := s.rooms.set room_id room1 },
    (room.clients.filter seated).map (fun c => Out.send c.socket_fd (game_start_msg game c)))

/-- The function `start_game`.  `env.rand1` is the value of the first `rand()`. -/
def start_game (env : Env) (s : Server) (room_id : Nat) : Option (Server × List Out) :=
  match s.rooms[room_id]? with
  | none => none
  | some room =>
    let game := room.game
    if game.state ≠ GameState.GAME_READY ∨ game.ready_count ≠ game.total_clients
        ∨ game.total_clients < 2 then
      some (s, [])
    else if room.client_count = 0 then none
    else
      let start_index : Int := Int.tmod (env.rand1 : Int) room.client_count
      match find_painter start_index room.clients 0 with
      | some (i, c) =>
        match s.clients[c.id]? with
        | none => none
        | some g =>
          some (start_round env
            { s with clients := s.clients.set c.id { g with is_painter := true } } room_id
            { room with
              clients := room.clients.set i { c with is_painter := true }
              game := { game with painter_id := (c.id : Int) } })
      | none =>
        if game.painter_id = -1 then some (s, [])
        else some (start_round env s room_id room)

/-! ## `end_game` (lines 516-632) -/

/-- The winner loop of `end_game` (lines 537-545) run over the slots in order, from the
pair `(winner_id, guess_count)` reached so far; both are `uint8_t`. -/
def tally (word : List Nat) : List ClientInfo → Nat × Nat → Nat × Nat
  | [], acc => acc
  | c :: cs, acc =>
    if seated c && c.has_guessed then
      tally word cs
        (if strcmp c.guess word = 0 then c.id % 256 else acc.1, (acc.2 + 1) % 256)
    else tally word cs acc

/-- The frame `end_msg` built by `end_game` (lines 528-545). -/
def game_end_msg (room : Room) : Frame :=
  let t := tally room.game.current_word room.clients (255, 0)
  { base :=
      { type := MSG_GAME_END
        client_id := 0
        data_len := sizeof_GameEndMessage - sizeof_BaseMessage }
    body := Body.gameEnd (cstr room.game.current_word) t.1 t.2 }

/-- The frame `ai_msg` built by `end_game` (lines 559-565). -/
def ai_result_msg (room : Room) : Frame :=
  { base :=
      { type := MSG_AI_GUESS_RESULT
        client_id := 0
        data_len := sizeof_AiGuessResultMessage - sizeof_BaseMessage }
    body := Body.aiGuessResult (cstr room.ai_predicted_word) room.ai_score room.ai_is_correct }

/-- The per-round fields cleared by the reset loop of `end_game` (lines 618-621, 624-627). -/
def reset_flags (c : ClientInfo) : ClientInfo :=
  { c with ready := false, has_guessed := false, is_painter := false, guess := [] }

/-- The writes of the reset loop of `end_game` to the global table (lines 623-627): for every
occupied slot, in order, `clients[slot.id]` is cleared. -/
def reset_globals : List ClientInfo → List ClientInfo → Option (List ClientInfo)
  | [], clients => some clients
  | c :: cs, clients =>
    if seated c then
      match clients[c.id]? with
      | none => none
      | some g => reset_globals cs (clients.set c.id (reset_flags g))
    else reset_globals cs clients

/-- The function `end_game`. -/
def end_game (s : Server) (room_id : Nat) : Option (Server × List Out) :=
  match s.rooms[room_id]? with
  | none => none
  | some room =>
    if room.game.state ≠ GameState.GAME_GUESSING then some (s, [])
    else
      let out1 := broadcast_message s (game_end_msg room) (-1) (room_id : Int)
      let out2 :=
        if room.ai_result_ready then broadcast_message s (ai_result_msg room) (-1) (room_id : Int)
        else []
      match reset_globals room.clients s.clients with
      | none => none
      | some clients1 =>
        let room1 : Room :=
          { room with
            game :=
              { room.game with
                state := GameState.GAME_WAITING
                painter_id := -1
                ready_count := 0
                current_word := [] }
            ai_result_ready := false
            clients := room.clients.map (fun c => if seated c then reset_flags c else c) }
        some ({ rooms := s.rooms.set room_id room1, clients := clients1 }, out1 ++ out2)

/-! ## `add_client` and `remove_client` -/

/-- The slot initialisation of `add_client` (lines 365-375). -/
def fresh_client (socket_fd : Int) (i : Nat) (c : ClientInfo) : ClientInfo :=
  { c with
    socket_fd := socket_fd
    id := i
    ready := false
    is_painter := false
    has_guessed := false
    nickname := []
    guess := []
    has_udp_addr := false
    room_id := -1
    udp_addr := 0 }

/-- The function `add_client` (lines 358-387) followed by the test of its result in `main`
(lines 1241-1251): the first free slot of `clients` is taken, and with no free slot the
socket is closed. -/
def add_client (s : Server) (socket_fd : Int) : Server × List Out :=
  match find_first (fun c => c.socket_fd == -1) s.clients with
  | some (i, c) => ({ s with clients := s.clients.set i (fresh_client socket_fd i c) }, [])
  | none => (s, [Out.close socket_fd])

/-- The room part of `remove_client` (lines 400-417), for the client record `g` read
before its socket is closed. -/
def remove_from_room (room : Room) (client_id : Nat) (g : ClientInfo) : Room :=
  let game1 : GameInfo := { room.game with total_clients := room.game.total_clients - 1 }
  let game2 : GameInfo :=
    if g.ready then { game1 with ready_count := game1.ready_count - 1 } else game1
  match find_first (fun c => c.id == client_id) room.clients with
  | none => { room with game := game2 }
  | some (i, c) =>
    let slots := room.clients.set i { c with socket_fd := -1 }
    if room.client_count - 1 = 0 then
      { room with clients := slots, client_count := room.client_count - 1, name := [],
                  game := init_game game2 }
    else
      { room with clients := slots, client_count := room.client_count - 1, game := game2 }

/-- The function `remove_client` (lines 390-425). -/
def remove_client (s : Server) (client_id : Nat) : Option (Server × List Out) :=
  if client_id < MAX_CLIENTS then
    match s.clients[client_id]? with
    | none => none
    | some g =>
      if g.socket_fd ≠ -1 then
        let gone : ClientInfo := { g with socket_fd := -1, room_id := -1 }
        if g.room_id ≠ -1 then
          match room_at s g.room_id with
          | none => none
          | some room =>
            some ({ rooms := s.rooms.set g.room_id.toNat (remove_from_room room client_id g)
                    clients := s.clients.set client_id gone }, [Out.close g.socket_fd])
        else
          some ({ s with clients := s.clients.set client_id gone }, [Out.close g.socket_fd])
      else some (s, [])
  else some (s, [])

/-! ## `handle_tcp_client` (lines 634-972), one definition per `case` -/

/-- A message read from a client's stream socket. -/
inductive Msg where
  | client_join (nickname : List Nat)
  | client_ready
  | painter_finish
  | guess_submit (guess : List Nat)
  | client_leave
  | history_req
  | room_list_req
  | create_room (room_name nickname : List Nat)
  | join_room (room_id : Nat) (nickname : List Nat)
  | leave_room (room_id : Nat)
  | other (type : Nat)
  deriving DecidableEq, Repr

/-- A frame with an empty body (`BaseMessage` alone). -/
def base_only (type client_id : Nat) : Frame :=
  { base := { type := type, client_id := client_id, data_len := 0 }, body := Body.empty }

/-- The case `MSG_CLIENT_JOIN` (lines 649-654): `strcpy` into `nickname[32]`. -/
def handle_client_join (s : Server) (client_id : Nat) (nickname : List Nat) :
    Option (Server × List Out) :=
  match s.clients[client_id]? with
  | none => none
  | some g =>
    match strcpy 32 nickname with
    | none => none
    | some name =>
      some ({ s with clients := s.clients.set client_id { g with nickname := name } }, [])

/-- The case `MSG_CLIENT_READY` (lines 656-691). -/
def handle_client_ready (env : Env) (s : Server) (client_id : Nat) :
    Option (Server × List Out) :=
  match s.clients[client_id]? with
  | none => none
  | some g =>
    if g.room_id ≠ -1 then
      match room_at s g.room_id with
      | none => none
      | some room =>
        match find_first (fun c => c.id == client_id) room.clients with
        | none => some (s, [])
        | some (i, c) =>
          if !c.ready then
            let game1 : GameInfo :=
              { room.game with
                ready_count := room.game.ready_count + 1
                state :=
                  if room.game.state = GameState.GAME_WAITING then GameState.GAME_READY
                  else room.game.state }
            let s1 : Server :=
              { rooms := s.rooms.set g.room_id.toNat
                  { room with clients := room.clients.set i { c with ready := true }, game := game1 }
                clients := s.clients.set client_id { g with ready := true } }
            if game1.ready_count = game1.total_clients ∧ game1.total_clients ≥ 2 then
              start_game env s1 g.room_id.toNat
            else some (s1, [])
          else some (s, [])
    else some (s, [])

/-- The case `MSG_PAINTER_FINISH` (lines 693-722). -/
def handle_painter_finish (env : Env) (s : Server) (client_id : Nat) :
    Option (Server × List Out) :=
  match s.clients[client_id]? with
  | none => none
  | some g =>
    if g.room_id ≠ -1 then
      match room_at s g.room_id with
      | none => none
      | some room =>
        if (client_id : Int) = room.game.painter_id
            ∧ room.game.state = GameState.GAME_PAINTING then
          let s1 : Server :=
            { s with
              rooms := s.rooms.set g.room_id.toNat
                { room with
                  game :=
                    { room.game with
                      state := GameState.GAME_GUESSING
                      guess_start_time := env.now } } }
          some (s1, broadcast_message s1 (base_only MSG_PAINTER_FINISH 0) (-1) g.room_id
                      ++ [Out.spawn_ai g.room_id.toNat])
        else some (s, [])
    else some (s, [])

/-- The test `all_guessed` of the case `MSG_GUESS_SUBMIT` (lines 749-755). -/
def all_guessed (slots : List ClientInfo) : Bool :=
  slots.all (fun c => !(seated c && !c.is_painter && !c.has_guessed))

/-- The slots of the room after a guess is stored (lines 732-738): the first slot with the
sender's id takes the string `guess` that `strcpy` has copied and `has_guessed = 1`. -/
def record_guess (slots : List ClientInfo) (client_id : Nat) (guess : List Nat) :
    List ClientInfo :=
  match find_first (fun c => c.id == client_id) slots with
  | none => slots
  | some (i, c) => slots.set i { c with guess := guess, has_guessed := true }

/-- The case `MSG_GUESS_SUBMIT` (lines 724-763): the guess of the message is copied with
`strcpy` into `guess[64]` of the sender's slot (line 734) and of its global record
(line 740). -/
def handle_guess_submit (s : Server) (client_id : Nat) (guess : List Nat) :
    Option (Server × List Out) :=
  match s.clients[client_id]? with
  | none => none
  | some g =>
    if g.room_id ≠ -1 then
      match room_at s g.room_id with
      | none => none
      | some room =>
        match strcpy 64 guess with
        | none => none
        | some stored =>
          let slots1 := record_guess room.clients client_id stored
          let s1 : Server :=
            { rooms := s.rooms.set g.room_id.toNat { room with clients := slots1 }
              clients := s.clients.set client_id
                { g with guess := stored, has_guessed := true } }
          if all_guessed slots1 then end_game s1 g.room_id.toNat
          else some (s1, [])
    else some (s, [])

/-- The case `MSG_HISTORY_REQ` (lines 770-799); the rows of the query are `env.history`. -/
def handle_history_req (env : Env) (s : Server) (client_id : Nat) :
    Option (Server × List Out) :=
  match s.clients[client_id]? with
  | none => none
  | some g =>
    some (s,
      env.history.map (fun row =>
        Out.send g.socket_fd
          { base :=
              { type := MSG_HISTORY_DATA
                client_id := 0
                data_len := sizeof_HistoryDataMessage - sizeof_BaseMessage }
            body := Body.historyData row.1 (cstr row.2.1) (cstr row.2.2.1)
                      (cstr row.2.2.2) })
      ++ [Out.send g.socket_fd (base_only MSG_HISTORY_END 0)])

/-- The case `MSG_ROOM_LIST_REQ` (lines 801-819). -/
def handle_room_list_req (s : Server) (client_id : Nat) : Option (Server × List Out) :=
  match s.clients[client_id]? with
  | none => none
  | some g =>
    let infos : List RoomInfo :=
      (s.rooms.filter (fun r => !first_is_nul r.name)).map
        (fun r => { room_id := r.id, name := cstr r.name, num_players := u8 r.client_count })
    some (s,
      [Out.send g.socket_fd
        { base :=
            { type := MSG_ROOM_LIST
              client_id := 0
              data_len := sizeof_RoomListMessage - sizeof_BaseMessage }
          body := Body.roomList (infos.length % 256) infos }])

/-- The case `MSG_CREATE_ROOM` (lines 821-872).  When a free room is found the room name of
the request is copied with `strcpy` into `name[32]` (line 830) and the nickname into
`nickname[32]` (line 838); with no free room nothing is copied. -/
def handle_create_room (s : Server) (client_id : Nat) (room_name nickname : List Nat) :
    Option (Server × List Out) :=
  match s.clients[client_id]? with
  | none => none
  | some g =>
    match find_first (fun r => first_is_nul r.name) s.rooms with
    | some (i, room) =>
      match strcpy 32 room_name with
      | none => none
      | some name =>
        match strcpy 32 nickname with
        | none => none
        | some nick =>
          let g1 : ClientInfo := { g with nickname := nick, room_id := (i : Int) }
          match room.clients with
          | [] => none
          | _ :: rest =>
            let room1 : Room :=
              { room with
                id := i % 256
                name := name
                clients :=
                  { g1 with id := client_id } :: rest.map (fun c => { c with socket_fd := -1 })
                client_count := 1
                game := { room.game with total_clients := 1 } }
            some ({ rooms := s.rooms.set i room1, clients := s.clients.set client_id g1 },
              [Out.send g1.socket_fd
                { base :=
                    { type := MSG_ROOM_CREATED
                      client_id := 0
                      data_len := sizeof_RoomCreatedMessage - sizeof_BaseMessage }
                  body := Body.roomCreated (i % 256) (cstr room1.name) nick
                            (u8 room1.client_count) }])
    | none => some (s, [Out.send g.socket_fd (base_only MSG_ERROR (client_id % 256))])

/-- The case `MSG_JOIN_ROOM` (lines 874-923); `room_id` is the `uint8_t` of the request.
When a free slot is found the nickname of the request is copied with `strcpy` into
`nickname[32]` (line 886); on the failing paths nothing is copied. -/
def handle_join_room (s : Server) (client_id : Nat) (room_id : Nat) (nickname : List Nat) :
    Option (Server × List Out) :=
  match s.clients[client_id]? with
  | none => none
  | some g =>
    let error : Option (Server × List Out) :=
      some (s, [Out.send g.socket_fd (base_only MSG_ERROR (client_id % 256))])
    if room_id < MAX_ROOMS then
      match s.rooms[room_id]? with
      | none => none
      | some room =>
        if !first_is_nul room.name then
          if room.client_count < (MAX_CLIENTS : Int) then
            match find_first (fun c => c.socket_fd == -1) room.clients with
            | none => error
            | some (i, _) =>
              match strcpy 32 nickname with
              | none => none
              | some nick =>
                let g1 : ClientInfo := { g with nickname := nick, room_id := (room_id : Int) }
                let room1 : Room :=
                  { room with
                    clients := room.clients.set i { g1 with id := client_id }
                    client_count := room.client_count + 1
                    game := { room.game with total_clients := room.game.total_clients + 1 } }
                some ({ rooms := s.rooms.set room_id room1
                        clients := s.clients.set client_id g1 },
                  [Out.send g1.socket_fd
                    { base :=
                        { type := MSG_ROOM_JOINED
                          client_id := 0
                          data_len := sizeof_RoomJoinedMessage - sizeof_BaseMessage }
                      body := Body.roomJoined room_id (cstr room1.name) nick
                                (u8 room1.client_count) }])
          else error
        else error
    else error

/-- The room part of the case `MSG_LEAVE_ROOM` (lines 932-948), for the sender's
descriptor `fd`. -/
def leave_room (room : Room) (fd : Int) : Room :=
  match find_first (fun c => c.socket_fd == fd) room.clients with
  | none => room
  | some (i, c) =>
    let game1 : GameInfo :=
      if c.ready then { room.game with ready_count := room.game.ready_count - 1 } else room.game
    let game2 : GameInfo := { game1 with total_clients := game1.total_clients - 1 }
    { room with
      clients := room.clients.set i { c with socket_fd := -1, ready := false }
      client_count := room.client_count - 1
      game := game2
      name := if room.client_count - 1 = 0 then [] else room.name }

/-- The case `MSG_LEAVE_ROOM` (lines 925-967); `room_id` is the `uint8_t` of the request.
The `printf` that closes the case (line 965) reads `rooms[room_id].game.total_clients` on
every path, outside the table when `room_id >= MAX_ROOMS`. -/
def handle_leave_room (s : Server) (client_id : Nat) (room_id : Nat) :
    Option (Server × List Out) :=
  match s.clients[client_id]? with
  | none => none
  | some g =>
    let left : ClientInfo := { g with room_id := -1, ready := false }
    let reply : List Out :=
      [Out.send g.socket_fd
        { base :=
            { type := MSG_ROOM_LEFT
              client_id := 0
              data_len := sizeof_RoomLeftMessage - sizeof_BaseMessage }
          body := Body.roomLeft room_id }]
    if room_id < MAX_ROOMS then
      match s.rooms[room_id]? with
      | none => none
      | some room =>
        some ({ rooms := s.rooms.set room_id (leave_room room g.socket_fd)
                clients := s.clients.set client_id left }, reply)
    else none

/-- One iteration of the receive loop of `handle_tcp_client` on a received message. -/
def handle_tcp_client (env : Env) (s : Server) (client_id : Nat) :
    Msg → Option (Server × List Out)
  | Msg.client_join nickname => handle_client_join s client_id nickname
  | Msg.client_ready => handle_client_ready env s client_id
  | Msg.painter_finish => handle_painter_finish env s client_id
  | Msg.guess_submit guess => handle_guess_submit s client_id guess
  | Msg.client_leave => remove_client s client_id
  | Msg.history_req => handle_history_req env s client_id
  | Msg.room_list_req => handle_room_list_req s client_id
  | Msg.create_room room_name nickname => handle_create_room s client_id room_name nickname
  | Msg.join_room room_id nickname => handle_join_room s client_id room_id nickname
  | Msg.leave_room room_id => handle_leave_room s client_id room_id
  | Msg.other _ => some (s, [])

/-! ## `handle_udp_server` (lines 974-1058) -/

/-- One iteration of the receive loop of `handle_udp_server` on a datagram `paint_msg`
received from the address `client_addr`. -/
def handle_udp_server (s : Server) (client_addr : Nat) (paint_msg : PaintDataMessage) :
    Option (Server × List Out) :=
  let cid := paint_msg.base.client_id
  if cid < MAX_CLIENTS then
    match s.clients[cid]? with
    | none => none
    | some g =>
      let clients1 := s.clients.set cid { g with udp_addr := client_addr, has_udp_addr := true }
      if g.room_id ≠ -1 then
        match room_at s g.room_id with
        | none => none
        | some room =>
          let slots1 :=
            match find_first (fun c => c.id == cid) room.clients with
            | none => room.clients
            | some (i, c) =>
              room.clients.set i { c with udp_addr := client_addr, has_udp_addr := true }
          if (cid : Int) = room.game.painter_id
              ∧ (room.game.state = GameState.GAME_PAINTING ∨ paint_msg.action = 3) then
            let history1 :=
              if room.game.state = GameState.GAME_PAINTING then
                if room.history_count < MAX_DRAWING_POINTS then
                  room.drawing_history ++
                    [{ x := paint_msg.x, y := paint_msg.y, action := paint_msg.action }]
                else room.drawing_history
              else room.drawing_history
            some ({ rooms := s.rooms.set g.room_id.toNat
                      { room with clients := slots1, drawing_history := history1 }
                    clients := clients1 },
              (slots1.filter (fun c => seated c && (c.id != cid) && c.has_udp_addr)).map
                (fun c => Out.sendto c.udp_addr paint_msg))
          else
            some ({ rooms := s.rooms.set g.room_id.toNat { room with clients := slots1 }
                    clients := clients1 }, [])
      else some ({ s with clients := clients1 }, [])
  else some (s, [])

/-! ## `game_timer` (lines 1061-1112) -/

/-- The body of the room loop of `game_timer` for the room `i` (lines 1067-1106). -/
def game_timer_room (env : Env) (s : Server) (i : Nat) : Option (Server × List Out) :=
  match s.rooms[i]? with
  | none => none
  | some room =>
    if room.game.state = GameState.GAME_PAINTING then
      if env.now - room.game.paint_start_time ≥ 60 then
        let s1 : Server :=
          { s with
            rooms := s.rooms.set i
              { room with
                game :=
                  { room.game with
                    state := GameState.GAME_GUESSING
                    guess_start_time := env.now } } }
        some (s1, Out.spawn_ai i :: broadcast_message s1 (base_only MSG_PAINTER_FINISH 0) (-1) i)
      else some (s, [])
    else if room.game.state = GameState.GAME_GUESSING then
      if env.now - room.game.guess_start_time ≥ 30 then end_game s i
      else some (s, [])
    else some (s, [])

/-- The room loop of `game_timer` run for `n` more rooms starting at room `i`. -/
def game_timer_from (env : Env) : Nat → Nat → Server → Option (Server × List Out)
  | 0, _, s => some (s, [])
  | n + 1, i, s =>
    match game_timer_room env s i with
    | none => none
    | some (s1, out1) =>
      match game_timer_from env n (i + 1) s1 with
      | none => none
      | some (s2, out2) => some (s2, out1 ++ out2)

/-- One wake-up of `game_timer`: the loop over the rooms `0 .. MAX_ROOMS - 1`. -/
def game_timer (env : Env) (s : Server) : Option (Server × List Out) :=
  game_timer_from env MAX_ROOMS 0 s

/-! ## `ai_guess_thread`, the part that touches the tables (lines 312-319) -/

/-- The store of a parsed AI reply into the room (lines 313-319); `predicted` is the word of
the reply, of which `strncpy` has kept at most 31 bytes in the local buffer (line 301). -/
def ai_store (s : Server) (room_id : Nat) (predicted : List Nat) (score is_correct : Int) :
    Option (Server × List Out) :=
  match s.rooms[room_id]? with
  | none => none
  | some room =>
    some ({ s with
            rooms := s.rooms.set room_id
              { room with
                ai_predicted_word := (cstr predicted).take 31
                ai_score := u8 score
                ai_is_correct := u8 is_correct
                ai_result_ready := true } }, [])

/-! ## Initial state and the events of a run -/

/-- A zero-initialised `ClientInfo` (the tables are C globals) with `socket_fd = -1`. -/
def free_client : ClientInfo :=
  { socket_fd := -1, id := 0, nickname := [], ready := false, is_painter := false, guess := [],
    has_guessed := false, udp_addr := 0, has_udp_addr := false, room_id := 0 }

/-- The room `i` after `init_rooms` (lines 1140-1153). -/
def init_room (i : Nat) : Room :=
  { id := i
    client_count := 0
    name := []
    clients := List.replicate MAX_CLIENTS free_client
    game := init_game
      { state := GameState.GAME_WAITING, painter_id := 0, current_word := [], ready_count := 0,
        total_clients := 0, paint_start_time := 0, guess_start_time := 0, current_game_id := 0 }
    drawing_history := []
    ai_result_ready := false
    ai_predicted_word := []
    ai_score := 0
    ai_is_correct := 0 }

/-- The tables when `main` enters its accept loop (lines 1159-1163). -/
def init_server : Server :=
  { rooms := (List.range MAX_ROOMS).map init_room
    clients := List.replicate MAX_CLIENTS free_client }

/-- An event of a run of the server. -/
inductive Event where
  | accept (socket_fd : Int)
  | recv (client_id : Nat) (msg : Msg)
  | closed (client_id : Nat)
  | datagram (client_addr : Nat) (paint_msg : PaintDataMessage)
  | tick
  | ai_reply (room_id : Nat) (predicted : List Nat) (score is_correct : Int)
  deriving DecidableEq, Repr

/-- The client `client_id` has a live session thread: its slot of `clients` is in use. -/
def connected (s : Server) (client_id : Nat) : Bool :=
  match s.clients[client_id]? with
  | none => false
  | some g => g.socket_fd != -1

/-- The tables together with the room ids of the AI threads still running. -/
structure Sys where
  server : Server
  ai_pending : List Nat
  deriving DecidableEq, Repr

/-- The event can happen in this state: `accept` returns a descriptor that no connected
client holds, only a connected client's session receives a message or sees its stream
close, a datagram carries a `uint8_t` client id, and an AI reply answers a running thread. -/
def enabled (y : Sys) : Event → Bool
  | Event.accept socket_fd =>
    decide (0 ≤ socket_fd) && y.server.clients.all (fun c => c.socket_fd != socket_fd)
  | Event.recv client_id _ => connected y.server client_id
  | Event.closed client_id => connected y.server client_id
  | Event.datagram _ paint_msg => decide (paint_msg.base.client_id < 256)
  | Event.tick => true
  | Event.ai_reply room_id _ _ _ => y.ai_pending.contains room_id

/-- The handler run by an event. -/
def handle (env : Env) (s : Server) : Event → Option (Server × List Out)
  | Event.accept socket_fd => some (add_client s socket_fd)
  | Event.recv client_id msg => handle_tcp_client env s client_id msg
  | Event.closed client_id => remove_client s client_id
  | Event.datagram client_addr paint_msg => handle_udp_server s client_addr paint_msg
  | Event.tick => game_timer env s
  | Event.ai_reply room_id predicted score is_correct =>
    ai_store s room_id predicted score is_correct

/-- The room ids of the AI threads spawned by a list of effects. -/
def spawned : List Out → List Nat
  | [] => []
  | Out.spawn_ai r :: os => r :: spawned os
  | _ :: os => spawned os

/-- One step of a run: the handler of the event, and the bookkeeping of the AI threads. -/
def step (env : Env) (y : Sys) (ev : Event) : Option (Sys × List Out) :=
  match handle env y.server ev with
  | none => none
  | some (s1, out) =>
    let pending :=
      match ev with
      | Event.ai_reply room_id _ _ _ => y.ai_pending.erase room_id
      | _ => y.ai_pending
    some ({ server := s1, ai_pending := pending ++ spawned out }, out)

/-- The run of a list of events, each with its own inputs, from a state; `none` when an
event is not enabled or a handler has undefined behaviour. -/
def run : Sys → List (Env × Event) → Option Sys
  | y, [] => some y
  | y, (env, ev) :: rest =>
    if enabled y ev then
      match step env y ev with
      | none => none
      | some (y1, _) => run y1 rest
    else none

/-- The state is reached by some run from the initial tables. -/
def Reachable (s : Server) : Prop :=
  ∃ (evs : List (Env × Event)) (y : Sys),
    run { server := init_server, ai_pending := [] } evs = some y ∧ y.server = s

/-! ## Vocabulary of the claims -/

/-- A seated member whose `has_guessed` flag is set. -/
def guessed (c : ClientInfo) : Bool := seated c && c.has_guessed

/-- A seated member with `has_guessed` set whose stored guess equals `word` byte for byte
(as C strings). -/
def guessed_right (word : List Nat) (c : ClientInfo) : Bool :=
  seated c && c.has_guessed && decide (cstr c.guess = cstr word)

/-- The GAME_END frame with the given fields. -/
def game_end_frame (word : List Nat) (winner_id guess_count : Nat) : Frame :=
  { base :=
      { type := MSG_GAME_END
        client_id := 0
        data_len := sizeof_GameEndMessage - sizeof_BaseMessage }
    body := Body.gameEnd word winner_id guess_count }

/-! ## Concrete runs used to exercise the handlers -/

/-- The bytes of "apple". -/
def apple : List Nat := [97, 112, 112, 108, 101]

/-- The inputs at time `now` with `rand()` returning `rand1`; the word store returns "apple". -/
def env_at (now : Int) (rand1 : Nat) : Env :=
  { now := now, rand1 := rand1, rand2 := 0, word := apple, history := [] }

/-- The state when `main` enters its accept loop, with no AI thread running. -/
def init_sys : Sys := { server := init_server, ai_pending := [] }

/-- The tables after a run from the initial state (the initial tables if it fails). -/
def server_after (evs : List (Env × Event)) : Server :=
  ((run init_sys evs).map (fun y => y.server)).getD init_server

/-- Four clients connect; client 0 creates room 0 and clients 1, 2, 3 join it; all four
send READY and the round starts with client 0 as painter (`rand() % 4 = 0`): room 0 is in
PAINTING. -/
def painting_run : List (Env × Event) :=
  [ (env_at 100 0, Event.accept 5), (env_at 100 0, Event.accept 6),
    (env_at 100 0, Event.accept 7), (env_at 100 0, Event.accept 8),
    (env_at 100 0, Event.recv 0 (Msg.create_room [82] [97])),
    (env_at 100 0, Event.recv 1 (Msg.join_room 0 [98])),
    (env_at 100 0, Event.recv 2 (Msg.join_room 0 [99])),
    (env_at 100 0, Event.recv 3 (Msg.join_room 0 [100])),
    (env_at 100 0, Event.recv 0 Msg.client_ready),
    (env_at 100 0, Event.recv 1 Msg.client_ready),
    (env_at 100 0, Event.recv 2 Msg.client_ready),
    (env_at 100 0, Event.recv 3 Msg.client_ready) ]

/-- After `painting_run`, the painter finishes at time 110: room 0 is in GUESSING. -/
def guessing_run : List (Env × Event) :=
  painting_run ++ [(env_at 110 0, Event.recv 0 Msg.painter_finish)]

/-- After `guessing_run`, clients 1 and 2 both submit the guess "apple"; client 3 has not
guessed yet, so the round is still open. -/
def two_right_run : List (Env × Event) :=
  guessing_run ++
    [ (env_at 111 0, Event.recv 1 (Msg.guess_submit apple)),
      (env_at 112 0, Event.recv 2 (Msg.guess_submit apple)) ]

/-- After `guessing_run`, the painter (client 0) submits the guess "apple". -/
def painter_guess_run : List (Env × Event) :=
  guessing_run ++ [(env_at 111 0, Event.recv 0 (Msg.guess_submit apple))]

/-- For every room, the painter id and, for each seated member in slot order, its id,
`has_guessed` flag and stored guess. -/
def guess_view (s : Server) : List (Int × List (Nat × Bool × List Nat)) :=
  s.rooms.map (fun r =>
    (r.game.painter_id, (r.clients.filter seated).map (fun c => (c.id, c.has_guessed, c.guess))))

/-- Two clients connect; client 0 creates room 0 and client 1 joins it: room 0 is in
WAITING with two members. -/
def lobby_run : List (Env × Event) :=
  [ (env_at 100 0, Event.accept 5), (env_at 100 0, Event.accept 6),
    (env_at 100 0, Event.recv 0 (Msg.create_room [82] [97])),
    (env_at 100 0, Event.recv 1 (Msg.join_room 0 [98])) ]

/-- After `lobby_run`, client 1 submits the guess "apple" while the room is in WAITING; then
both members send READY, the round starts with client 0 as painter, and the painter
finishes at time 110. -/
def early_guess_run : List (Env × Event) :=
  lobby_run ++
    [ (env_at 101 0, Event.recv 1 (Msg.guess_submit apple)),
      (env_at 102 0, Event.recv 0 Msg.client_ready),
      (env_at 103 0, Event.recv 1 Msg.client_ready),
      (env_at 110 0, Event.recv 0 Msg.painter_finish) ]

/-- Three clients connect; client 0 creates room 0, client 1 joins it, both send READY and
the round starts (room 0 in PAINTING); then client 2 joins room 0. -/
def late_join_run : List (Env × Event) :=
  [ (env_at 100 0, Event.accept 5), (env_at 100 0, Event.accept 6),
    (env_at 100 0, Event.accept 7),
    (env_at 100 0, Event.recv 0 (Msg.create_room [82] [97])),
    (env_at 100 0, Event.recv 1 (Msg.join_room 0 [98])),
    (env_at 101 0, Event.recv 0 Msg.client_ready),
    (env_at 102 0, Event.recv 1 Msg.client_ready),
    (env_at 103 0, Event.recv 2 (Msg.join_room 0 [99])) ]

/-- For every room, the game state, `ready_count`, `total_clients` and, for each seated
member in slot order, its id and `ready` flag. -/
def ready_view (s : Server) : List (GameState × Int × Int × List (Nat × Bool)) :=
  s.rooms.map (fun r =>
    (r.game.state, r.game.ready_count, r.game.total_clients,
      (r.clients.filter seated).map (fun c => (c.id, c.ready))))

/-- The run `painting_run` without its last READY: room 0 is in READY, with four seated
members of which three are ready. -/
def almost_ready_run : List (Env × Event) := painting_run.take 11

/-- One client connects and creates ten rooms in a row: every room slot has a name. -/
def full_run : List (Env × Event) :=
  (env_at 100 0, Event.accept 5)
    :: List.replicate 10 (env_at 100 0, Event.recv 0 (Msg.create_room [82] [97]))

/-- One client connects, creates room 0, sends READY (the room enters READY) and leaves the
room with LEAVE_ROOM: room 0 is free again. -/
def recreate_run : List (Env × Event) :=
  [ (env_at 100 0, Event.accept 5),
    (env_at 100 0, Event.recv 0 (Msg.create_room [82] [97])),
    (env_at 101 0, Event.recv 0 Msg.client_ready),
    (env_at 102 0, Event.recv 0 (Msg.leave_room 0)) ]

/-- The ROOM_CREATED frame with the given body fields. -/
def room_created_frame (room_id : Nat) (room_name nickname : List Nat) (num_players : Nat) :
    Frame :=
  { base :=
      { type := MSG_ROOM_CREATED
        client_id := 0
        data_len := sizeof_RoomCreatedMessage - sizeof_BaseMessage }
    body := Body.roomCreated room_id room_name nickname num_players }

/-- The ROOM_JOINED frame with the given body fields. -/
def room_joined_frame (room_id : Nat) (room_name nickname : List Nat) (num_players : Nat) :
    Frame :=
  { base :=
      { type := MSG_ROOM_JOINED
        client_id := 0
        data_len := sizeof_RoomJoinedMessage - sizeof_BaseMessage }
    body := Body.roomJoined room_id room_name nickname num_players }

/-- The run `late_join_run` without its last event: room 0 is in PAINTING with two members,
and client 2 is connected but in no room. -/
def before_join_run : List (Env × Event) := late_join_run.take 7

/-- For every room, `total_clients`, `client_count`, and the indices of the occupied slots
with the id seated there. -/
def seat_view (s : Server) : List (Int × Int × List (Nat × Nat)) :=
  s.rooms.map (fun r =>
    (r.game.total_clients, r.client_count,
      (r.clients.enum.filter (fun p => seated p.2)).map (fun p => (p.1, p.2.id))))

/-- After `lobby_run` both members send READY, the round starts (client 0 paints "apple"),
and then both members leave room 0 with LEAVE_ROOM. -/
def all_leave_run : List (Env × Event) :=
  lobby_run ++
    [ (env_at 101 0, Event.recv 0 Msg.client_ready),
      (env_at 102 0, Event.recv 1 Msg.client_ready),
      (env_at 103 0, Event.recv 0 (Msg.leave_room 0)),
      (env_at 104 0, Event.recv 1 (Msg.leave_room 0)) ]

/-- The same run as `all_leave_run`, except that both members leave by closing their
connection (`remove_client`). -/
def all_close_run : List (Env × Event) :=
  lobby_run ++
    [ (env_at 101 0, Event.recv 0 Msg.client_ready),
      (env_at 102 0, Event.recv 1 Msg.client_ready),
      (env_at 103 0, Event.closed 0),
      (env_at 104 0, Event.closed 1) ]

/-- For every room: whether its name is empty, the number of occupied slots, and the game
fields `state`, `ready_count`, `total_clients`. -/
def game_view (s : Server) : List (Bool × Nat × GameState × Int × Int) :=
  s.rooms.map (fun r =>
    (first_is_nul r.name, (r.clients.filter seated).length, r.game.state, r.game.ready_count,
      r.game.total_clients))

/-- For every room, the game fields `painter_id` and `current_word`. -/
def word_view (s : Server) : List (Int × List Nat) :=
  s.rooms.map (fun r => (r.game.painter_id, r.game.current_word))

/-- One client connects, creates room 0 and sends READY; without leaving it creates room 1,
and then leaves room 1 with LEAVE_ROOM. -/
def stale_ready_run : List (Env × Event) :=
  [ (env_at 100 0, Event.accept 5),
    (env_at 100 0, Event.recv 0 (Msg.create_room [82] [97])),
    (env_at 101 0, Event.recv 0 Msg.client_ready),
    (env_at 102 0, Event.recv 0 (Msg.create_room [83] [97])),
    (env_at 103 0, Event.recv 0 (Msg.leave_room 1)) ]

/-- Two clients connect; client 1 sends CREATE_ROOM with an empty room name (room 0 is
taken but still looks free), client 0 sends CREATE_ROOM "X" (room 0 again), and client 1
closes its connection. -/
def empty_name_run : List (Env × Event) :=
  [ (env_at 100 0, Event.accept 5), (env_at 100 0, Event.accept 6),
    (env_at 101 0, Event.recv 1 (Msg.create_room [] [98])),
    (env_at 102 0, Event.recv 0 (Msg.create_room [88] [97])),
    (env_at 103 0, Event.closed 1) ]

/-- One client connects and sends CREATE_ROOM twice. -/
def two_rooms_run : List (Env × Event) :=
  [ (env_at 100 0, Event.accept 5),
    (env_at 100 0, Event.recv 0 (Msg.create_room [82] [97])),
    (env_at 101 0, Event.recv 0 (Msg.create_room [83] [97])) ]

/-- After `painting_run` (client 0 paints in room 0), the painter leaves room 0 with
LEAVE_ROOM and creates a new room. -/
def painter_moves_run : List (Env × Event) :=
  painting_run ++
    [ (env_at 105 0, Event.recv 0 (Msg.leave_room 0)),
      (env_at 106 0, Event.recv 0 (Msg.create_room [83] [97])) ]

/-- For every room, the game state and, for each seated member in slot order, its id and
`is_painter` flag. -/
def painter_view (s : Server) : List (GameState × List (Nat × Bool)) :=
  s.rooms.map (fun r =>
    (r.game.state, (r.clients.filter seated).map (fun c => (c.id, c.is_painter))))

/-- The slots of a room after the datagram address of the client `cid` is latched into the
first slot carrying that id (lines 998-1004). -/
def latch_slots (slots : List ClientInfo) (cid client_addr : Nat) : List ClientInfo :=
  match find_first (fun c => c.id == cid) slots with
  | none => slots
  | some (i, c) => slots.set i { c with udp_addr := client_addr, has_udp_addr := true }

/-- The client table after the datagram address of the client `cid` is latched
(lines 991-992). -/
def latch_client (clients : List ClientInfo) (cid client_addr : Nat) (g : ClientInfo) :
    List ClientInfo :=
  clients.set cid { g with udp_addr := client_addr, has_udp_addr := true }

/-- The datagrams forwarded for `paint_msg` (lines 1041-1050): one per occupied slot with
another id and a latched address, in slot order. -/
def forwarded (slots : List ClientInfo) (paint_msg : PaintDataMessage) : List Out :=
  (slots.filter
      (fun c => seated c && (c.id != paint_msg.base.client_id) && c.has_udp_addr)).map
    (fun c => Out.sendto c.udp_addr paint_msg)

/-- The stroke point recorded for a datagram (lines 1020-1022). -/
def point_of (paint_msg : PaintDataMessage) : DrawingPoint :=
  { x := paint_msg.x, y := paint_msg.y, action := paint_msg.action }

/-- A datagram from client `cid` with the given action byte, at the origin, in black. -/
def datagram_of (cid action : Nat) : PaintDataMessage :=
  { base := { type := MSG_PAINT_DATA, client_id := cid, data_len := 8 }
    x := 0, y := 0, action := action, color_r := 0, color_g := 0, color_b := 0 }

/-- After `painting_run` (client 0 paints in room 0), client 1 sends its registration
datagram (action 0) from address 1001. -/
def registered_run : List (Env × Event) :=
  painting_run ++ [(env_at 101 0, Event.datagram 1001 (datagram_of 1 0))]

/-- Every room's stroke history is within the bound `MAX_DRAWING_POINTS`. -/
def hist_ok (s : Server) : Prop :=
  ∀ r ∈ s.rooms, r.history_count ≤ MAX_DRAWING_POINTS

/-- Room 0 of `painting_run` with its stroke history filled up to the bound. -/
def full_room : Room :=
  { (server_after painting_run).rooms.getD 0 (init_room 0) with
    drawing_history := List.replicate MAX_DRAWING_POINTS { x := 1, y := 1, action := 2 } }

/-- The tables of `painting_run` with `full_room` as room 0. -/
def full_history_server : Server :=
  { server_after painting_run with
    rooms := (server_after painting_run).rooms.set 0 full_room }

/-- Every occupied slot of every room carries an id inside the client table. -/
def slots_valid (s : Server) : Prop :=
  ∀ r ∈ s.rooms, ∀ c ∈ r.clients, seated c = true → c.id < s.clients.length

instance (s : Server) : Decidable (slots_valid s) := by
  unfold slots_valid
  infer_instance

/-- The PAINTER_FINISH frame. -/
def painter_finish_frame : Frame := base_only MSG_PAINTER_FINISH 0

/-- Room 0 after `painting_run`: in PAINTING since time 100, painter 0, four members. -/
def painting_room : Room := (server_after painting_run).rooms.getD 0 (init_room 0)

/-- The room after the two writes of the PAINTING → GUESSING transition
(lines 698-699 and 1072-1073). -/
def to_guessing (now : Int) (room : Room) : Room :=
  { room with
    game := { room.game with state := GameState.GAME_GUESSING, guess_start_time := now } }

/-- One PAINTER_FINISH frame to every occupied slot of the room, in slot order. -/
def finish_broadcast (room : Room) : List Out :=
  (room.clients.filter seated).map (fun c => Out.send c.socket_fd painter_finish_frame)

/-- The HISTORY_DATA frame with the given body fields. -/
def history_data_frame (game_id : Int) (word user_guess game_time : List Nat) : Frame :=
  { base :=
      { type := MSG_HISTORY_DATA
        client_id := 0
        data_len := sizeof_HistoryDataMessage - sizeof_BaseMessage }
    body := Body.historyData game_id word user_guess game_time }

/-- The ROOM_LIST frame with the given body fields. -/
def room_list_frame (num_rooms : Nat) (rooms : List RoomInfo) : Frame :=
  { base :=
      { type := MSG_ROOM_LIST
        client_id := 0
        data_len := sizeof_RoomListMessage - sizeof_BaseMessage }
    body := Body.roomList num_rooms rooms }

/-- The ROOM_LEFT frame with the given room id. -/
def room_left_frame (room_id : Nat) : Frame :=
  { base :=
      { type := MSG_ROOM_LEFT
        client_id := 0
        data_len := sizeof_RoomLeftMessage - sizeof_BaseMessage }
    body := Body.roomLeft room_id }

/-- The frames the handler of an event builds: the shapes of the message structs filled in
by the code that the event runs. -/
def emitted_by : Event → Frame → Prop
  | Event.recv client_id msg, f =>
    match msg with
    | Msg.client_ready => ∃ game c, f = game_start_msg game c
    | Msg.painter_finish => f = painter_finish_frame
    | Msg.guess_submit _ => ∃ room, f = game_end_msg room ∨ f = ai_result_msg room
    | Msg.history_req =>
      (∃ a b c d, f = history_data_frame a b c d) ∨ f = base_only MSG_HISTORY_END 0
    | Msg.room_list_req => ∃ n l, f = room_list_frame n l
    | Msg.create_room _ _ =>
      (∃ a b c d, f = room_created_frame a b c d) ∨ f = base_only MSG_ERROR (client_id % 256)
    | Msg.join_room _ _ =>
      (∃ a b c d, f = room_joined_frame a b c d) ∨ f = base_only MSG_ERROR (client_id % 256)
    | Msg.leave_room _ => ∃ a, f = room_left_frame a
    | _ => False
  | Event.tick, f =>
    f = painter_finish_frame ∨ ∃ room, f = game_end_msg room ∨ f = ai_result_msg room
  | _, _ => False

/-- Every frame written to a stream socket by a list of effects satisfies `P`. -/
def sends_ok (P : Frame → Prop) (out : List Out) : Prop :=
  ∀ fd f, Out.send fd f ∈ out → P f

/-- The room as `end_game` leaves it (lines 574 and 610-621). -/
def after_end_game (room : Room) : Room :=
  { room with
    game :=
      { room.game with
        state := GameState.GAME_WAITING
        painter_id := -1
        ready_count := 0
        current_word := [] }
    ai_result_ready := false
    clients := room.clients.map (fun c => if seated c then reset_flags c else c) }

/-- One GAME_END frame, as `end_game` builds it for the room, to every occupied slot of the
room, in slot order. -/
def game_end_broadcast (room : Room) : List Out :=
  (room.clients.filter seated).map (fun c => Out.send c.socket_fd (game_end_msg room))

/-- One AI_GUESS_RESULT frame to every occupied slot of the room when a result is parked,
nothing otherwise. -/
def ai_broadcast (room : Room) : List Out :=
  if room.ai_result_ready then
    (room.clients.filter seated).map (fun c => Out.send c.socket_fd (ai_result_msg room))
  else []

/-- The room `r` is in GUESSING. -/
def in_guessing (s : Server) (r : Nat) : Prop :=
  ∃ room, s.rooms[r]? = some room ∧ room.game.state = GameState.GAME_GUESSING

/-- The room after the guess of the client `client_id` is stored in its slot
(lines 732-738). -/
def recorded (room : Room) (client_id : Nat) (guess : List Nat) : Room :=
  { room with clients := record_guess room.clients client_id guess }

/-- Room 0 after `guessing_run`: in GUESSING since time 110, painter 0, nobody has guessed. -/
def guessing_room : Room := (server_after guessing_run).rooms.getD 0 (init_room 0)

/-- Room 0 after `two_right_run`: in GUESSING, clients 1 and 2 have guessed, client 3 has
not. -/
def two_right_room : Room := (server_after two_right_run).rooms.getD 0 (init_room 0)

/-- The per-round fields of a client record are clear: `ready`, `has_guessed` and
`is_painter` are 0 and the stored guess is empty. -/
def cleared (c : ClientInfo) : Prop :=
  c.ready = false ∧ c.has_guessed = false ∧ c.is_painter = false ∧ c.guess = []

/-- The record `c1` describes the same member as `c`: same descriptor, id, nickname, room
and datagram address. -/
def same_member (c c1 : ClientInfo) : Prop :=
  c1.socket_fd = c.socket_fd ∧ c1.id = c.id ∧ c1.nickname = c.nickname
    ∧ c1.room_id = c.room_id ∧ c1.udp_addr = c.udp_addr ∧ c1.has_udp_addr = c.has_udp_addr

/-- The AI_GUESS_RESULT frame with the given body fields. -/
def ai_result_frame (predicted_word : List Nat) (score is_correct : Nat) : Frame :=
  { base :=
      { type := MSG_AI_GUESS_RESULT
        client_id := 0
        data_len := sizeof_AiGuessResultMessage - sizeof_BaseMessage }
    body := Body.aiGuessResult predicted_word score is_correct }

/-- The bytes of "cat". -/
def cat : List Nat := [99, 97, 116]

/-- A first round in room 0 between clients 0 (painter) and 1: the painter finishes at time
110, which starts the AI thread of the round, and client 1 guesses at time 111, which ends
the round; no AI reply has arrived. -/
def first_round_run : List (Env × Event) :=
  lobby_run ++
    [ (env_at 101 0, Event.recv 0 Msg.client_ready),
      (env_at 102 0, Event.recv 1 Msg.client_ready),
      (env_at 110 0, Event.recv 0 Msg.painter_finish),
      (env_at 111 0, Event.recv 1 (Msg.guess_submit apple)) ]

/-- After `first_round_run` both members send READY again and the second round starts at
time 121; only then does the AI reply of the first round arrive ("cat", score 7, not
correct); the painter finishes at time 130, which starts the AI thread of the second
round. -/
def late_ai_run : List (Env × Event) :=
  first_round_run ++
    [ (env_at 120 0, Event.recv 0 Msg.client_ready),
      (env_at 121 0, Event.recv 1 Msg.client_ready),
      (env_at 125 0, Event.ai_reply 0 cat 7 0),
      (env_at 130 0, Event.recv 0 Msg.painter_finish) ]

/-- After `first_round_run` the AI reply of the first round arrives while the room waits
(between GAME_END and the next GAME_START); then both members send READY, the second round
starts, and the painter finishes at time 130. -/
def between_rounds_ai_run : List (Env × Event) :=
  first_round_run ++
    [ (env_at 115 0, Event.ai_reply 0 cat 7 0),
      (env_at 120 0, Event.recv 0 Msg.client_ready),
      (env_at 121 0, Event.recv 1 Msg.client_ready),
      (env_at 130 0, Event.recv 0 Msg.painter_finish) ]

/-- The AI threads still running after a run from the initial state. -/
def pending_after (evs : List (Env × Event)) : Option (List Nat) :=
  (run init_sys evs).map (fun y => y.ai_pending)

/-- After `painting_run` (client 0 paints in room 0 since time 100) the painter closes its
connection at time 110. -/
def painter_gone_run : List (Env × Event) :=
  painting_run ++ [(env_at 110 0, Event.closed 0)]

/-- After `painting_run` the painter (client 0, seated in room 0) sends LEAVE_ROOM with the
id of room 7, a room it is not in, and then closes its connection at time 110. -/
def painter_stale_leave_run : List (Env × Event) :=
  painting_run ++
    [ (env_at 105 0, Event.recv 0 (Msg.leave_room 7)),
      (env_at 110 0, Event.closed 0) ]

/-- After `painting_run` the painter leaves room 0 with LEAVE_ROOM and joins it again. -/
def painter_rejoin_run : List (Env × Event) :=
  painting_run ++
    [ (env_at 105 0, Event.recv 0 (Msg.leave_room 0)),
      (env_at 106 0, Event.recv 0 (Msg.join_room 0 [97])) ]

/-- After `painter_gone_run` (the painter, client 0, has closed its connection at time 110) a
new connection is accepted on descriptor 9 and takes the free client id 0; the newcomer
joins room 0 at time 112. -/
def painter_id_reused_run : List (Env × Event) :=
  painter_gone_run ++
    [ (env_at 111 0, Event.accept 9),
      (env_at 112 0, Event.recv 0 (Msg.join_room 0 [122])) ]

/-- The room after `remove_client` has removed a ready member seated in slot `i` while
other members remain counted (lines 401-409). -/
def member_removed (room : Room) (i : Nat) (c : ClientInfo) : Room :=
  { room with
    clients := room.clients.set i { c with socket_fd := -1 }
    client_count := room.client_count - 1
    game :=
      { room.game with
        total_clients := room.game.total_clients - 1
        ready_count := room.game.ready_count - 1 } }

/-- The global record of client 0 after `painting_run`. -/
def painter_record : ClientInfo := (server_after painting_run).clients.getD 0 free_client

/-- The slot of client 0 in room 0 after `painting_run`. -/
def painter_slot : ClientInfo := painting_room.clients.getD 0 free_client

/-- The size of the message struct a frame is the memory image of: the number of bytes the
code passes to `send` where it sends `sizeof` of the struct. -/
def sizeof_frame (f : Frame) : Nat :=
  match f.body with
  | Body.empty => sizeof_BaseMessage
  | Body.gameStart _ _ _ => sizeof_GameStartMessage
  | Body.gameEnd _ _ _ => sizeof_GameEndMessage
  | Body.historyData _ _ _ _ => sizeof_HistoryDataMessage
  | Body.roomList _ _ => sizeof_RoomListMessage
  | Body.roomCreated _ _ _ _ => sizeof_RoomCreatedMessage
  | Body.roomJoined _ _ _ _ => sizeof_RoomJoinedMessage
  | Body.roomLeft _ => sizeof_RoomLeftMessage
  | Body.aiGuessResult _ _ _ => sizeof_AiGuessResultMessage

/-- The `data_len` of a message type as the code computes it:
`sizeof(message struct) - sizeof(BaseMessage)`, and 0 for the types sent as a bare
`BaseMessage`. -/
def abi_data_len (type : Nat) : Nat :=
  if type = MSG_GAME_START then sizeof_GameStartMessage - sizeof_BaseMessage
  else if type = MSG_GAME_END then sizeof_GameEndMessage - sizeof_BaseMessage
  else if type = MSG_HISTORY_DATA then sizeof_HistoryDataMessage - sizeof_BaseMessage
  else if type = MSG_ROOM_LIST then sizeof_RoomListMessage - sizeof_BaseMessage
  else if type = MSG_ROOM_CREATED then sizeof_RoomCreatedMessage - sizeof_BaseMessage
  else if type = MSG_ROOM_JOINED then sizeof_RoomJoinedMessage - sizeof_BaseMessage
  else if type = MSG_ROOM_LEFT then sizeof_RoomLeftMessage - sizeof_BaseMessage
  else if type = MSG_AI_GUESS_RESULT then sizeof_AiGuessResultMessage - sizeof_BaseMessage
  else 0

/-- The `data_len` of a message type by the wire table of the specification: the sum of the
widths of the body fields listed for the type. -/
def table_data_len (type : Nat) : Nat :=
  if type = MSG_GAME_START then 1 + 32 + 4
  else if type = MSG_GAME_END then 32 + 1 + 1
  else if type = MSG_HISTORY_DATA then 4 + 32 + 64 + 32
  else if type = MSG_ROOM_LIST then 1 + 10 * (1 + 32 + 1)
  else if type = MSG_ROOM_CREATED then 1 + 32 + 32 + 1
  else if type = MSG_ROOM_JOINED then 1 + 32 + 32 + 1
  else if type = MSG_ROOM_LEFT then 1
  else if type = MSG_AI_GUESS_RESULT then 32 + 1 + 1
  else 0

/-- The message types the server writes to a stream socket. -/
def outbound_types : List Nat :=
  [MSG_GAME_START, MSG_GAME_END, MSG_ERROR, MSG_PAINTER_FINISH, MSG_HISTORY_DATA,
    MSG_HISTORY_END, MSG_ROOM_LIST, MSG_ROOM_CREATED, MSG_ROOM_JOINED, MSG_ROOM_LEFT,
    MSG_AI_GUESS_RESULT]

/-- The message types whose struct has padding: their `data_len` is larger than the sum of
the field widths. -/
def padded_types : List Nat := [MSG_GAME_START, MSG_ROOM_LIST, MSG_ROOM_LEFT]

/-- The type and `data_len` of every frame written to a stream socket, in order. -/
def sent_lens : List Out → List (Nat × Nat)
  | [] => []
  | Out.send _ f :: os => (f.base.type, f.base.data_len) :: sent_lens os
  | _ :: os => sent_lens os

/-- One client connects. -/
def one_client_run : List (Env × Event) := [(env_at 100 0, Event.accept 5)]

/-! ## The locks (`pthread_mutex_lock` / `pthread_mutex_unlock` calls of each function)

The handlers above are embedded as atomic steps.  For the lock discipline each function is
embedded a second time, as the sequence of lock operations it performs on a given
execution path; the path is selected by the outcome of the tests the function makes. -/

/-- The two registry locks of `draw_guess_server.c`. -/
inductive Mutex where
  | clients_mutex
  | rooms_mutex
  deriving DecidableEq, Repr

/-- A call of `pthread_mutex_lock` or `pthread_mutex_unlock`. -/
inductive LockOp where
  | lock (m : Mutex)
  | unlock (m : Mutex)
  deriving DecidableEq, Repr

/-- The lock operations of `add_client` (lines 359-385), on every path. -/
def locks_add_client : List LockOp :=
  [LockOp.lock Mutex.clients_mutex, LockOp.unlock Mutex.clients_mutex]

/-- The lock operations of `remove_client` (lines 391-424), which also is the whole of the
case `MSG_CLIENT_LEAVE`: `rooms_mutex` is taken inside `clients_mutex` when the client is
connected and in a room. -/
def locks_remove_client (is_connected in_room : Bool) : List LockOp :=
  [LockOp.lock Mutex.clients_mutex]
    ++ (if is_connected && in_room then
          [LockOp.lock Mutex.rooms_mutex, LockOp.unlock Mutex.rooms_mutex]
        else [])
    ++ [LockOp.unlock Mutex.clients_mutex]

/-- The lock operations of `broadcast_message` (lines 429-443): none when the room id is out
of range. -/
def locks_broadcast_message (in_range : Bool) : List LockOp :=
  if in_range then [LockOp.lock Mutex.rooms_mutex, LockOp.unlock Mutex.rooms_mutex] else []

/-- The lock operations of `start_game` (lines 447-513), the same on every path. -/
def locks_start_game : List LockOp :=
  [LockOp.lock Mutex.rooms_mutex, LockOp.unlock Mutex.rooms_mutex]

/-- The lock operations of `end_game` (lines 517-631): the lock is dropped around each of
the two broadcasts. -/
def locks_end_game (guessing ai_ready : Bool) : List LockOp :=
  if guessing then
    [LockOp.lock Mutex.rooms_mutex, LockOp.unlock Mutex.rooms_mutex]
      ++ locks_broadcast_message true
      ++ [LockOp.lock Mutex.rooms_mutex]
      ++ (if ai_ready then
            [LockOp.unlock Mutex.rooms_mutex] ++ locks_broadcast_message true
              ++ [LockOp.lock Mutex.rooms_mutex]
          else [])
      ++ [LockOp.unlock Mutex.rooms_mutex]
  else [LockOp.lock Mutex.rooms_mutex, LockOp.unlock Mutex.rooms_mutex]

/-- The lock operations of the case `MSG_CLIENT_READY` (lines 657-689). -/
def locks_client_ready (in_room can_start : Bool) : List LockOp :=
  if in_room then
    [LockOp.lock Mutex.rooms_mutex]
      ++ (if can_start then
            [LockOp.unlock Mutex.rooms_mutex] ++ locks_start_game
              ++ [LockOp.lock Mutex.rooms_mutex]
          else [])
      ++ [LockOp.unlock Mutex.rooms_mutex]
  else []

/-- The lock operations of the case `MSG_PAINTER_FINISH` (lines 694-720). -/
def locks_painter_finish (in_room finishing : Bool) : List LockOp :=
  if in_room then
    [LockOp.lock Mutex.rooms_mutex, LockOp.unlock Mutex.rooms_mutex]
      ++ (if finishing then locks_broadcast_message true else [])
  else []

/-- The lock operations of the case `MSG_GUESS_SUBMIT` (lines 727-761). -/
def locks_guess_submit (in_room everyone_guessed guessing ai_ready : Bool) : List LockOp :=
  if in_room then
    [LockOp.lock Mutex.rooms_mutex, LockOp.unlock Mutex.rooms_mutex]
      ++ (if everyone_guessed then locks_end_game guessing ai_ready else [])
  else []

/-- The lock operations of the case `MSG_ROOM_LIST_REQ` (lines 802-816). -/
def locks_room_list_req : List LockOp :=
  [LockOp.lock Mutex.rooms_mutex, LockOp.unlock Mutex.rooms_mutex]

/-- The lock operations of the case `MSG_CREATE_ROOM` (lines 823-849): when a free room is
found, `clients_mutex` is taken (line 837) while `rooms_mutex` is held. -/
def locks_create_room (found : Bool) : List LockOp :=
  [LockOp.lock Mutex.rooms_mutex]
    ++ (if found then
          [LockOp.lock Mutex.clients_mutex, LockOp.unlock Mutex.clients_mutex]
        else [])
    ++ [LockOp.unlock Mutex.rooms_mutex]

/-- The lock operations of the case `MSG_JOIN_ROOM` (lines 876-900): when a free slot is
found, `clients_mutex` is taken (line 885) while `rooms_mutex` is held. -/
def locks_join_room (found : Bool) : List LockOp :=
  [LockOp.lock Mutex.rooms_mutex]
    ++ (if found then
          [LockOp.lock Mutex.clients_mutex, LockOp.unlock Mutex.clients_mutex]
        else [])
    ++ [LockOp.unlock Mutex.rooms_mutex]

/-- The lock operations of the case `MSG_LEAVE_ROOM` (lines 927-956). -/
def locks_leave_room : List LockOp :=
  [LockOp.lock Mutex.rooms_mutex, LockOp.unlock Mutex.rooms_mutex,
    LockOp.lock Mutex.clients_mutex, LockOp.unlock Mutex.clients_mutex]

/-- The lock operations of one iteration of `handle_udp_server` (lines 988-1053). -/
def locks_udp_server (id_in_range in_room : Bool) : List LockOp :=
  (if id_in_range then
      [LockOp.lock Mutex.clients_mutex]
        ++ (if in_room then
              [LockOp.lock Mutex.rooms_mutex, LockOp.unlock Mutex.rooms_mutex]
            else [])
        ++ [LockOp.unlock Mutex.clients_mutex]
    else [])
    ++ (if id_in_range && in_room then
          [LockOp.lock Mutex.rooms_mutex, LockOp.unlock Mutex.rooms_mutex]
        else [])

/-- What `game_timer` does for one room. -/
inductive TimerAct where
  | idle
  | paint_deadline
  | guess_deadline (guessing ai_ready : Bool)
  deriving DecidableEq, Repr

/-- The lock operations of the body of the room loop of `game_timer` (lines 1069-1106),
entered and left with `rooms_mutex` held. -/
def locks_timer_act : TimerAct → List LockOp
  | TimerAct.idle => []
  | TimerAct.paint_deadline =>
    [LockOp.unlock Mutex.rooms_mutex] ++ locks_broadcast_message true
      ++ [LockOp.lock Mutex.rooms_mutex]
  | TimerAct.guess_deadline guessing ai_ready =>
    [LockOp.unlock Mutex.rooms_mutex] ++ locks_end_game guessing ai_ready
      ++ [LockOp.lock Mutex.rooms_mutex]

/-- The lock operations of the room loop of `game_timer`. -/
def locks_timer_acts : List TimerAct → List LockOp
  | [] => []
  | a :: acts => locks_timer_act a ++ locks_timer_acts acts

/-- The lock operations of one wake-up of `game_timer` (lines 1065-1108). -/
def locks_game_timer (acts : List TimerAct) : List LockOp :=
  [LockOp.lock Mutex.rooms_mutex] ++ locks_timer_acts acts
    ++ [LockOp.unlock Mutex.rooms_mutex]

/-- The lock operations of `ai_guess_thread` (lines 193-319): the request is built under
`rooms_mutex`; a failed `connect` unlocks `rooms_mutex` once more (line 253); a reply is
stored under `rooms_mutex`. -/
def locks_ai_guess_thread (connect_ok replied : Bool) : List LockOp :=
  [LockOp.lock Mutex.rooms_mutex, LockOp.unlock Mutex.rooms_mutex]
    ++ (if connect_ok then
          (if replied then [LockOp.lock Mutex.rooms_mutex, LockOp.unlock Mutex.rooms_mutex]
           else [])
        else [LockOp.unlock Mutex.rooms_mutex])

/-- An execution path of a handler. -/
inductive Path where
  | add_client
  | remove_client (is_connected in_room : Bool)
  | client_join
  | client_ready (in_room can_start : Bool)
  | painter_finish (in_room finishing : Bool)
  | guess_submit (in_room everyone_guessed guessing ai_ready : Bool)
  | client_leave (is_connected in_room : Bool)
  | history_req
  | room_list_req
  | create_room (found : Bool)
  | join_room (found : Bool)
  | leave_room
  | udp_server (id_in_range in_room : Bool)
  | game_timer (acts : List TimerAct)
  | ai_guess_thread (connect_ok replied : Bool)
  deriving DecidableEq, Repr

/-- The lock operations of an execution path. -/
def locks_of : Path → List LockOp
  | Path.add_client => locks_add_client
  | Path.remove_client is_connected in_room => locks_remove_client is_connected in_room
  | Path.client_join => []
  | Path.client_ready in_room can_start => locks_client_ready in_room can_start
  | Path.painter_finish in_room finishing => locks_painter_finish in_room finishing
  | Path.guess_submit in_room everyone_guessed guessing ai_ready =>
    locks_guess_submit in_room everyone_guessed guessing ai_ready
  | Path.client_leave is_connected in_room => locks_remove_client is_connected in_room
  | Path.history_req => []
  | Path.room_list_req => locks_room_list_req
  | Path.create_room found => locks_create_room found
  | Path.join_room found => locks_join_room found
  | Path.leave_room => locks_leave_room
  | Path.udp_server id_in_range in_room => locks_udp_server id_in_range in_room
  | Path.game_timer acts => locks_game_timer acts
  | Path.ai_guess_thread connect_ok replied => locks_ai_guess_thread connect_ok replied

/-- The lock order `clients_mutex` before `rooms_mutex` is respected by a sequence of lock
operations run by a thread that holds the locks `held`: `clients_mutex` is never taken
while `rooms_mutex` is held. -/
def ordered_from (held : List Mutex) : List LockOp → Bool
  | [] => true
  | LockOp.lock m :: ops =>
    !(m == Mutex.clients_mutex && held.contains Mutex.rooms_mutex)
      && ordered_from (m :: held) ops
  | LockOp.unlock m :: ops => ordered_from (held.erase m) ops

/-- The lock order is respected by a thread that starts with no lock held. -/
def lock_order_ok (ops : List LockOp) : Bool := ordered_from [] ops

/-- Two threads: the lock operations each has still to run, and the locks each holds. -/
structure TwoThreads where
  todo1 : List LockOp
  todo2 : List LockOp
  held1 : List Mutex
  held2 : List Mutex
  deriving DecidableEq, Repr

/-- A thread can run its next lock operation: a `lock` needs the mutex not to be held by the
other thread (nor, the mutexes not being recursive, by itself). -/
def can_run (todo : List LockOp) (own other : List Mutex) : Bool :=
  match todo with
  | [] => false
  | LockOp.lock m :: _ => !(own.contains m) && !(other.contains m)
  | LockOp.unlock _ :: _ => true

/-- The locks held after an operation. -/
def held_after (held : List Mutex) : LockOp → List Mutex
  | LockOp.lock m => m :: held
  | LockOp.unlock m => held.erase m

/-- One step of the first (`true`) or second (`false`) thread; `none` when it cannot run. -/
def thread_step (y : TwoThreads) (first : Bool) : Option TwoThreads :=
  if first then
    match y.todo1 with
    | [] => none
    | op :: rest =>
      if can_run y.todo1 y.held1 y.held2 then
        some { y with todo1 := rest, held1 := held_after y.held1 op }
      else none
  else
    match y.todo2 with
    | [] => none
    | op :: rest =>
      if can_run y.todo2 y.held2 y.held1 then
        some { y with todo2 := rest, held2 := held_after y.held2 op }
      else none

/-- A schedule of two threads: which thread runs at each step. -/
def interleave : TwoThreads → List Bool → Option TwoThreads
  | y, [] => some y
  | y, first :: rest =>
    match thread_step y first with
    | none => none
    | some y1 => interleave y1 rest

/-- Both threads have work left and neither can run: each waits for a lock the other
holds. -/
def deadlocked (y : TwoThreads) : Bool :=
  !y.todo1.isEmpty && !y.todo2.isEmpty
    && !can_run y.todo1 y.held1 y.held2 && !can_run y.todo2 y.held2 y.held1

/-- The operation is on `rooms_mutex`. -/
def on_rooms_mutex : LockOp → Bool
  | LockOp.lock m => m == Mutex.rooms_mutex
  | LockOp.unlock m => m == Mutex.rooms_mutex

/-- Two clients connect; client 0 creates room 0 and client 1 creates room 1 and sends
READY there; without leaving room 1, client 1 then joins room 0. -/
def ready_then_join_run : List (Env × Event) :=
  [ (env_at 100 0, Event.accept 5), (env_at 100 0, Event.accept 6),
    (env_at 100 0, Event.recv 0 (Msg.create_room [82] [97])),
    (env_at 101 0, Event.recv 1 (Msg.create_room [83] [98])),
    (env_at 102 0, Event.recv 1 Msg.client_ready),
    (env_at 103 0, Event.recv 1 (Msg.join_room 0 [98])) ]

/-- After `ready_then_join_run`, client 0 sends READY in room 0. -/
def both_flagged_run : List (Env × Event) :=
  ready_then_join_run ++ [(env_at 104 0, Event.recv 0 Msg.client_ready)]

/-- Three clients connect; client 0 creates room 0, clients 1 and 2 join it, and clients 0
and 1 send READY: room 0 is in READY with two of its three members ready. -/
def two_of_three_run : List (Env × Event) :=
  [ (env_at 100 0, Event.accept 5), (env_at 100 0, Event.accept 6),
    (env_at 100 0, Event.accept 7),
    (env_at 100 0, Event.recv 0 (Msg.create_room [82] [97])),
    (env_at 100 0, Event.recv 1 (Msg.join_room 0 [98])),
    (env_at 100 0, Event.recv 2 (Msg.join_room 0 [99])),
    (env_at 101 0, Event.recv 0 Msg.client_ready),
    (env_at 102 0, Event.recv 1 Msg.client_ready) ]

/-- After `two_of_three_run`, client 2, the member that is not ready, leaves room 0 with
LEAVE_ROOM. -/
def last_unready_leaves_run : List (Env × Event) :=
  two_of_three_run ++ [(env_at 103 0, Event.recv 2 (Msg.leave_room 0))]

/-- After `two_of_three_run`, client 2, the member that is not ready, closes its
connection. -/
def last_unready_closes_run : List (Env × Event) :=
  two_of_three_run ++ [(env_at 103 0, Event.closed 2)]

/-- After `guessing_run`, client 1 submits a guess, leaves room 0 with LEAVE_ROOM and creates
a room of its own. -/
def guess_then_move_run : List (Env × Event) :=
  guessing_run ++
    [ (env_at 111 0, Event.recv 1 (Msg.guess_submit apple)),
      (env_at 112 0, Event.recv 1 (Msg.leave_room 0)),
      (env_at 113 0, Event.recv 1 (Msg.create_room [83] [98])) ]

/-- The number of occupied slots of a room whose `ready` flag is set. -/
def ready_slots (r : Room) : Nat := (r.clients.filter (fun c => seated c && c.ready)).length

/-- The room waits (WAITING or READY) although `ready_count == total_clients` and
`total_clients >= 2`, the condition under which the READY handler starts the round. -/
def waits_fully_ready (r : Room) : Prop :=
  (r.game.state = GameState.GAME_WAITING ∨ r.game.state = GameState.GAME_READY)
    ∧ r.game.ready_count = r.game.total_clients ∧ r.game.total_clients ≥ 2

instance (r : Room) : Decidable (waits_fully_ready r) := by
  unfold waits_fully_ready
  infer_instance

/-! # Theorems -/

/-! ## Lemmas on the helpers -/

/-- The function `strcmp` returns 0 exactly on buffers holding the same C string. -/
theorem strcmp_eq_zero_iff (a b : List Nat) : strcmp a b = 0 ↔ cstr a = cstr b := by
  induction a generalizing b with
  | nil =>
    cases b with
    | nil => simp [strcmp, cstr]
    | cons b bs =>
      by_cases hb : b = 0
      · simp [strcmp, cstr, hb]
      · simp [strcmp, cstr, hb]
  | cons a as ih =>
    cases b with
    | nil =>
      by_cases ha : a = 0
      · simp [strcmp, cstr, ha]
      · simp [strcmp, cstr, ha]
    | cons b bs =>
      by_cases hab : a = b
      · subst hab
        by_cases ha : a = 0
        · simp [strcmp, cstr, ha]
        · simp [strcmp, cstr, ha, ih]
      · by_cases ha : a = 0
        · have hb : b ≠ 0 := fun h => hab (by rw [ha, h])
          have : (a : Int) - (b : Int) ≠ 0 := by omega
          simp [strcmp, cstr, hab, ha, hb, this]
          omega
        · by_cases hb : b = 0
          · have : (a : Int) - (b : Int) ≠ 0 := by omega
            simp [strcmp, cstr, hab, ha, hb]
          · have : (a : Int) - (b : Int) ≠ 0 := by omega
            simp [strcmp, cstr, hab, ha, hb, this]

/-- The winner computed by the loop of `end_game` is the id of the last slot holding a
correct guess, and the initial value when there is none. -/
theorem tally_fst (word : List Nat) (cs : List ClientInfo) (acc : Nat × Nat) :
    (tally word cs acc).1 =
      (((cs.filter (guessed_right word)).getLast?).map (fun c => c.id % 256)).getD acc.1 := by
  induction cs generalizing acc with
  | nil => simp [tally]
  | cons c cs ih =>
    by_cases hg : (seated c && c.has_guessed) = true
    · by_cases hw : cstr c.guess = cstr word
      · have hr : guessed_right word c = true := by simp [guessed_right, hw, hg]
        have hz : strcmp c.guess word = 0 := (strcmp_eq_zero_iff _ _).2 hw
        rw [tally, if_pos hg, ih, List.filter_cons_of_pos hr, List.getLast?_cons]
        cases (cs.filter (guessed_right word)).getLast? <;> simp [hz]
      · have hr : ¬ guessed_right word c = true := by simp [guessed_right, hw]
        have hz : ¬ strcmp c.guess word = 0 := fun h => hw ((strcmp_eq_zero_iff _ _).1 h)
        rw [tally, if_pos hg, ih, List.filter_cons_of_neg hr]
        simp [hz]
    · have hr : ¬ guessed_right word c = true := by
        intro h
        apply hg
        simp [guessed_right] at h
        simp [h]
      rw [tally, if_neg hg, ih, List.filter_cons_of_neg hr]

/-- The count computed by the loop of `end_game` is the number of seated members that
guessed, as a `uint8_t`. -/
theorem tally_snd (word : List Nat) (cs : List ClientInfo) (acc : Nat × Nat)
    (hacc : acc.2 < 256) :
    (tally word cs acc).2 = (acc.2 + (cs.filter guessed).length) % 256 := by
  induction cs generalizing acc with
  | nil => simp [tally]; omega
  | cons c cs ih =>
    by_cases hg : (seated c && c.has_guessed) = true
    · have hr : guessed c = true := hg
      rw [tally, if_pos hg, ih _ (by simp; omega), List.filter_cons_of_pos hr]
      simp
      omega
    · have hr : ¬ guessed c = true := hg
      rw [tally, if_neg hg, ih _ hacc, List.filter_cons_of_neg hr]

/-- A broadcast that excludes nobody sends the frame once to every occupied slot. -/
theorem broadcast_message_all (s : Server) (msg : Frame) (room_id : Nat) (room : Room)
    (hroom : s.rooms[room_id]? = some room) (hid : room_id < MAX_ROOMS) :
    broadcast_message s msg (-1) (room_id : Int)
      = (room.clients.filter seated).map (fun c => Out.send c.socket_fd msg) := by
  have h1 : ¬ ((room_id : Int) < 0 ∨ (MAX_ROOMS : Int) ≤ (room_id : Int)) := by
    simp only [MAX_ROOMS] at hid ⊢
    omega
  have hf : (fun c : ClientInfo => seated c && ((c.id : Int) != -1)) = seated := by
    funext c
    have hne : (c.id : Int) ≠ -1 := by omega
    simp [hne]
  rw [broadcast_message, if_neg h1]
  simp [hroom, hf]

/-- The reset loop of `end_game` succeeds when every occupied slot carries a valid
client id, and keeps the size of the client table. -/
theorem reset_globals_some (cs clients : List ClientInfo)
    (h : ∀ c ∈ cs, seated c = true → c.id < clients.length) :
    ∃ cl, reset_globals cs clients = some cl ∧ cl.length = clients.length := by
  induction cs generalizing clients with
  | nil => exact ⟨clients, rfl, rfl⟩
  | cons c cs ih =>
    by_cases hs : seated c = true
    · have hlt : c.id < clients.length := h c (List.mem_cons_self _ _) hs
      have hget : clients[c.id]? = some clients[c.id] := List.getElem?_eq_getElem hlt
      obtain ⟨cl, hcl, hlen⟩ := ih (clients.set c.id (reset_flags clients[c.id]))
        (fun d hd hsd => by
          simpa using h d (List.mem_cons_of_mem _ hd) hsd)
      refine ⟨cl, ?_, by simpa using hlen⟩
      simp [reset_globals, hs, hget, hcl]
    · obtain ⟨cl, hcl, hlen⟩ := ih clients (fun d hd hsd => h d (List.mem_cons_of_mem _ hd) hsd)
      exact ⟨cl, by simp [reset_globals, hs, hcl], hlen⟩

/-- In GUESSING, `end_game` returns, and its effects start with the GAME_END frame sent
once to every occupied slot of the room. -/
theorem end_game_sends (s : Server) (room_id : Nat) (room : Room)
    (hroom : s.rooms[room_id]? = some room) (hid : room_id < MAX_ROOMS)
    (hst : room.game.state = GameState.GAME_GUESSING)
    (hvalid : ∀ c ∈ room.clients, seated c = true → c.id < s.clients.length) :
    ∃ s1 out2, end_game s room_id
      = some (s1, (room.clients.filter seated).map
          (fun c => Out.send c.socket_fd (game_end_msg room)) ++ out2) := by
  obtain ⟨cl, hcl, _⟩ := reset_globals_some room.clients s.clients hvalid
  simp only [end_game, hroom, hst, hcl, broadcast_message_all s _ room_id room hroom hid]
  simp

/-! ## C1, C2: the winner named by GAME_END -/

/-- C1 (as amended): for every room in GUESSING in which two or more seated members have
`has_guessed` set and a stored guess equal to `current_word`, `end_game` returns and sends
to every seated member a GAME_END whose `winner_id` is the client id of the highest-indexed
such slot: the last match `c` in member-slot order. -/
theorem end_game_winner_last_match (s : Server) (room_id : Nat) (room : Room)
    (hroom : s.rooms[room_id]? = some room) (hid : room_id < MAX_ROOMS)
    (hst : room.game.state = GameState.GAME_GUESSING)
    (hlen : s.clients.length = MAX_CLIENTS)
    (hvalid : ∀ c ∈ room.clients, seated c = true → c.id < MAX_CLIENTS)
    (hmany : 2 ≤ (room.clients.filter (guessed_right room.game.current_word)).length) :
    ∃ ms c s1 n out2,
      room.clients.filter (guessed_right room.game.current_word) = ms ++ [c] ∧
      end_game s room_id
        = some (s1, (room.clients.filter seated).map
            (fun m => Out.send m.socket_fd
              (game_end_frame (cstr room.game.current_word) c.id n)) ++ out2) := by
  have hne : room.clients.filter (guessed_right room.game.current_word) ≠ [] := by
    intro h
    rw [h] at hmany
    simp at hmany
  cases hl : (room.clients.filter (guessed_right room.game.current_word)).getLast? with
  | none => exact absurd (List.getLast?_eq_none_iff.1 hl) hne
  | some c =>
    obtain ⟨ms, hms⟩ := List.getLast?_eq_some_iff.1 hl
    have hmem : c ∈ room.clients ∧ guessed_right room.game.current_word c = true :=
      List.mem_filter.1 (List.mem_of_getLast?_eq_some hl)
    have hseat : seated c = true := by
      have h := hmem.2
      simp [guessed_right] at h
      exact h.1.1
    have hcid : c.id % 256 = c.id := by
      have := hvalid c hmem.1 hseat
      simp only [MAX_CLIENTS] at this
      omega
    obtain ⟨s1, out2, hend⟩ := end_game_sends s room_id room hroom hid hst
      (fun d hd hs => by rw [hlen]; exact hvalid d hd hs)
    refine ⟨ms, c, s1, (tally room.game.current_word room.clients (255, 0)).2, out2, hms, ?_⟩
    rw [hend]
    have hmsg : game_end_msg room
        = game_end_frame (cstr room.game.current_word) c.id
            (tally room.game.current_word room.clients (255, 0)).2 := by
      simp [game_end_msg, game_end_frame, tally_fst, hl, hcid]
    rw [hmsg]

/-- C1 (witness): the amended statement at the state reached by `two_right_run`. -/
theorem end_game_winner_last_match_witness :
    ∃ ms c s1 n out2,
      ((server_after two_right_run).rooms.getD 0 (init_room 0)).clients.filter
          (guessed_right apple) = ms ++ [c] ∧
      end_game (server_after two_right_run) 0
        = some (s1, (((server_after two_right_run).rooms.getD 0 (init_room 0)).clients.filter
            seated).map
            (fun m => Out.send m.socket_fd (game_end_frame (cstr apple) c.id n)) ++ out2) :=
  end_game_winner_last_match (server_after two_right_run) 0
    ((server_after two_right_run).rooms.getD 0 (init_room 0))
    (by decide) (by decide) (by decide) (by decide) (by decide) (by decide)

/-- C1 (counterexample): after `two_right_run` room 0 is in GUESSING and the seated members
holding a correct guess are, in slot order, clients 1 and 2; the GAME_END built by
`end_game` names client 2, not the lowest-indexed match (client 1). -/
theorem end_game_winner_not_first_match :
    (server_after two_right_run).rooms.map
        (fun r => (r.game.state,
          (r.clients.filter (guessed_right r.game.current_word)).map (fun c => c.id)))
      = (GameState.GAME_GUESSING, [1, 2])
          :: List.replicate 9 (GameState.GAME_WAITING, [])
    ∧ (end_game (server_after two_right_run) 0).map (fun r => r.2)
      = some [Out.send 5 (game_end_frame apple 2 2), Out.send 6 (game_end_frame apple 2 2),
              Out.send 7 (game_end_frame apple 2 2), Out.send 8 (game_end_frame apple 2 2)] := by
  decide

/-- C2: for every room in GUESSING, `end_game` returns and sends to every seated member a
GAME_END whose `winner_id` is 255 exactly when no seated member with `has_guessed` set
holds a guess equal to `current_word`; with no guess submitted it carries
`winner_id = 255` and `guess_count = 0`; and a `winner_id` other than 255 is the id, below
`MAX_CLIENTS`, of a seated member that guessed right. -/
theorem end_game_no_winner_iff (s : Server) (room_id : Nat) (room : Room)
    (hroom : s.rooms[room_id]? = some room) (hid : room_id < MAX_ROOMS)
    (hst : room.game.state = GameState.GAME_GUESSING)
    (hlen : s.clients.length = MAX_CLIENTS)
    (hvalid : ∀ c ∈ room.clients, seated c = true → c.id < MAX_CLIENTS) :
    ∃ w n s1 out2,
      end_game s room_id
        = some (s1, (room.clients.filter seated).map
            (fun m => Out.send m.socket_fd
              (game_end_frame (cstr room.game.current_word) w n)) ++ out2) ∧
      (w = 255 ↔ ∀ c ∈ room.clients, guessed_right room.game.current_word c = false) ∧
      ((∀ c ∈ room.clients, guessed c = false) → w = 255 ∧ n = 0) ∧
      (w ≠ 255 → w < MAX_CLIENTS ∧
        ∃ c ∈ room.clients, guessed_right room.game.current_word c = true ∧ c.id = w) := by
  obtain ⟨s1, out2, hend⟩ := end_game_sends s room_id room hroom hid hst
    (fun d hd hs => by rw [hlen]; exact hvalid d hd hs)
  have hmsg : game_end_msg room
      = game_end_frame (cstr room.game.current_word)
          (tally room.game.current_word room.clients (255, 0)).1
          (tally room.game.current_word room.clients (255, 0)).2 := by
    simp [game_end_msg, game_end_frame]
  refine ⟨_, _, s1, out2, by rw [hend, hmsg], ?_, ?_, ?_⟩
  · rw [tally_fst]
    cases hl : (room.clients.filter (guessed_right room.game.current_word)).getLast? with
    | none =>
      have hnil := List.getLast?_eq_none_iff.1 hl
      simp only [Option.map_none', Option.getD_none, true_iff]
      intro c hc
      have := List.filter_eq_nil_iff.1 hnil c hc
      simpa using this
    | some c =>
      have hmem : c ∈ room.clients ∧ guessed_right room.game.current_word c = true :=
        List.mem_filter.1 (List.mem_of_getLast?_eq_some hl)
      have hseat : seated c = true := by
        have h := hmem.2
        simp [guessed_right] at h
        exact h.1.1
      have hlt := hvalid c hmem.1 hseat
      simp only [MAX_CLIENTS] at hlt
      simp only [Option.map_some', Option.getD_some]
      constructor
      · intro h
        omega
      · intro h
        have := h c hmem.1
        rw [hmem.2] at this
        exact absurd this (by decide)
  · intro hnone
    have hf1 : room.clients.filter (guessed_right room.game.current_word) = [] := by
      apply List.filter_eq_nil_iff.2
      intro c hc h
      have hg := hnone c hc
      simp [guessed_right] at h
      simp [guessed, h.1.1, h.1.2] at hg
    have hf2 : room.clients.filter guessed = [] := by
      apply List.filter_eq_nil_iff.2
      intro c hc h
      rw [hnone c hc] at h
      exact absurd h (by decide)
    rw [tally_fst, tally_snd _ _ _ (by decide), hf1, hf2]
    simp
  · intro hw
    rw [tally_fst] at hw ⊢
    cases hl : (room.clients.filter (guessed_right room.game.current_word)).getLast? with
    | none => rw [hl] at hw; simp at hw
    | some c =>
      have hmem : c ∈ room.clients ∧ guessed_right room.game.current_word c = true :=
        List.mem_filter.1 (List.mem_of_getLast?_eq_some hl)
      have hseat : seated c = true := by
        have h := hmem.2
        simp [guessed_right] at h
        exact h.1.1
      have hlt := hvalid c hmem.1 hseat
      have hcid : c.id % 256 = c.id := by
        simp only [MAX_CLIENTS] at hlt
        omega
      simp only [Option.map_some', Option.getD_some, hcid]
      exact ⟨hlt, c, hmem.1, hmem.2, rfl⟩

/-- C2 (witness): the statement at the state reached by `guessing_run`, where nobody has
guessed. -/
theorem end_game_no_winner_iff_witness :
    ∃ w n s1 out2,
      end_game (server_after guessing_run) 0
        = some (s1, (((server_after guessing_run).rooms.getD 0 (init_room 0)).clients.filter
            seated).map
            (fun m => Out.send m.socket_fd (game_end_frame (cstr apple) w n)) ++ out2) ∧
      (w = 255 ↔ ∀ c ∈ ((server_after guessing_run).rooms.getD 0 (init_room 0)).clients,
          guessed_right apple c = false) ∧
      ((∀ c ∈ ((server_after guessing_run).rooms.getD 0 (init_room 0)).clients,
          guessed c = false) → w = 255 ∧ n = 0) ∧
      (w ≠ 255 → w < MAX_CLIENTS ∧
        ∃ c ∈ ((server_after guessing_run).rooms.getD 0 (init_room 0)).clients,
          guessed_right apple c = true ∧ c.id = w) :=
  end_game_no_winner_iff (server_after guessing_run) 0
    ((server_after guessing_run).rooms.getD 0 (init_room 0))
    (by decide) (by decide) (by decide) (by decide) (by decide)

/-! ## C3, C4: GUESS from the painter, GUESS outside GUESSING -/

/-- C3 (the code at the failing input): a GUESS of the painter is stored like any other
guess.  After `guessing_run` the painter of room 0 is client 0 and nobody has guessed;
handling the painter's GUESS "apple" sets its `has_guessed` flag and stores the text, and at
the guess deadline the GAME_END counts that guess and names the painter as winner. -/
theorem painter_guess_counted_and_wins :
    (guess_view (server_after guessing_run)).head?
      = some (0, [(0, false, []), (1, false, []), (2, false, []), (3, false, [])])
    ∧ ((handle_guess_submit (server_after guessing_run) 0 apple).bind
        (fun r => (guess_view r.1).head?))
      = some (0, [(0, true, apple), (1, false, []), (2, false, []), (3, false, [])])
    ∧ ((game_timer (env_at 140 0) (server_after painter_guess_run)).map (fun r => r.2))
      = some [Out.send 5 (game_end_frame apple 0 1), Out.send 6 (game_end_frame apple 0 1),
              Out.send 7 (game_end_frame apple 0 1), Out.send 8 (game_end_frame apple 0 1)] :=
  ⟨by decide, by decide, by decide⟩

/-- C4 (the code at the failing input): a GUESS handled outside GUESSING is stored and
survives the start of the next round.  After `lobby_run` room 0 is in WAITING and nobody
has guessed; handling a GUESS "apple" from client 1 sets its `has_guessed` flag and stores
the text; the round then played (`early_guess_run`) ends at the guess deadline with a
GAME_END that counts that guess and names client 1 as winner, though nobody guessed during
the round. -/
theorem guess_in_waiting_counted_later :
    (server_after lobby_run).rooms.head?.map (fun r => r.game.state)
      = some GameState.GAME_WAITING
    ∧ (guess_view (server_after lobby_run)).head? = some (-1, [(0, false, []), (1, false, [])])
    ∧ ((handle_guess_submit (server_after lobby_run) 1 apple).bind
        (fun r => (guess_view r.1).head?))
      = some (-1, [(0, false, []), (1, true, apple)])
    ∧ ((game_timer (env_at 140 0) (server_after early_guess_run)).map (fun r => r.2))
      = some [Out.send 5 (game_end_frame apple 1 1), Out.send 6 (game_end_frame apple 1 1)] :=
  ⟨by decide, by decide, by decide, by decide⟩

/-! ## C5: READY during a round -/

/-- C5 (as amended): READY is not ignored while the sender's room is in PAINTING or GUESSING.
For every such room and every member with a slot in it, handling READY from a member whose
slot is not yet ready (for instance one who joined after the round started) sets the `ready`
flag of the slot and of the global record and adds one to `ready_count`, the game state and
everything else being unchanged; from a member whose slot is already ready it changes
nothing; in both cases nothing is sent. -/
theorem ready_during_round (env : Env) (s : Server) (client_id r i : Nat)
    (g c : ClientInfo) (room : Room)
    (hg : s.clients[client_id]? = some g) (hrid : g.room_id = (r : Int))
    (hroom : s.rooms[r]? = some room)
    (hslot : find_first (fun m => m.id == client_id) room.clients = some (i, c))
    (hst : room.game.state = GameState.GAME_PAINTING
      ∨ room.game.state = GameState.GAME_GUESSING) :
    handle_client_ready env s client_id
      = some (if c.ready then s
              else
                { rooms := s.rooms.set r
                    { room with
                      clients := room.clients.set i { c with ready := true }
                      game := { room.game with ready_count := room.game.ready_count + 1 } }
                  clients := s.clients.set client_id { g with ready := true } }, []) := by
  have hne : (r : Int) ≠ -1 := by omega
  have hat : room_at s (r : Int) = some room := by
    simp [room_at, hroom]
  have hrlt : r < s.rooms.length := (List.getElem?_eq_some_iff.1 hroom).1
  have hw : room.game.state ≠ GameState.GAME_WAITING := by
    rcases hst with h | h <;> rw [h] <;> decide
  have hr : room.game.state ≠ GameState.GAME_READY := by
    rcases hst with h | h <;> rw [h] <;> decide
  simp only [handle_client_ready, hg]
  rw [hrid]
  simp only [hne, hat, hslot, Int.toNat_ofNat, ne_eq, not_false_eq_true, if_true]
  by_cases hc : c.ready = true
  · simp [hc]
  · simp only [hc, Bool.not_false, Bool.not_eq_true, if_true, if_false, hw]
    split
    · simp [start_game, hrlt, hr, hc]
    · simp [hc]

/-- C5 (witness): the amended statement at the state reached by `late_join_run`, for
client 2, who joined room 0 (slot 2) after the round started. -/
theorem ready_during_round_witness :
    handle_client_ready (env_at 104 0) (server_after late_join_run) 2
      = some (if (((server_after late_join_run).rooms.getD 0 (init_room 0)).clients.getD 2
                  free_client).ready then server_after late_join_run
              else
                { rooms := (server_after late_join_run).rooms.set 0
                    { (server_after late_join_run).rooms.getD 0 (init_room 0) with
                      clients :=
                        ((server_after late_join_run).rooms.getD 0 (init_room 0)).clients.set 2
                          { ((server_after late_join_run).rooms.getD 0 (init_room 0)).clients.getD
                              2 free_client with ready := true }
                      game :=
                        { ((server_after late_join_run).rooms.getD 0 (init_room 0)).game with
                          ready_count :=
                            ((server_after late_join_run).rooms.getD 0
                              (init_room 0)).game.ready_count + 1 } }
                  clients := (server_after late_join_run).clients.set 2
                    { (server_after late_join_run).clients.getD 2 free_client with
                      ready := true } }, []) :=
  ready_during_round (env_at 104 0) (server_after late_join_run) 2 0 2
    ((server_after late_join_run).clients.getD 2 free_client)
    (((server_after late_join_run).rooms.getD 0 (init_room 0)).clients.getD 2 free_client)
    ((server_after late_join_run).rooms.getD 0 (init_room 0))
    (by decide) (by decide) (by decide) (by decide) (by decide)

/-- C5 (counterexample): after `late_join_run` room 0 is in PAINTING with `ready_count = 2`
and client 2, who joined after the round started, not ready; handling READY from client 2
sets its `ready` flag and raises `ready_count` to 3. -/
theorem ready_in_painting_not_ignored :
    (ready_view (server_after late_join_run)).head?
      = some (GameState.GAME_PAINTING, 2, 3, [(0, true), (1, true), (2, false)])
    ∧ ((handle_client_ready (env_at 104 0) (server_after late_join_run) 2).bind
        (fun r => (ready_view r.1).head?))
      = some (GameState.GAME_PAINTING, 3, 3, [(0, true), (1, true), (2, true)]) :=
  ⟨by decide, by decide⟩

/-! ## C6: PAINTER_FINISH -/

/-- C6: for a sender whose room is `room`, PAINTER_FINISH moves the room to GUESSING exactly
when the sender's id equals `painter_id` and the room is in PAINTING.  In that case the
handler stamps `guess_start_time`, changes nothing else, sends one PAINTER_FINISH frame to
every seated member and schedules the AI request; in every other case the tables are
unchanged and there is no effect at all. -/
theorem painter_finish_iff (env : Env) (s : Server) (client_id r : Nat) (g : ClientInfo)
    (room : Room)
    (hg : s.clients[client_id]? = some g) (hrid : g.room_id = (r : Int))
    (hroom : s.rooms[r]? = some room) (hid : r < MAX_ROOMS) :
    (((client_id : Int) = room.game.painter_id
        ∧ room.game.state = GameState.GAME_PAINTING) →
      handle_painter_finish env s client_id
        = some ({ s with
                  rooms := s.rooms.set r
                    { room with
                      game :=
                        { room.game with
                          state := GameState.GAME_GUESSING
                          guess_start_time := env.now } } },
            (room.clients.filter seated).map
                (fun m => Out.send m.socket_fd (base_only MSG_PAINTER_FINISH 0))
              ++ [Out.spawn_ai r]))
    ∧ (¬ ((client_id : Int) = room.game.painter_id
        ∧ room.game.state = GameState.GAME_PAINTING) →
      handle_painter_finish env s client_id = some (s, [])) := by
  have hne : (r : Int) ≠ -1 := by omega
  have hat : room_at s (r : Int) = some room := by
    simp [room_at, hroom]
  have hrlt : r < s.rooms.length := (List.getElem?_eq_some_iff.1 hroom).1
  constructor
  · intro hc
    simp only [handle_painter_finish, hg]
    rw [hrid]
    simp only [hne, hat, hc.1, hc.2, Int.toNat_ofNat, ne_eq, not_false_eq_true, if_true,
      and_self]
    rw [broadcast_message_all _ _ r
      { room with
        game :=
          { room.game with
            state := GameState.GAME_GUESSING
            guess_start_time := env.now } } (by simp [hrlt]) hid]
  · intro hc
    simp only [handle_painter_finish, hg]
    rw [hrid]
    simp only [hne, hat, hc, Int.toNat_ofNat, ne_eq, not_false_eq_true, if_true, if_false]

/-- C6 (witness): the statement at the state reached by `painting_run`, for client 0, the
painter of room 0. -/
theorem painter_finish_iff_witness :
    (((0 : Nat) : Int) = ((server_after painting_run).rooms.getD 0 (init_room 0)).game.painter_id
        ∧ ((server_after painting_run).rooms.getD 0 (init_room 0)).game.state
            = GameState.GAME_PAINTING →
      handle_painter_finish (env_at 110 0) (server_after painting_run) 0
        = some ({ server_after painting_run with
                  rooms := (server_after painting_run).rooms.set 0
                    { (server_after painting_run).rooms.getD 0 (init_room 0) with
                      game :=
                        { ((server_after painting_run).rooms.getD 0 (init_room 0)).game with
                          state := GameState.GAME_GUESSING
                          guess_start_time := (env_at 110 0).now } } },
            (((server_after painting_run).rooms.getD 0 (init_room 0)).clients.filter seated).map
                (fun m => Out.send m.socket_fd (base_only MSG_PAINTER_FINISH 0))
              ++ [Out.spawn_ai 0]))
    ∧ (¬ (((0 : Nat) : Int)
          = ((server_after painting_run).rooms.getD 0 (init_room 0)).game.painter_id
        ∧ ((server_after painting_run).rooms.getD 0 (init_room 0)).game.state
            = GameState.GAME_PAINTING) →
      handle_painter_finish (env_at 110 0) (server_after painting_run) 0
        = some (server_after painting_run, [])) :=
  painter_finish_iff (env_at 110 0) (server_after painting_run) 0 0
    ((server_after painting_run).clients.getD 0 free_client)
    ((server_after painting_run).rooms.getD 0 (init_room 0))
    (by decide) (by decide) (by decide) (by decide)

/-! ## C7, C8: `start_game` -/

/-- C7: `start_game` changes the tables or sends something only if the room is in READY with
`ready_count == total_clients` and `total_clients >= 2`; when this guard fails it returns
with the tables unchanged and no message sent. -/
theorem start_game_guard (env : Env) (s : Server) (room_id : Nat) (room : Room)
    (hroom : s.rooms[room_id]? = some room) :
    (¬ (room.game.state = GameState.GAME_READY
          ∧ room.game.ready_count = room.game.total_clients ∧ room.game.total_clients ≥ 2) →
      start_game env s room_id = some (s, []))
    ∧ ∀ s1 out, start_game env s room_id = some (s1, out) → (s1 ≠ s ∨ out ≠ []) →
        room.game.state = GameState.GAME_READY
          ∧ room.game.ready_count = room.game.total_clients ∧ room.game.total_clients ≥ 2 := by
  have hfail : ¬ (room.game.state = GameState.GAME_READY
          ∧ room.game.ready_count = room.game.total_clients ∧ room.game.total_clients ≥ 2) →
      start_game env s room_id = some (s, []) := by
    intro hguard
    have hcond : room.game.state ≠ GameState.GAME_READY
        ∨ room.game.ready_count ≠ room.game.total_clients ∨ room.game.total_clients < 2 := by
      by_cases h1 : room.game.state = GameState.GAME_READY
      · by_cases h2 : room.game.ready_count = room.game.total_clients
        · right
          right
          by_cases h3 : room.game.total_clients < 2
          · exact h3
          · exact absurd ⟨h1, h2, by omega⟩ hguard
        · exact Or.inr (Or.inl h2)
      · exact Or.inl h1
    simp only [start_game, hroom]
    rw [if_pos hcond]
  refine ⟨hfail, ?_⟩
  intro s1 out hres hchg
  by_contra hguard
  rw [hfail hguard] at hres
  simp only [Option.some.injEq, Prod.mk.injEq] at hres
  rcases hchg with h | h
  · exact h hres.1.symm
  · exact h hres.2.symm

/-- C7 (witness): the statement at the state reached by `lobby_run`, where room 0 is in
WAITING. -/
theorem start_game_guard_witness :
    (¬ (((server_after lobby_run).rooms.getD 0 (init_room 0)).game.state
            = GameState.GAME_READY
          ∧ ((server_after lobby_run).rooms.getD 0 (init_room 0)).game.ready_count
              = ((server_after lobby_run).rooms.getD 0 (init_room 0)).game.total_clients
          ∧ ((server_after lobby_run).rooms.getD 0 (init_room 0)).game.total_clients ≥ 2) →
      start_game (env_at 100 0) (server_after lobby_run) 0
        = some (server_after lobby_run, []))
    ∧ ∀ s1 out, start_game (env_at 100 0) (server_after lobby_run) 0 = some (s1, out) →
        (s1 ≠ server_after lobby_run ∨ out ≠ []) →
        ((server_after lobby_run).rooms.getD 0 (init_room 0)).game.state
            = GameState.GAME_READY
          ∧ ((server_after lobby_run).rooms.getD 0 (init_room 0)).game.ready_count
              = ((server_after lobby_run).rooms.getD 0 (init_room 0)).game.total_clients
          ∧ ((server_after lobby_run).rooms.getD 0 (init_room 0)).game.total_clients ≥ 2 :=
  start_game_guard (env_at 100 0) (server_after lobby_run) 0
    ((server_after lobby_run).rooms.getD 0 (init_room 0)) (by decide)

/-- The search `find_first` fails when no entry satisfies the test. -/
theorem find_first_none {α : Type} (p : α → Bool) (l : List α)
    (h : ∀ x ∈ l, p x = false) : find_first p l = none := by
  induction l with
  | nil => rfl
  | cons a l ih =>
    have ha : p a = false := h a (List.mem_cons_self _ _)
    have hl : find_first p l = none := ih (fun x hx => h x (List.mem_cons_of_mem _ hx))
    simp [find_first, ha, hl]

/-- C9: CREATE_ROOM with no free room slot fails cleanly.  In every state in which every room
slot has a non-empty name, the handler leaves both tables unchanged (every room, and the
requester's nickname and `room_id`) and sends exactly one ERROR frame, to the requester. -/
theorem create_room_full (s : Server) (client_id : Nat) (g : ClientInfo)
    (room_name nickname : List Nat)
    (hg : s.clients[client_id]? = some g)
    (hfull : ∀ r ∈ s.rooms, first_is_nul r.name = false) :
    handle_create_room s client_id room_name nickname
      = some (s, [Out.send g.socket_fd (base_only MSG_ERROR (client_id % 256))]) := by
  have hnone : find_first (fun r : Room => first_is_nul r.name) s.rooms = none :=
    find_first_none _ _ hfull
  simp only [handle_create_room, hg, hnone]

/-- C9 (witness): the statement at the state reached by `full_run`, where all ten rooms have
been created, for an eleventh CREATE_ROOM from client 0. -/
theorem create_room_full_witness :
    handle_create_room (server_after full_run) 0 [83] [97]
      = some (server_after full_run, [Out.send 5 (base_only MSG_ERROR (0 % 256))]) :=
  create_room_full (server_after full_run) 0
    ((server_after full_run).clients.getD 0 free_client) [83] [97] (by decide) (by decide)

/-- C10 (the code at the failing input): after `recreate_run` room 0 is free (empty name, no
seated member) but its game is still in READY, left there by LEAVE_ROOM; handling
CREATE_ROOM from client 0 answers ROOM_CREATED for room 0 with `num_players = 1` and seats
the creator alone with `total_clients = 1` and `ready_count = 0`, but the game of the new
room is in READY, not WAITING. -/
theorem create_room_after_leave_not_waiting :
    (server_after recreate_run).rooms.head?.map (fun r => first_is_nul r.name) = some true
    ∧ (ready_view (server_after recreate_run)).head? = some (GameState.GAME_READY, 0, 0, [])
    ∧ ((handle_create_room (server_after recreate_run) 0 [83] [97]).map (fun r => r.2))
      = some [Out.send 5 (room_created_frame 0 [83] [97] 1)]
    ∧ ((handle_create_room (server_after recreate_run) 0 [83] [97]).bind
        (fun r => (ready_view r.1).head?))
      = some (GameState.GAME_READY, 0, 1, [(0, false)]) :=
  ⟨by decide, by decide, by decide, by decide⟩

/-! ## C11: JOIN_ROOM -/

/-- C11: JOIN_ROOM fails with a single ERROR frame to the requester, both tables being left
unchanged, whenever the target id is not below `MAX_ROOMS`, the target slot has an empty
name, the room already counts `MAX_CLIENTS` members, or none of its slots is free.  When it
succeeds (`i` being the first free slot), the requester is seated there, `client_count` and
`total_clients` each grow by exactly one, and the single frame sent is a ROOM_JOINED whose
`num_players` is the new `client_count` (as a `uint8_t`).  The success part is stated for a
nickname that fits `nickname[32]` (fewer than 32 bytes before its NUL), the only ones
`strcpy` of line 886 copies within the buffer; the failing paths copy nothing and are stated
for every nickname. -/
theorem join_room_contract (s : Server) (client_id room_id : Nat) (nickname : List Nat)
    (g : ClientInfo) (hg : s.clients[client_id]? = some g) :
    ((MAX_ROOMS ≤ room_id ∨
        ∃ room, s.rooms[room_id]? = some room ∧
          (first_is_nul room.name = true ∨ (MAX_CLIENTS : Int) ≤ room.client_count
            ∨ ∀ c ∈ room.clients, seated c = true)) →
      handle_join_room s client_id room_id nickname
        = some (s, [Out.send g.socket_fd (base_only MSG_ERROR (client_id % 256))]))
    ∧ ∀ (room : Room) (i : Nat) (c : ClientInfo),
        room_id < MAX_ROOMS → s.rooms[room_id]? = some room →
        first_is_nul room.name = false → room.client_count < (MAX_CLIENTS : Int) →
        find_first (fun m => m.socket_fd == -1) room.clients = some (i, c) →
        (cstr nickname).length < 32 →
        ∃ s1 room1 n,
          handle_join_room s client_id room_id nickname
            = some (s1, [Out.send g.socket_fd
                (room_joined_frame room_id (cstr room.name) (cstr nickname) n)]) ∧
          s1.rooms[room_id]? = some room1 ∧
          room1.clients = room.clients.set i
            { g with nickname := cstr nickname, room_id := (room_id : Int), id := client_id } ∧
          room1.client_count = room.client_count + 1 ∧
          room1.game.total_clients = room.game.total_clients + 1 ∧
          n = u8 room1.client_count ∧
          (0 ≤ room.client_count → (n : Int) = room1.client_count) := by
  constructor
  · intro hfail
    by_cases hid : room_id < MAX_ROOMS
    · rcases hfail with h | ⟨room, hroom, h⟩
      · omega
      · simp only [handle_join_room, hg, hid, if_true, hroom]
        rcases h with h | h | h
        · simp [h]
        · have hn : ¬ room.client_count < (MAX_CLIENTS : Int) := by omega
          by_cases hnul : first_is_nul room.name = true
          · simp [hnul]
          · simp [hnul, hn]
        · have hnone : find_first (fun m : ClientInfo => m.socket_fd == -1) room.clients
              = none := by
            apply find_first_none
            intro x hx
            have := h x hx
            simpa [seated] using this
          by_cases hnul : first_is_nul room.name = true
          · simp [hnul]
          · by_cases hn : room.client_count < (MAX_CLIENTS : Int)
            · simp [hnul, hn, hnone]
            · simp [hnul, hn]
    · simp only [handle_join_room, hg, hid, if_false]
  · intro room i c hid hroom hname hcount hslot hnick
    have hrlt : room_id < s.rooms.length := (List.getElem?_eq_some_iff.1 hroom).1
    have hres : handle_join_room s client_id room_id nickname
        = some ({ rooms := s.rooms.set room_id
                    { room with
                      clients := room.clients.set i
                        { g with nickname := cstr nickname, room_id := (room_id : Int),
                                 id := client_id }
                      client_count := room.client_count + 1
                      game := { room.game with total_clients := room.game.total_clients + 1 } }
                  clients := s.clients.set client_id
                    { g with nickname := cstr nickname, room_id := (room_id : Int) } },
            [Out.send g.socket_fd
              (room_joined_frame room_id (cstr room.name) (cstr nickname)
                (u8 (room.client_count + 1)))]) := by
      simp only [handle_join_room, hg, hid, if_true, hroom, hname, hcount, hslot]
      simp [room_joined_frame, strcpy, hnick]
    rw [hres]
    refine ⟨_, { room with
        clients := room.clients.set i
          { g with nickname := cstr nickname, room_id := (room_id : Int), id := client_id }
        client_count := room.client_count + 1
        game := { room.game with total_clients := room.game.total_clients + 1 } },
      u8 (room.client_count + 1), rfl, by simp [hrlt], rfl, rfl, rfl, rfl, ?_⟩
    intro h0
    simp only [MAX_CLIENTS] at hcount
    simp only [u8]
    omega

/-- C11 (witness): the statement at the state reached by `before_join_run`, for client 2
joining room 0 under the one-byte nickname "c", whose first free slot is slot 2: the join
succeeds and reports 3 players. -/
theorem join_room_contract_witness :
    ∃ s1 room1 n,
      handle_join_room (server_after before_join_run) 2 0 [99]
        = some (s1, [Out.send 7 (room_joined_frame 0 (cstr [82]) (cstr [99]) n)]) ∧
      s1.rooms[0]? = some room1 ∧
      room1.clients = ((server_after before_join_run).rooms.getD 0 (init_room 0)).clients.set 2
        { (server_after before_join_run).clients.getD 2 free_client with
          nickname := cstr [99], room_id := ((0 : Nat) : Int), id := 2 } ∧
      room1.client_count = 2 + 1 ∧
      room1.game.total_clients = 2 + 1 ∧
      n = u8 room1.client_count ∧
      (0 ≤ (2 : Int) → (n : Int) = room1.client_count) :=
  (join_room_contract (server_after before_join_run) 2 0 [99]
    ((server_after before_join_run).clients.getD 2 free_client) (by decide)).2
    ((server_after before_join_run).rooms.getD 0 (init_room 0)) 2
    (((server_after before_join_run).rooms.getD 0 (init_room 0)).clients.getD 2 free_client)
    (by decide) (by decide) (by decide) (by decide) (by decide) (by decide)

/-! ## C12: LEAVE_ROOM twice -/

/-- C13 (the code at the failing input): after `all_leave_run` the last member has left
room 0 by LEAVE_ROOM; the name is cleared and no slot is occupied, but the game is still in
PAINTING with `painter_id = 0` and the word "apple".  After `all_close_run`, where the same
members leave by disconnecting, the game is reset (WAITING, 0, 0, -1, empty word). -/
theorem leave_room_last_member_not_reset :
    (game_view (server_after all_leave_run)).head?
      = some (true, 0, GameState.GAME_PAINTING, 0, 0)
    ∧ (word_view (server_after all_leave_run)).head? = some (0, apple)
    ∧ (game_view (server_after all_close_run)).head?
      = some (true, 0, GameState.GAME_WAITING, 0, 0)
    ∧ (word_view (server_after all_close_run)).head? = some (-1, []) :=
  ⟨by decide, by decide, by decide, by decide⟩

/-- C14 (the code at the failing input): after `stale_ready_run` room 1 has
`ready_count = -1` and `total_clients = 0`. -/
theorem ready_count_negative :
    (ready_view (server_after stale_ready_run))[1]?
      = some (GameState.GAME_WAITING, -1, 0, []) := by
  decide

/-- C15 (the code at the failing input): after `empty_name_run` room 0 has one occupied slot
(client 0) and `client_count = 1`, but `total_clients = 0`. -/
theorem total_clients_out_of_step :
    (seat_view (server_after empty_name_run)).head? = some (0, 1, [(0, 0)]) := by
  decide

/-- C16 (the code at the failing input): after `two_rooms_run` client 0 is connected, its
`room_id` is 1, and it occupies slot 0 of room 0 and slot 0 of room 1. -/
theorem client_in_two_rooms :
    connected (server_after two_rooms_run) 0 = true
    ∧ (server_after two_rooms_run).clients.head?.map (fun g => g.room_id) = some 1
    ∧ (seat_view (server_after two_rooms_run)).take 2 = [(1, 1, [(0, 0)]), (1, 1, [(0, 0)])] :=
  ⟨by decide, by decide, by decide⟩

/-- C17 (the code at the failing input): after `painter_moves_run` room 1 is in WAITING and
its only seated member, client 0, has `is_painter` set. -/
theorem painter_flag_in_waiting_room :
    (painter_view (server_after painter_moves_run))[1]?
      = some (GameState.GAME_WAITING, [(0, true)]) := by
  decide

/-! ## C18, C19, C20: datagrams and the stroke history -/

/-- The result of `handle_udp_server` for a sender that is in a room: the address is latched
in both tables; the datagram is recorded (in PAINTING, below the bound) and forwarded when
the sender is the painter and the room is in PAINTING or the action is 3, and otherwise
nothing else happens. -/
theorem handle_udp_server_in_room (s : Server) (client_addr : Nat)
    (paint_msg : PaintDataMessage) (g : ClientInfo) (r : Nat) (room : Room)
    (hcid : paint_msg.base.client_id < MAX_CLIENTS)
    (hg : s.clients[paint_msg.base.client_id]? = some g)
    (hrid : g.room_id = (r : Int)) (hroom : s.rooms[r]? = some room) :
    handle_udp_server s client_addr paint_msg
      = if (paint_msg.base.client_id : Int) = room.game.painter_id
            ∧ (room.game.state = GameState.GAME_PAINTING ∨ paint_msg.action = 3) then
          some ({ rooms := s.rooms.set r
                    { room with
                      clients := latch_slots room.clients paint_msg.base.client_id client_addr
                      drawing_history :=
                        if room.game.state = GameState.GAME_PAINTING
                            ∧ room.history_count < MAX_DRAWING_POINTS then
                          room.drawing_history ++ [point_of paint_msg]
                        else room.drawing_history }
                  clients := latch_client s.clients paint_msg.base.client_id client_addr g },
            forwarded (latch_slots room.clients paint_msg.base.client_id client_addr) paint_msg)
        else
          some ({ rooms := s.rooms.set r
                    { room with
                      clients := latch_slots room.clients paint_msg.base.client_id client_addr }
                  clients := latch_client s.clients paint_msg.base.client_id client_addr g },
            []) := by
  have hne : (r : Int) ≠ -1 := by omega
  have hat : room_at s (r : Int) = some room := by
    simp [room_at, hroom]
  simp only [handle_udp_server, hcid, if_true, hg]
  rw [hrid]
  simp only [hne, hat, Int.toNat_ofNat, ne_eq, not_false_eq_true, if_true]
  by_cases hc : (paint_msg.base.client_id : Int) = room.game.painter_id
      ∧ (room.game.state = GameState.GAME_PAINTING ∨ paint_msg.action = 3)
  · rw [if_pos hc, if_pos hc]
    by_cases hp : room.game.state = GameState.GAME_PAINTING
    · by_cases hh : room.history_count < MAX_DRAWING_POINTS
      · simp [hp, hh, latch_slots, latch_client, forwarded, point_of, hrid]
      · simp [hp, hh, latch_slots, latch_client, forwarded, point_of, hrid]
    · simp [hp, latch_slots, latch_client, forwarded, point_of, hrid]
  · rw [if_neg hc, if_neg hc]
    simp [latch_slots, latch_client, hrid]

/-- C18: processing a datagram changes the stroke history of a room only if that room is the
current room of the client named in the datagram, the room is in PAINTING and that client
id equals the room's `painter_id`; then exactly the point `{x, y, action}` of the datagram
is appended at the end.  In every other case the stroke histories of all rooms are
unchanged.  (The handler returns whenever the client table has `MAX_CLIENTS` entries and
every `room_id` in it is -1 or the index of a room.) -/
theorem udp_history_only_painter (s : Server) (client_addr : Nat)
    (paint_msg : PaintDataMessage)
    (hlen : s.clients.length = MAX_CLIENTS)
    (hvalid : ∀ g ∈ s.clients,
      g.room_id = -1 ∨ (0 ≤ g.room_id ∧ g.room_id.toNat < s.rooms.length)) :
    ∃ s1 out,
      handle_udp_server s client_addr paint_msg = some (s1, out) ∧
      ∀ (j : Nat) (room : Room), s.rooms[j]? = some room →
        ∃ room1, s1.rooms[j]? = some room1 ∧
          (room1.drawing_history = room.drawing_history ∨
            ((∃ g, s.clients[paint_msg.base.client_id]? = some g ∧ g.room_id = (j : Int)) ∧
              room.game.state = GameState.GAME_PAINTING ∧
              (paint_msg.base.client_id : Int) = room.game.painter_id ∧
              room1.drawing_history = room.drawing_history ++ [point_of paint_msg])) := by
  by_cases hcid : paint_msg.base.client_id < MAX_CLIENTS
  · have hclt : paint_msg.base.client_id < s.clients.length := by omega
    have hg : s.clients[paint_msg.base.client_id]?
        = some s.clients[paint_msg.base.client_id] := List.getElem?_eq_getElem hclt
    rcases hvalid _ (List.getElem_mem hclt) with hno | ⟨hnn, hrlt⟩
    · refine ⟨{ s with
                clients := latch_client s.clients paint_msg.base.client_id client_addr
                  (s.clients[paint_msg.base.client_id]) }, [], ?_, ?_⟩
      · simp [handle_udp_server, hcid, hg, hno, latch_client]
      · intro j room hj
        exact ⟨room, hj, Or.inl rfl⟩
    · obtain ⟨r, hr⟩ : ∃ r : Nat, r = s.clients[paint_msg.base.client_id].room_id.toNat :=
        ⟨_, rfl⟩
      have hrid : s.clients[paint_msg.base.client_id].room_id = (r : Int) := by
        rw [hr]
        exact (Int.toNat_of_nonneg hnn).symm
      rw [← hr] at hrlt
      have hroom : s.rooms[r]? = some s.rooms[r] := List.getElem?_eq_getElem hrlt
      rw [handle_udp_server_in_room s client_addr paint_msg _ r _ hcid hg hrid hroom]
      by_cases hc : (paint_msg.base.client_id : Int) = s.rooms[r].game.painter_id
          ∧ (s.rooms[r].game.state = GameState.GAME_PAINTING ∨ paint_msg.action = 3)
      · rw [if_pos hc]
        refine ⟨_, _, rfl, ?_⟩
        intro j room hj
        by_cases hjr : j = r
        · subst hjr
          have hroomj : room = s.rooms[j] := by
            rw [hroom] at hj
            exact (Option.some.inj hj).symm
          subst hroomj
          refine ⟨{ s.rooms[j] with
              clients := latch_slots s.rooms[j].clients paint_msg.base.client_id client_addr
              drawing_history :=
                if s.rooms[j].game.state = GameState.GAME_PAINTING
                    ∧ s.rooms[j].history_count < MAX_DRAWING_POINTS then
                  s.rooms[j].drawing_history ++ [point_of paint_msg]
                else s.rooms[j].drawing_history }, by simp [hrlt], ?_⟩
          by_cases hp : s.rooms[j].game.state = GameState.GAME_PAINTING
              ∧ s.rooms[j].history_count < MAX_DRAWING_POINTS
          · right
            exact ⟨⟨_, hg, hrid⟩, hp.1, hc.1, by simp [hp]⟩
          · left
            simp [hp]
        · refine ⟨room, ?_, Or.inl rfl⟩
          simp [List.getElem?_set_ne (Ne.symm hjr), hj]
      · rw [if_neg hc]
        refine ⟨_, _, rfl, ?_⟩
        intro j room hj
        by_cases hjr : j = r
        · subst hjr
          have hroomj : room = s.rooms[j] := by
            rw [hroom] at hj
            exact (Option.some.inj hj).symm
          subst hroomj
          exact ⟨{ s.rooms[j] with
              clients := latch_slots s.rooms[j].clients paint_msg.base.client_id client_addr },
            by simp [hrlt], Or.inl rfl⟩
        · refine ⟨room, ?_, Or.inl rfl⟩
          simp [List.getElem?_set_ne (Ne.symm hjr), hj]
  · refine ⟨s, [], by simp [handle_udp_server, hcid], ?_⟩
    intro j room hj
    exact ⟨room, hj, Or.inl rfl⟩

/-- C18 (witness): the statement at the state reached by `painting_run`, for a datagram
with action 1 from client 0, the painter of room 0. -/
theorem udp_history_only_painter_witness :
    ∃ s1 out,
      handle_udp_server (server_after painting_run) 1000 (datagram_of 0 1) = some (s1, out) ∧
      ∀ (j : Nat) (room : Room), (server_after painting_run).rooms[j]? = some room →
        ∃ room1, s1.rooms[j]? = some room1 ∧
          (room1.drawing_history = room.drawing_history ∨
            ((∃ g, (server_after painting_run).clients[(datagram_of 0 1).base.client_id]?
                  = some g ∧ g.room_id = (j : Int)) ∧
              room.game.state = GameState.GAME_PAINTING ∧
              ((datagram_of 0 1).base.client_id : Int) = room.game.painter_id ∧
              room1.drawing_history = room.drawing_history ++ [point_of (datagram_of 0 1)])) :=
  udp_history_only_painter (server_after painting_run) 1000 (datagram_of 0 1)
    (by decide) (by decide)

/-! ### The bound on the stroke history is kept by every handler -/

/-- Replacing a room by one whose history is within the bound keeps `hist_ok`. -/
theorem hist_ok_set (s : Server) (i : Nat) (x : Room) (cl : List ClientInfo)
    (hs : hist_ok s) (hx : x.history_count ≤ MAX_DRAWING_POINTS) :
    hist_ok { rooms := s.rooms.set i x, clients := cl } := by
  intro r hr
  rcases List.mem_or_eq_of_mem_set hr with h | h
  · exact hs r h
  · rw [h]
    exact hx

/-- A room of the table, read through `getElem?`, is within the bound. -/
theorem hist_le_of_get (s : Server) (i : Nat) (room : Room) (hs : hist_ok s)
    (h : s.rooms[i]? = some room) : room.history_count ≤ MAX_DRAWING_POINTS :=
  hs room (List.mem_iff_getElem?.2 ⟨i, h⟩)

/-- A room of the table, read through `room_at`, is within the bound. -/
theorem hist_le_of_room_at (s : Server) (rid : Int) (room : Room) (hs : hist_ok s)
    (h : room_at s rid = some room) : room.history_count ≤ MAX_DRAWING_POINTS := by
  unfold room_at at h
  split at h
  · simp at h
  · exact hist_le_of_get s _ room hs h

/-- Replacing a room by one with the history of a room of the table keeps `hist_ok`. -/
theorem hist_ok_set_get (s : Server) (i j : Nat) (x room : Room) (cl : List ClientInfo)
    (hs : hist_ok s) (h : s.rooms[j]? = some room)
    (hx : x.drawing_history = room.drawing_history) :
    hist_ok { rooms := s.rooms.set i x, clients := cl } :=
  hist_ok_set s i x cl hs (by
    have := hist_le_of_get s j room hs h
    simpa [Room.history_count, hx] using this)

/-- The same as `hist_ok_set_get` for a room read through `room_at`. -/
theorem hist_ok_set_at (s : Server) (i : Nat) (rid : Int) (x room : Room)
    (cl : List ClientInfo) (hs : hist_ok s) (h : room_at s rid = some room)
    (hx : x.drawing_history = room.drawing_history) :
    hist_ok { rooms := s.rooms.set i x, clients := cl } :=
  hist_ok_set s i x cl hs (by
    have := hist_le_of_room_at s rid room hs h
    simpa [Room.history_count, hx] using this)

/-- `start_game` keeps every stroke history within the bound (it empties one). -/
theorem hist_ok_start_game (env : Env) (s s1 : Server) (room_id : Nat) (out : List Out)
    (h : start_game env s room_id = some (s1, out)) (hs : hist_ok s) : hist_ok s1 := by
  simp only [start_game, start_round] at h
  repeat' split at h
  all_goals first
    | (simp at h; done)
    | (simp only [Option.some.injEq, Prod.mk.injEq] at h
       obtain ⟨rfl, rfl⟩ := h
       first
        | exact hs
        | exact hist_ok_set _ _ _ _ hs (by simp [Room.history_count]))

/-- `end_game` keeps every stroke history within the bound. -/
theorem hist_ok_end_game (s s1 : Server) (room_id : Nat) (out : List Out)
    (h : end_game s room_id = some (s1, out)) (hs : hist_ok s) : hist_ok s1 := by
  simp only [end_game] at h
  repeat' split at h
  all_goals first
    | (simp at h; done)
    | (simp only [Option.some.injEq, Prod.mk.injEq] at h
       obtain ⟨rfl, rfl⟩ := h
       first
        | exact hs
        | exact hist_ok_set_get _ _ _ _ _ _ hs (by assumption) (by rfl))

/-- `add_client` does not touch the rooms. -/
theorem hist_ok_add_client (s : Server) (socket_fd : Int) (hs : hist_ok s) :
    hist_ok (add_client s socket_fd).1 := by
  unfold add_client
  split
  · exact hs
  · exact hs

/-- `remove_from_room` does not touch the stroke history. -/
theorem remove_from_room_history (room : Room) (client_id : Nat) (g : ClientInfo) :
    (remove_from_room room client_id g).drawing_history = room.drawing_history := by
  simp only [remove_from_room]
  repeat' split
  all_goals rfl

/-- `leave_room` does not touch the stroke history. -/
theorem leave_room_history (room : Room) (fd : Int) :
    (leave_room room fd).drawing_history = room.drawing_history := by
  simp only [leave_room]
  repeat' split
  all_goals rfl

/-- `remove_client` keeps every stroke history within the bound. -/
theorem hist_ok_remove_client (s s1 : Server) (client_id : Nat) (out : List Out)
    (h : remove_client s client_id = some (s1, out)) (hs : hist_ok s) : hist_ok s1 := by
  simp only [remove_client] at h
  repeat' split at h
  all_goals first
    | (simp at h; done)
    | (simp only [Option.some.injEq, Prod.mk.injEq] at h
       obtain ⟨rfl, rfl⟩ := h
       first
        | exact hs
        | exact hist_ok_set_at _ _ _ _ _ _ hs (by assumption) (remove_from_room_history _ _ _))

/-- The case `MSG_CLIENT_JOIN` does not touch the rooms. -/
theorem hist_ok_client_join (s s1 : Server) (client_id : Nat) (nickname : List Nat)
    (out : List Out)
    (h : handle_client_join s client_id nickname = some (s1, out)) (hs : hist_ok s) :
    hist_ok s1 := by
  simp only [handle_client_join] at h
  repeat' split at h
  all_goals first
    | (simp at h; done)
    | (simp only [Option.some.injEq, Prod.mk.injEq] at h
       obtain ⟨rfl, rfl⟩ := h
       exact hs)

/-- The case `MSG_CLIENT_READY` keeps every stroke history within the bound. -/
theorem hist_ok_client_ready (env : Env) (s s1 : Server) (client_id : Nat) (out : List Out)
    (h : handle_client_ready env s client_id = some (s1, out)) (hs : hist_ok s) :
    hist_ok s1 := by
  simp only [handle_client_ready] at h
  repeat' split at h
  all_goals first
    | (simp at h; done)
    | exact hist_ok_start_game _ _ _ _ _ h
        (hist_ok_set_at _ _ _ _ _ _ hs (by assumption) (by rfl))
    | (simp only [Option.some.injEq, Prod.mk.injEq] at h
       obtain ⟨rfl, rfl⟩ := h
       first
        | exact hs
        | exact hist_ok_set_at _ _ _ _ _ _ hs (by assumption) (by rfl))

/-- The case `MSG_PAINTER_FINISH` keeps every stroke history within the bound. -/
theorem hist_ok_painter_finish (env : Env) (s s1 : Server) (client_id : Nat) (out : List Out)
    (h : handle_painter_finish env s client_id = some (s1, out)) (hs : hist_ok s) :
    hist_ok s1 := by
  simp only [handle_painter_finish] at h
  repeat' split at h
  all_goals first
    | (simp at h; done)
    | (simp only [Option.some.injEq, Prod.mk.injEq] at h
       obtain ⟨rfl, rfl⟩ := h
       first
        | exact hs
        | exact hist_ok_set_at _ _ _ _ _ _ hs (by assumption) (by rfl))

/-- The case `MSG_GUESS_SUBMIT` keeps every stroke history within the bound. -/
theorem hist_ok_guess_submit (s s1 : Server) (client_id : Nat) (guess : List Nat)
    (out : List Out)
    (h : handle_guess_submit s client_id guess = some (s1, out)) (hs : hist_ok s) :
    hist_ok s1 := by
  simp only [handle_guess_submit] at h
  repeat' split at h
  all_goals first
    | (simp at h; done)
    | exact hist_ok_end_game _ _ _ _ h
        (hist_ok_set_at _ _ _ _ _ _ hs (by assumption) (by rfl))
    | (simp only [Option.some.injEq, Prod.mk.injEq] at h
       obtain ⟨rfl, rfl⟩ := h
       first
        | exact hs
        | exact hist_ok_set_at _ _ _ _ _ _ hs (by assumption) (by rfl))

/-- The case `MSG_HISTORY_REQ` does not touch the rooms. -/
theorem hist_ok_history_req (env : Env) (s s1 : Server) (client_id : Nat) (out : List Out)
    (h : handle_history_req env s client_id = some (s1, out)) (hs : hist_ok s) :
    hist_ok s1 := by
  simp only [handle_history_req] at h
  repeat' split at h
  all_goals first
    | (simp at h; done)
    | (simp only [Option.some.injEq, Prod.mk.injEq] at h
       obtain ⟨rfl, rfl⟩ := h
       exact hs)

/-- The case `MSG_ROOM_LIST_REQ` does not touch the rooms. -/
theorem hist_ok_room_list_req (s s1 : Server) (client_id : Nat) (out : List Out)
    (h : handle_room_list_req s client_id = some (s1, out)) (hs : hist_ok s) :
    hist_ok s1 := by
  simp only [handle_room_list_req] at h
  repeat' split at h
  all_goals first
    | (simp at h; done)
    | (simp only [Option.some.injEq, Prod.mk.injEq] at h
       obtain ⟨rfl, rfl⟩ := h
       exact hs)

/-- The entry returned by `find_first` is the entry at the returned index. -/
theorem find_first_get {α : Type} (p : α → Bool) (l : List α) (i : Nat) (c : α)
    (h : find_first p l = some (i, c)) : l[i]? = some c := by
  induction l generalizing i with
  | nil => simp [find_first] at h
  | cons a l ih =>
    by_cases ha : p a = true
    · simp [find_first, ha] at h
      obtain ⟨hi, hc⟩ := h
      subst hi
      subst hc
      simp
    · cases hrest : find_first p l with
      | none => simp [find_first, ha, hrest] at h
      | some r =>
        obtain ⟨j, d⟩ := r
        simp [find_first, ha, hrest] at h
        obtain ⟨hi, hc⟩ := h
        subst hi
        subst hc
        simpa using ih j hrest

/-- The case `MSG_CREATE_ROOM` keeps every stroke history within the bound. -/
theorem hist_ok_create_room (s s1 : Server) (client_id : Nat) (room_name nickname : List Nat)
    (out : List Out)
    (h : handle_create_room s client_id room_name nickname = some (s1, out))
    (hs : hist_ok s) : hist_ok s1 := by
  simp only [handle_create_room] at h
  repeat' split at h
  all_goals first
    | (simp at h; done)
    | (simp only [Option.some.injEq, Prod.mk.injEq] at h
       obtain ⟨rfl, rfl⟩ := h
       first
        | exact hs
        | exact hist_ok_set_get _ _ _ _ _ _ hs (find_first_get _ _ _ _ (by assumption))
            (by rfl))

/-- The case `MSG_JOIN_ROOM` keeps every stroke history within the bound. -/
theorem hist_ok_join_room (s s1 : Server) (client_id room_id : Nat) (nickname : List Nat)
    (out : List Out)
    (h : handle_join_room s client_id room_id nickname = some (s1, out))
    (hs : hist_ok s) : hist_ok s1 := by
  simp only [handle_join_room] at h
  repeat' split at h
  all_goals first
    | (simp at h; done)
    | (simp only [Option.some.injEq, Prod.mk.injEq] at h
       obtain ⟨rfl, rfl⟩ := h
       first
        | exact hs
        | exact hist_ok_set_get _ _ _ _ _ _ hs (by assumption) (by rfl))

/-- The case `MSG_LEAVE_ROOM` keeps every stroke history within the bound. -/
theorem hist_ok_leave_room (s s1 : Server) (client_id room_id : Nat) (out : List Out)
    (h : handle_leave_room s client_id room_id = some (s1, out))
    (hs : hist_ok s) : hist_ok s1 := by
  simp only [handle_leave_room] at h
  repeat' split at h
  all_goals first
    | (simp at h; done)
    | (simp only [Option.some.injEq, Prod.mk.injEq] at h
       obtain ⟨rfl, rfl⟩ := h
       first
        | exact hs
        | exact hist_ok_set_get _ _ _ _ _ _ hs (by assumption) (leave_room_history _ _))

/-- Every case of `handle_tcp_client` keeps every stroke history within the bound. -/
theorem hist_ok_tcp_client (env : Env) (s s1 : Server) (client_id : Nat) (msg : Msg)
    (out : List Out)
    (h : handle_tcp_client env s client_id msg = some (s1, out))
    (hs : hist_ok s) : hist_ok s1 := by
  cases msg with
  | client_join nickname => exact hist_ok_client_join _ _ _ _ _ h hs
  | client_ready => exact hist_ok_client_ready _ _ _ _ _ h hs
  | painter_finish => exact hist_ok_painter_finish _ _ _ _ _ h hs
  | guess_submit guess => exact hist_ok_guess_submit _ _ _ _ _ h hs
  | client_leave => exact hist_ok_remove_client _ _ _ _ h hs
  | history_req => exact hist_ok_history_req _ _ _ _ _ h hs
  | room_list_req => exact hist_ok_room_list_req _ _ _ _ h hs
  | create_room room_name nickname => exact hist_ok_create_room _ _ _ _ _ _ h hs
  | join_room room_id nickname => exact hist_ok_join_room _ _ _ _ _ _ h hs
  | leave_room room_id => exact hist_ok_leave_room _ _ _ _ _ h hs
  | other t =>
    simp only [handle_tcp_client, Option.some.injEq, Prod.mk.injEq] at h
    obtain ⟨rfl, rfl⟩ := h
    exact hs

/-- `handle_udp_server` appends a point only below the bound. -/
theorem hist_ok_udp_server (s s1 : Server) (client_addr : Nat) (paint_msg : PaintDataMessage)
    (out : List Out)
    (h : handle_udp_server s client_addr paint_msg = some (s1, out))
    (hs : hist_ok s) : hist_ok s1 := by
  simp only [handle_udp_server] at h
  repeat' split at h
  all_goals first
    | (simp at h; done)
    | (simp only [Option.some.injEq, Prod.mk.injEq] at h
       obtain ⟨rfl, rfl⟩ := h
       first
        | exact hs
        | exact hist_ok_set_at _ _ _ _ _ _ hs (by assumption) (by rfl)
        | exact hist_ok_set _ _ _ _ hs (by
            simp only [Room.history_count, List.length_append, List.length_singleton] at *
            omega))

/-- The body of the timer loop keeps every stroke history within the bound. -/
theorem hist_ok_timer_room (env : Env) (s s1 : Server) (i : Nat) (out : List Out)
    (h : game_timer_room env s i = some (s1, out)) (hs : hist_ok s) : hist_ok s1 := by
  simp only [game_timer_room] at h
  repeat' split at h
  all_goals first
    | (simp at h; done)
    | exact hist_ok_end_game _ _ _ _ h hs
    | (simp only [Option.some.injEq, Prod.mk.injEq] at h
       obtain ⟨rfl, rfl⟩ := h
       first
        | exact hs
        | exact hist_ok_set_get _ _ _ _ _ _ hs (by assumption) (by rfl))

/-- The timer loop keeps every stroke history within the bound. -/
theorem hist_ok_timer_from (env : Env) (n : Nat) :
    ∀ (i : Nat) (s s1 : Server) (out : List Out),
      game_timer_from env n i s = some (s1, out) → hist_ok s → hist_ok s1 := by
  induction n with
  | zero =>
    intro i s s1 out h hs
    simp only [game_timer_from, Option.some.injEq, Prod.mk.injEq] at h
    obtain ⟨rfl, rfl⟩ := h
    exact hs
  | succ n ih =>
    intro i s s1 out h hs
    simp only [game_timer_from] at h
    cases h1 : game_timer_room env s i with
    | none => simp [h1] at h
    | some r1 =>
      obtain ⟨sa, oa⟩ := r1
      simp only [h1] at h
      cases h2 : game_timer_from env n (i + 1) sa with
      | none => simp [h2] at h
      | some r2 =>
        obtain ⟨sb, ob⟩ := r2
        simp only [h2, Option.some.injEq, Prod.mk.injEq] at h
        obtain ⟨rfl, rfl⟩ := h
        exact ih _ _ _ _ h2 (hist_ok_timer_room _ _ _ _ _ h1 hs)

/-- `ai_store` does not touch the stroke history. -/
theorem hist_ok_ai_store (s s1 : Server) (room_id : Nat) (predicted : List Nat)
    (score is_correct : Int) (out : List Out)
    (h : ai_store s room_id predicted score is_correct = some (s1, out))
    (hs : hist_ok s) : hist_ok s1 := by
  simp only [ai_store] at h
  repeat' split at h
  all_goals first
    | (simp at h; done)
    | (simp only [Option.some.injEq, Prod.mk.injEq] at h
       obtain ⟨rfl, rfl⟩ := h
       first
        | exact hs
        | exact hist_ok_set_get _ _ _ _ _ _ hs (by assumption) (by rfl))

/-- Every handler keeps every stroke history within the bound. -/
theorem hist_ok_handle (env : Env) (s s1 : Server) (ev : Event) (out : List Out)
    (h : handle env s ev = some (s1, out)) (hs : hist_ok s) : hist_ok s1 := by
  cases ev with
  | accept socket_fd =>
    simp only [handle, Option.some.injEq] at h
    have := hist_ok_add_client s socket_fd hs
    rw [h] at this
    exact this
  | recv client_id msg => exact hist_ok_tcp_client _ _ _ _ _ _ h hs
  | closed client_id => exact hist_ok_remove_client _ _ _ _ h hs
  | datagram client_addr paint_msg => exact hist_ok_udp_server _ _ _ _ _ h hs
  | tick => exact hist_ok_timer_from _ _ _ _ _ _ h hs
  | ai_reply room_id predicted score is_correct => exact hist_ok_ai_store _ _ _ _ _ _ _ h hs

/-- A run keeps every stroke history within the bound. -/
theorem hist_ok_run (evs : List (Env × Event)) :
    ∀ (y y1 : Sys), run y evs = some y1 → hist_ok y.server → hist_ok y1.server := by
  induction evs with
  | nil =>
    intro y y1 h hs
    simp only [run, Option.some.injEq] at h
    rw [← h]
    exact hs
  | cons e evs ih =>
    intro y y1 h hs
    obtain ⟨env, ev⟩ := e
    simp only [run] at h
    split at h
    · cases hstep : step env y ev with
      | none => simp [hstep] at h
      | some r =>
        obtain ⟨y2, o2⟩ := r
        simp only [hstep] at h
        apply ih y2 y1 h
        simp only [step] at hstep
        cases hh : handle env y.server ev with
        | none => simp [hh] at hstep
        | some q =>
          obtain ⟨sa, oa⟩ := q
          simp only [hh, Option.some.injEq, Prod.mk.injEq] at hstep
          rw [← hstep.1]
          exact hist_ok_handle _ _ _ _ _ hh hs
    · simp at h

/-- The initial tables have empty stroke histories. -/
theorem hist_ok_init : hist_ok init_server := by
  intro r hr
  simp only [init_server, List.mem_map] at hr
  obtain ⟨i, _, rfl⟩ := hr
  simp [init_room, Room.history_count]

/-- The tables after a run that does not fail are reachable. -/
theorem reachable_server_after (evs : List (Env × Event))
    (h : (run init_sys evs).isSome = true) : Reachable (server_after evs) := by
  cases hr : run init_sys evs with
  | none => simp [hr] at h
  | some y => exact ⟨evs, y, hr, by simp [server_after, hr]⟩

/-- C19: the stroke history is bounded.  In every reachable state every room has
`history_count ≤ MAX_DRAWING_POINTS`; and a datagram of the painter arriving in PAINTING when
`history_count` is already `MAX_DRAWING_POINTS` leaves the stroke history unchanged (only the
sender's address is latched) and is forwarded to the other members exactly as when it is
recorded: the datagrams sent are the same whatever stroke history the room holds. -/
theorem history_bounded :
    (∀ s, Reachable s → ∀ r ∈ s.rooms, r.history_count ≤ MAX_DRAWING_POINTS)
    ∧ ∀ (s : Server) (client_addr : Nat) (paint_msg : PaintDataMessage) (g : ClientInfo)
        (r : Nat) (room : Room),
        paint_msg.base.client_id < MAX_CLIENTS →
        s.clients[paint_msg.base.client_id]? = some g →
        g.room_id = (r : Int) → s.rooms[r]? = some room →
        (paint_msg.base.client_id : Int) = room.game.painter_id →
        room.game.state = GameState.GAME_PAINTING →
        room.history_count = MAX_DRAWING_POINTS →
        handle_udp_server s client_addr paint_msg
          = some ({ rooms := s.rooms.set r
                      { room with
                        clients :=
                          latch_slots room.clients paint_msg.base.client_id client_addr }
                    clients := latch_client s.clients paint_msg.base.client_id client_addr g },
              forwarded (latch_slots room.clients paint_msg.base.client_id client_addr)
                paint_msg)
        ∧ ∀ history : List DrawingPoint,
            (handle_udp_server
                { s with rooms := s.rooms.set r { room with drawing_history := history } }
                client_addr paint_msg).map (fun q => q.2)
              = some (forwarded (latch_slots room.clients paint_msg.base.client_id client_addr)
                  paint_msg) := by
  constructor
  · intro s hreach
    obtain ⟨evs, y, hrun, hy⟩ := hreach
    have := hist_ok_run evs init_sys y hrun hist_ok_init
    rw [hy] at this
    exact this
  · intro s client_addr paint_msg g r room hcid hg hrid hroom hp hst hfull
    have hrlt : r < s.rooms.length := (List.getElem?_eq_some_iff.1 hroom).1
    constructor
    · rw [handle_udp_server_in_room s client_addr paint_msg g r room hcid hg hrid hroom,
        if_pos ⟨hp, Or.inl hst⟩]
      have hn : ¬ (room.game.state = GameState.GAME_PAINTING
          ∧ room.history_count < MAX_DRAWING_POINTS) := by
        intro h
        omega
      simp [hn]
    · intro history
      rw [handle_udp_server_in_room
        { s with rooms := s.rooms.set r { room with drawing_history := history } }
        client_addr paint_msg g r { room with drawing_history := history } hcid hg hrid
        (by simp [hrlt]),
        if_pos ⟨hp, Or.inl hst⟩]
      rfl

/-- C19 (witness): the bound at the state reached by `painting_run`, and the second part at
`full_history_server`, where the stroke history of room 0 holds `MAX_DRAWING_POINTS` points,
for a datagram of the painter (client 0). -/
theorem history_bounded_witness :
    (∀ r ∈ (server_after painting_run).rooms, r.history_count ≤ MAX_DRAWING_POINTS)
    ∧ handle_udp_server full_history_server 1000 (datagram_of 0 2)
        = some ({ rooms := full_history_server.rooms.set 0
                    { full_room with clients := latch_slots full_room.clients 0 1000 }
                  clients := latch_client full_history_server.clients 0 1000
                    ((server_after painting_run).clients.getD 0 free_client) },
            forwarded (latch_slots full_room.clients 0 1000) (datagram_of 0 2)) :=
  ⟨history_bounded.1 _ (reachable_server_after painting_run (by decide)),
    (history_bounded.2 full_history_server 1000 (datagram_of 0 2)
      ((server_after painting_run).clients.getD 0 free_client) 0 full_room
      (by decide) (by decide) (by decide)
      (by
        have hlen : 0 < (server_after painting_run).rooms.length := by decide
        simp [full_history_server, hlen])
      (by decide) (by decide)
      (by simp [full_room, Room.history_count])).1⟩

/-- C20 (as amended): the server does not validate the action byte.  For a sender that is in
a room, a datagram from the painter while the room is in PAINTING is appended to the stroke
history (while `history_count < MAX_DRAWING_POINTS`) and forwarded to every other seated
member with a latched address, whatever its action byte, 0 (registration) and values
outside {1, 2, 3} included; and a datagram that is not from the painter, or that arrives
outside PAINTING with an action other than 3, is neither appended nor forwarded: its only
effect is to latch the sender's datagram address. -/
theorem udp_action_not_checked (s : Server) (client_addr : Nat)
    (paint_msg : PaintDataMessage) (g : ClientInfo) (r : Nat) (room : Room)
    (hcid : paint_msg.base.client_id < MAX_CLIENTS)
    (hg : s.clients[paint_msg.base.client_id]? = some g)
    (hrid : g.room_id = (r : Int)) (hroom : s.rooms[r]? = some room) :
    (((paint_msg.base.client_id : Int) = room.game.painter_id
        ∧ room.game.state = GameState.GAME_PAINTING) →
      handle_udp_server s client_addr paint_msg
        = some ({ rooms := s.rooms.set r
                    { room with
                      clients := latch_slots room.clients paint_msg.base.client_id client_addr
                      drawing_history :=
                        if room.history_count < MAX_DRAWING_POINTS then
                          room.drawing_history ++ [point_of paint_msg]
                        else room.drawing_history }
                  clients := latch_client s.clients paint_msg.base.client_id client_addr g },
            forwarded (latch_slots room.clients paint_msg.base.client_id client_addr)
              paint_msg))
    ∧ (¬ ((paint_msg.base.client_id : Int) = room.game.painter_id
          ∧ (room.game.state = GameState.GAME_PAINTING ∨ paint_msg.action = 3)) →
      handle_udp_server s client_addr paint_msg
        = some ({ rooms := s.rooms.set r
                    { room with
                      clients := latch_slots room.clients paint_msg.base.client_id client_addr }
                  clients := latch_client s.clients paint_msg.base.client_id client_addr g },
            [])) := by
  rw [handle_udp_server_in_room s client_addr paint_msg g r room hcid hg hrid hroom]
  constructor
  · intro hc
    rw [if_pos ⟨hc.1, Or.inl hc.2⟩]
    simp [hc.2]
  · intro hc
    rw [if_neg hc]

/-- C20 (witness): the amended statement at the state reached by `registered_run`, for a
datagram with action 0 from client 0, the painter of room 0. -/
theorem udp_action_not_checked_witness :
    ((((datagram_of 0 0).base.client_id : Nat) : Int)
          = ((server_after registered_run).rooms.getD 0 (init_room 0)).game.painter_id
        ∧ ((server_after registered_run).rooms.getD 0 (init_room 0)).game.state
            = GameState.GAME_PAINTING →
      handle_udp_server (server_after registered_run) 1000 (datagram_of 0 0)
        = some ({ rooms := (server_after registered_run).rooms.set 0
                    { (server_after registered_run).rooms.getD 0 (init_room 0) with
                      clients := latch_slots
                        ((server_after registered_run).rooms.getD 0 (init_room 0)).clients
                        (datagram_of 0 0).base.client_id 1000
                      drawing_history :=
                        if ((server_after registered_run).rooms.getD 0 (init_room 0)).history_count
                            < MAX_DRAWING_POINTS then
                          ((server_after registered_run).rooms.getD 0
                              (init_room 0)).drawing_history ++ [point_of (datagram_of 0 0)]
                        else
                          ((server_after registered_run).rooms.getD 0
                            (init_room 0)).drawing_history }
                  clients := latch_client (server_after registered_run).clients
                    (datagram_of 0 0).base.client_id 1000
                    ((server_after registered_run).clients.getD 0 free_client) },
            forwarded
              (latch_slots ((server_after registered_run).rooms.getD 0 (init_room 0)).clients
                (datagram_of 0 0).base.client_id 1000)
              (datagram_of 0 0)))
    ∧ (¬ ((((datagram_of 0 0).base.client_id : Nat) : Int)
            = ((server_after registered_run).rooms.getD 0 (init_room 0)).game.painter_id
          ∧ (((server_after registered_run).rooms.getD 0 (init_room 0)).game.state
              = GameState.GAME_PAINTING ∨ (datagram_of 0 0).action = 3)) →
      handle_udp_server (server_after registered_run) 1000 (datagram_of 0 0)
        = some ({ rooms := (server_after registered_run).rooms.set 0
                    { (server_after registered_run).rooms.getD 0 (init_room 0) with
                      clients := latch_slots
                        ((server_after registered_run).rooms.getD 0 (init_room 0)).clients
                        (datagram_of 0 0).base.client_id 1000 }
                  clients := latch_client (server_after registered_run).clients
                    (datagram_of 0 0).base.client_id 1000
                    ((server_after registered_run).clients.getD 0 free_client) },
            [])) :=
  udp_action_not_checked (server_after registered_run) 1000 (datagram_of 0 0)
    ((server_after registered_run).clients.getD 0 free_client) 0
    ((server_after registered_run).rooms.getD 0 (init_room 0))
    (by decide) (by decide) (by decide) (by decide)

/-- C20 (counterexample): after `registered_run` room 0 is in PAINTING with client 0 as
painter, an empty stroke history, and the address of client 1 latched.  A datagram from the
painter with action 0 (registration), and likewise one with the undefined action 7, is
appended to the stroke history and forwarded to client 1. -/
theorem udp_registration_recorded_and_forwarded :
    (server_after registered_run).rooms.head?.map
        (fun r => (r.game.state, r.game.painter_id, r.drawing_history))
      = some (GameState.GAME_PAINTING, 0, [])
    ∧ ((handle_udp_server (server_after registered_run) 1000 (datagram_of 0 0)).bind
        (fun r => r.1.rooms.head?.map (fun room => room.drawing_history)))
      = some [{ x := 0, y := 0, action := 0 }]
    ∧ ((handle_udp_server (server_after registered_run) 1000 (datagram_of 0 0)).map
        (fun r => r.2)) = some [Out.sendto 1001 (datagram_of 0 0)]
    ∧ ((handle_udp_server (server_after registered_run) 1000 (datagram_of 0 7)).bind
        (fun r => r.1.rooms.head?.map (fun room => room.drawing_history)))
      = some [{ x := 0, y := 0, action := 7 }]
    ∧ ((handle_udp_server (server_after registered_run) 1000 (datagram_of 0 7)).map
        (fun r => r.2)) = some [Out.sendto 1001 (datagram_of 0 7)] :=
  ⟨by decide, by decide, by decide, by decide, by decide⟩

/-! ## The timer: one room at a time -/

/-- The function `end_game` writes no room but its own. -/
theorem end_game_rooms_other (s s1 : Server) (j i : Nat) (out : List Out)
    (h : end_game s j = some (s1, out)) (hij : i ≠ j) : s1.rooms[i]? = s.rooms[i]? := by
  simp only [end_game] at h
  repeat' split at h
  all_goals first
    | (simp at h; done)
    | (simp only [Option.some.injEq, Prod.mk.injEq] at h
       obtain ⟨rfl, rfl⟩ := h
       first
         | rfl
         | exact List.getElem?_set_ne (Ne.symm hij))

/-- The body of the room loop of `game_timer` writes no room but its own. -/
theorem game_timer_room_other (env : Env) (s s1 : Server) (j i : Nat) (out : List Out)
    (h : game_timer_room env s j = some (s1, out)) (hij : i ≠ j) :
    s1.rooms[i]? = s.rooms[i]? := by
  simp only [game_timer_room] at h
  repeat' split at h
  all_goals first
    | (simp at h; done)
    | exact end_game_rooms_other _ _ _ _ _ h hij
    | (simp only [Option.some.injEq, Prod.mk.injEq] at h
       obtain ⟨rfl, rfl⟩ := h
       first
         | rfl
         | exact List.getElem?_set_ne (Ne.symm hij))

/-- The room loop started at room `j` leaves the rooms below `j` alone. -/
theorem game_timer_from_below (env : Env) (n : Nat) :
    ∀ (j : Nat) (s s2 : Server) (out : List Out),
      game_timer_from env n j s = some (s2, out) → ∀ i, i < j → s2.rooms[i]? = s.rooms[i]? := by
  induction n with
  | zero =>
    intro j s s2 out h i _
    simp only [game_timer_from, Option.some.injEq, Prod.mk.injEq] at h
    rw [← h.1]
  | succ n ih =>
    intro j s s2 out h i hi
    simp only [game_timer_from] at h
    cases h1 : game_timer_room env s j with
    | none => simp [h1] at h
    | some p1 =>
      obtain ⟨s1, out1⟩ := p1
      simp only [h1] at h
      cases h2 : game_timer_from env n (j + 1) s1 with
      | none => simp [h2] at h
      | some p2 =>
        obtain ⟨s3, out2⟩ := p2
        simp only [h2, Option.some.injEq, Prod.mk.injEq] at h
        obtain ⟨rfl, rfl⟩ := h
        rw [ih (j + 1) s1 s3 out2 h2 i (by omega)]
        exact game_timer_room_other env s s1 j i out1 h1 (by omega)

/-- The room loop reaches the room `i` with that room untouched, runs its body there, and
never writes the room again; the effects of the body are a segment of the effects of the
loop. -/
theorem game_timer_from_at (env : Env) (n : Nat) :
    ∀ (j : Nat) (s s2 : Server) (out : List Out),
      game_timer_from env n j s = some (s2, out) → ∀ i, j ≤ i → i < j + n →
      ∃ sa sb a b c, sa.rooms[i]? = s.rooms[i]? ∧ game_timer_room env sa i = some (sb, b) ∧
        s2.rooms[i]? = sb.rooms[i]? ∧ out = a ++ b ++ c := by
  induction n with
  | zero => intro j s s2 out _ i h1 h2; omega
  | succ n ih =>
    intro j s s2 out h i hji hi
    simp only [game_timer_from] at h
    cases h1 : game_timer_room env s j with
    | none => simp [h1] at h
    | some p1 =>
      obtain ⟨s1, out1⟩ := p1
      simp only [h1] at h
      cases h2 : game_timer_from env n (j + 1) s1 with
      | none => simp [h2] at h
      | some p2 =>
        obtain ⟨s3, out2⟩ := p2
        simp only [h2, Option.some.injEq, Prod.mk.injEq] at h
        obtain ⟨rfl, rfl⟩ := h
        by_cases hij : i = j
        · subst hij
          exact ⟨s, s1, [], out1, out2, rfl, h1,
            game_timer_from_below env n (i + 1) s1 s3 out2 h2 i (by omega), by simp⟩
        · obtain ⟨sa, sb, a, b, c, ha, hb, hc, hout⟩ :=
            ih (j + 1) s1 s3 out2 h2 i (by omega) (by omega)
          refine ⟨sa, sb, out1 ++ a, b, c, ?_, hb, hc, ?_⟩
          · rw [ha]
            exact game_timer_room_other env s s1 j i out1 h1 hij
          · rw [hout]
            simp

/-- The function `end_game` returns on tables whose slots are valid, and keeps them so. -/
theorem end_game_total (s : Server) (j : Nat) (hv : slots_valid s) (hj : j < s.rooms.length) :
    ∃ s1 out, end_game s j = some (s1, out) ∧ slots_valid s1 ∧
      s1.rooms.length = s.rooms.length := by
  have hroom : s.rooms[j]? = some s.rooms[j] := List.getElem?_eq_getElem hj
  have hmem : s.rooms[j] ∈ s.rooms := List.getElem_mem hj
  simp only [end_game, hroom]
  by_cases hst : s.rooms[j].game.state ≠ GameState.GAME_GUESSING
  · rw [if_pos hst]
    exact ⟨s, [], rfl, hv, rfl⟩
  · rw [if_neg hst]
    obtain ⟨cl, hcl, hlen⟩ := reset_globals_some s.rooms[j].clients s.clients (hv _ hmem)
    simp only [hcl]
    refine ⟨_, _, rfl, ?_, by simp⟩
    intro r hr c hc hseat
    simp only at hr
    rcases List.mem_or_eq_of_mem_set hr with hr | rfl
    · simp only [hlen]
      exact hv r hr c hc hseat
    · simp only [List.mem_map] at hc
      obtain ⟨c0, hc0, rfl⟩ := hc
      simp only [hlen]
      by_cases h0 : seated c0 = true
      · simp only [h0, if_true] at hseat ⊢
        exact hv _ hmem c0 hc0 h0
      · simp only [h0] at hseat ⊢
        exact absurd hseat h0

/-- The body of the room loop returns on tables whose slots are valid, and keeps them so. -/
theorem game_timer_room_total (env : Env) (s : Server) (j : Nat) (hv : slots_valid s)
    (hj : j < s.rooms.length) :
    ∃ s1 out, game_timer_room env s j = some (s1, out) ∧ slots_valid s1 ∧
      s1.rooms.length = s.rooms.length := by
  have hroom : s.rooms[j]? = some s.rooms[j] := List.getElem?_eq_getElem hj
  have hmem : s.rooms[j] ∈ s.rooms := List.getElem_mem hj
  simp only [game_timer_room, hroom]
  split
  · split
    · refine ⟨_, _, rfl, ?_, by simp⟩
      intro r hr c hc hseat
      simp only at hr
      rcases List.mem_or_eq_of_mem_set hr with hr | rfl
      · exact hv r hr c hc hseat
      · exact hv _ hmem c hc hseat
    · exact ⟨s, [], rfl, hv, rfl⟩
  · split
    · split
      · exact end_game_total s j hv hj
      · exact ⟨s, [], rfl, hv, rfl⟩
    · exact ⟨s, [], rfl, hv, rfl⟩

/-- The room loop returns on tables whose slots are valid. -/
theorem game_timer_from_total (env : Env) (n : Nat) :
    ∀ (j : Nat) (s : Server), slots_valid s → j + n ≤ s.rooms.length →
      ∃ s2 out, game_timer_from env n j s = some (s2, out) := by
  induction n with
  | zero => intro j s _ _; exact ⟨s, [], rfl⟩
  | succ n ih =>
    intro j s hv hj
    obtain ⟨s1, out1, h1, hv1, hl1⟩ := game_timer_room_total env s j hv (by omega)
    obtain ⟨s2, out2, h2⟩ := ih (j + 1) s1 hv1 (by omega)
    exact ⟨s2, out1 ++ out2, by simp only [game_timer_from, h1, h2]⟩

/-- The body of the room loop on a room in PAINTING. -/
theorem game_timer_room_painting (env : Env) (s : Server) (i : Nat) (room : Room)
    (hroom : s.rooms[i]? = some room) (hid : i < MAX_ROOMS)
    (hst : room.game.state = GameState.GAME_PAINTING) :
    game_timer_room env s i
      = if env.now - room.game.paint_start_time ≥ 60 then
          some ({ s with rooms := s.rooms.set i (to_guessing env.now room) },
            Out.spawn_ai i :: finish_broadcast room)
        else some (s, []) := by
  have hlt : i < s.rooms.length := (List.getElem?_eq_some_iff.1 hroom).1
  simp only [game_timer_room, hroom, hst, if_true]
  split
  · rw [broadcast_message_all _ _ i (to_guessing env.now room)
      (by simp [hlt, to_guessing]) hid]
    rfl
  · rfl

/-! ## C21: the paint deadline -/

/-- C21: for a room in PAINTING whose paint time is over (60 s or more), the body of the
timer loop and a PAINTER_FINISH from the painter handled at the same time yield the same
tables (the room in GUESSING with `guess_start_time = now`, nothing else changed), the same
PAINTER_FINISH broadcast to every seated member and one scheduled AI request (the timer
schedules it before the broadcast, the handler after); a whole tick leaves the room in that
state and its effects contain those of the body; before the deadline the body changes
nothing and sends nothing and a whole tick leaves the room as it was; and a tick returns on
every state whose slots are valid. -/
theorem paint_deadline_as_painter_finish (env : Env) (s : Server) (i : Nat) (room : Room)
    (hroom : s.rooms[i]? = some room) (hid : i < MAX_ROOMS)
    (hst : room.game.state = GameState.GAME_PAINTING) :
    (60 ≤ env.now - room.game.paint_start_time →
        game_timer_room env s i
          = some ({ s with rooms := s.rooms.set i (to_guessing env.now room) },
              Out.spawn_ai i :: finish_broadcast room)
        ∧ (∀ (p : Nat) (g : ClientInfo), room.game.painter_id = (p : Int) →
            s.clients[p]? = some g → g.room_id = (i : Int) →
            handle_painter_finish env s p
              = some ({ s with rooms := s.rooms.set i (to_guessing env.now room) },
                  finish_broadcast room ++ [Out.spawn_ai i]))
        ∧ ∀ s2 out, game_timer env s = some (s2, out) →
            s2.rooms[i]? = some (to_guessing env.now room)
              ∧ ∃ a c, out = a ++ (Out.spawn_ai i :: finish_broadcast room) ++ c)
    ∧ (env.now - room.game.paint_start_time < 60 →
        game_timer_room env s i = some (s, [])
        ∧ ∀ s2 out, game_timer env s = some (s2, out) → s2.rooms[i]? = some room)
    ∧ (slots_valid s → s.rooms.length = MAX_ROOMS →
        ∃ s2 out, game_timer env s = some (s2, out)) := by
  have hrlt : i < s.rooms.length := (List.getElem?_eq_some_iff.1 hroom).1
  refine ⟨?_, ?_, ?_⟩
  · intro hdl
    refine ⟨?_, ?_, ?_⟩
    · rw [game_timer_room_painting env s i room hroom hid hst, if_pos hdl]
    · intro p g hp hg hrid
      have hne : (i : Int) ≠ -1 := by omega
      have hat : room_at s (i : Int) = some room := by simp [room_at, hroom]
      simp only [handle_painter_finish, hg]
      rw [hrid]
      simp only [hne, hat, hp.symm, hst, Int.toNat_ofNat, ne_eq, not_false_eq_true, if_true,
        and_self]
      rw [broadcast_message_all _ _ i (to_guessing env.now room)
        (by simp [hrlt, to_guessing]) hid]
      rfl
    · intro s2 out h
      obtain ⟨sa, sb, a, b, c, ha, hb, hc, hout⟩ :=
        game_timer_from_at env MAX_ROOMS 0 s s2 out h i (by omega) (by omega)
      have hra : sa.rooms[i]? = some room := by rw [ha, hroom]
      rw [game_timer_room_painting env sa i room hra hid hst, if_pos hdl] at hb
      simp only [Option.some.injEq, Prod.mk.injEq] at hb
      obtain ⟨rfl, rfl⟩ := hb
      have hlt : i < sa.rooms.length := (List.getElem?_eq_some_iff.1 hra).1
      refine ⟨?_, a, c, hout⟩
      rw [hc]
      simp [hlt]
  · intro hdl
    have hnot : ¬ env.now - room.game.paint_start_time ≥ 60 := by omega
    refine ⟨?_, ?_⟩
    · rw [game_timer_room_painting env s i room hroom hid hst, if_neg hnot]
    · intro s2 out h
      obtain ⟨sa, sb, a, b, c, ha, hb, hc, _⟩ :=
        game_timer_from_at env MAX_ROOMS 0 s s2 out h i (by omega) (by omega)
      have hra : sa.rooms[i]? = some room := by rw [ha, hroom]
      rw [game_timer_room_painting env sa i room hra hid hst, if_neg hnot] at hb
      simp only [Option.some.injEq, Prod.mk.injEq] at hb
      obtain ⟨rfl, rfl⟩ := hb
      rw [hc, hra]
  · intro hv hlen
    exact game_timer_from_total env MAX_ROOMS 0 s hv (by omega)

/-- C21 (witness): the statement at the state reached by `painting_run` (room 0 in PAINTING
since time 100, painter 0), for ticks at times 160 and 159. -/
theorem paint_deadline_as_painter_finish_witness :
    game_timer_room (env_at 160 0) (server_after painting_run) 0
        = some ({ server_after painting_run with
                  rooms := (server_after painting_run).rooms.set 0
                    (to_guessing (env_at 160 0).now painting_room) },
            Out.spawn_ai 0 :: finish_broadcast painting_room)
    ∧ handle_painter_finish (env_at 160 0) (server_after painting_run) 0
        = some ({ server_after painting_run with
                  rooms := (server_after painting_run).rooms.set 0
                    (to_guessing (env_at 160 0).now painting_room) },
            finish_broadcast painting_room ++ [Out.spawn_ai 0])
    ∧ game_timer_room (env_at 159 0) (server_after painting_run) 0
        = some (server_after painting_run, [])
    ∧ ∃ s2 out, game_timer (env_at 160 0) (server_after painting_run) = some (s2, out) :=
  ⟨((paint_deadline_as_painter_finish (env_at 160 0) (server_after painting_run) 0
        painting_room (by decide) (by decide) (by decide)).1 (by decide)).1,
    ((paint_deadline_as_painter_finish (env_at 160 0) (server_after painting_run) 0
        painting_room (by decide) (by decide) (by decide)).1 (by decide)).2.1 0
      ((server_after painting_run).clients.getD 0 free_client)
      (by decide) (by decide) (by decide),
    ((paint_deadline_as_painter_finish (env_at 159 0) (server_after painting_run) 0
        painting_room (by decide) (by decide) (by decide)).2.1 (by decide)).1,
    (paint_deadline_as_painter_finish (env_at 160 0) (server_after painting_run) 0
        painting_room (by decide) (by decide) (by decide)).2.2 (by decide) (by decide)⟩

/-! ## The frames each handler sends -/

/-- No effect, no frame. -/
theorem sends_ok_nil (P : Frame → Prop) : sends_ok P [] := by
  intro fd f h
  simp at h

/-- The frames of two lists of effects put together. -/
theorem sends_ok_append (P : Frame → Prop) (a b : List Out) (ha : sends_ok P a)
    (hb : sends_ok P b) : sends_ok P (a ++ b) := by
  intro fd f h
  rcases List.mem_append.1 h with h | h
  · exact ha fd f h
  · exact hb fd f h

/-- A single frame. -/
theorem sends_ok_single (P : Frame → Prop) (fd : Int) (f : Frame) (h : P f) :
    sends_ok P [Out.send fd f] := by
  intro fd1 f1 h1
  simp only [List.mem_singleton, Out.send.injEq] at h1
  rw [h1.2]
  exact h

/-- One frame per element of a list. -/
theorem sends_ok_map (P : Frame → Prop) {α : Type} (l : List α) (fd : α → Int)
    (g : α → Frame) (h : ∀ c ∈ l, P (g c)) :
    sends_ok P (l.map (fun c => Out.send (fd c) (g c))) := by
  intro fd1 f1 h1
  simp only [List.mem_map, Out.send.injEq] at h1
  obtain ⟨c, hc, _, rfl⟩ := h1
  exact h c hc

/-- A broadcast sends copies of one frame. -/
theorem sends_ok_broadcast (P : Frame → Prop) (s : Server) (msg : Frame) (e r : Int)
    (h : P msg) : sends_ok P (broadcast_message s msg e r) := by
  unfold broadcast_message
  split
  · exact sends_ok_nil P
  · split
    · exact sends_ok_nil P
    · exact sends_ok_map P _ _ _ (fun _ _ => h)

/-- A weaker property of the frames sent. -/
theorem sends_ok_mono (P Q : Frame → Prop) (out : List Out) (hPQ : ∀ f, P f → Q f)
    (h : sends_ok P out) : sends_ok Q out :=
  fun fd f hf => hPQ f (h fd f hf)

/-- The function `start_game` sends GAME_START frames only. -/
theorem start_game_sends (env : Env) (s s1 : Server) (room_id : Nat) (out : List Out)
    (h : start_game env s room_id = some (s1, out)) :
    sends_ok (fun f => ∃ game c, f = game_start_msg game c) out := by
  simp only [start_game, start_round] at h
  repeat' split at h
  all_goals first
    | (simp at h; done)
    | (simp only [Option.some.injEq, Prod.mk.injEq] at h
       obtain ⟨rfl, rfl⟩ := h
       first
         | exact sends_ok_nil _
         | exact sends_ok_map _ _ _ _ (fun c _ => ⟨_, c, rfl⟩))

/-- The function `end_game` sends GAME_END and AI_GUESS_RESULT frames only. -/
theorem end_game_sends_only (s s1 : Server) (room_id : Nat) (out : List Out)
    (h : end_game s room_id = some (s1, out)) :
    sends_ok (fun f => ∃ room, f = game_end_msg room ∨ f = ai_result_msg room) out := by
  simp only [end_game] at h
  repeat' split at h
  all_goals first
    | (simp at h; done)
    | (simp only [Option.some.injEq, Prod.mk.injEq] at h
       obtain ⟨rfl, rfl⟩ := h
       first
         | exact sends_ok_nil _
         | (apply sends_ok_append
            · exact sends_ok_broadcast _ _ _ _ _ ⟨_, Or.inl rfl⟩
            · first
                | exact sends_ok_broadcast _ _ _ _ _ ⟨_, Or.inr rfl⟩
                | exact sends_ok_nil _))

/-- The body of the room loop of `game_timer` sends PAINTER_FINISH, GAME_END and
AI_GUESS_RESULT frames only. -/
theorem game_timer_room_sends (env : Env) (s s1 : Server) (i : Nat) (out : List Out)
    (h : game_timer_room env s i = some (s1, out)) : sends_ok (emitted_by Event.tick) out := by
  simp only [game_timer_room] at h
  repeat' split at h
  all_goals first
    | (simp at h; done)
    | exact sends_ok_mono _ _ _ (fun f hf => Or.inr hf) (end_game_sends_only _ _ _ _ h)
    | (simp only [Option.some.injEq, Prod.mk.injEq] at h
       obtain ⟨rfl, rfl⟩ := h
       first
         | exact sends_ok_nil _
         | (intro fd f hf
            simp only [List.mem_cons] at hf
            rcases hf with hf | hf
            · simp at hf
            · exact sends_ok_broadcast _ _ _ _ _ (Or.inl rfl) fd f hf))

/-- The room loop of `game_timer` sends PAINTER_FINISH, GAME_END and AI_GUESS_RESULT
frames only. -/
theorem game_timer_from_sends (env : Env) (n : Nat) :
    ∀ (j : Nat) (s s2 : Server) (out : List Out),
      game_timer_from env n j s = some (s2, out) → sends_ok (emitted_by Event.tick) out := by
  induction n with
  | zero =>
    intro j s s2 out h
    simp only [game_timer_from, Option.some.injEq, Prod.mk.injEq] at h
    rw [← h.2]
    exact sends_ok_nil _
  | succ n ih =>
    intro j s s2 out h
    simp only [game_timer_from] at h
    cases h1 : game_timer_room env s j with
    | none => simp [h1] at h
    | some p1 =>
      obtain ⟨s1, out1⟩ := p1
      simp only [h1] at h
      cases h2 : game_timer_from env n (j + 1) s1 with
      | none => simp [h2] at h
      | some p2 =>
        obtain ⟨s3, out2⟩ := p2
        simp only [h2, Option.some.injEq, Prod.mk.injEq] at h
        obtain ⟨rfl, rfl⟩ := h
        exact sends_ok_append _ _ _ (game_timer_room_sends env s s1 j out1 h1)
          (ih (j + 1) s1 s3 out2 h2)

/-- Every frame a handler writes to a stream socket is one of the frames built by the code
the event runs. -/
theorem handle_sends (env : Env) (s s1 : Server) (ev : Event) (out : List Out)
    (h : handle env s ev = some (s1, out)) : sends_ok (emitted_by ev) out := by
  cases ev with
  | accept socket_fd =>
    simp only [handle, add_client] at h
    repeat' split at h
    all_goals
      simp only [Option.some.injEq, Prod.mk.injEq] at h
      obtain ⟨rfl, rfl⟩ := h
      intro fd f hf
      simp at hf
  | closed client_id =>
    simp only [handle, remove_client] at h
    repeat' split at h
    all_goals first
      | (simp at h; done)
      | (simp only [Option.some.injEq, Prod.mk.injEq] at h
         obtain ⟨rfl, rfl⟩ := h
         intro fd f hf
         simp at hf)
  | datagram client_addr paint_msg =>
    simp only [handle, handle_udp_server] at h
    repeat' split at h
    all_goals first
      | (simp at h; done)
      | (simp only [Option.some.injEq, Prod.mk.injEq] at h
         obtain ⟨rfl, rfl⟩ := h
         intro fd f hf
         simp at hf)
  | tick => exact game_timer_from_sends env MAX_ROOMS 0 s s1 out h
  | ai_reply room_id predicted score is_correct =>
    simp only [handle, ai_store] at h
    repeat' split at h
    all_goals first
      | (simp at h; done)
      | (simp only [Option.some.injEq, Prod.mk.injEq] at h
         obtain ⟨rfl, rfl⟩ := h
         intro fd f hf
         simp at hf)
  | recv client_id msg =>
    cases msg with
    | client_join nickname =>
      simp only [handle, handle_tcp_client, handle_client_join] at h
      repeat' split at h
      all_goals first
        | (simp at h; done)
        | (simp only [Option.some.injEq, Prod.mk.injEq] at h
           obtain ⟨rfl, rfl⟩ := h
           intro fd f hf
           simp at hf)
    | client_ready =>
      simp only [handle, handle_tcp_client, handle_client_ready] at h
      repeat' split at h
      all_goals first
        | (simp at h; done)
        | exact start_game_sends _ _ _ _ _ h
        | (simp only [Option.some.injEq, Prod.mk.injEq] at h
           obtain ⟨rfl, rfl⟩ := h
           intro fd f hf
           simp at hf)
    | painter_finish =>
      simp only [handle, handle_tcp_client, handle_painter_finish] at h
      repeat' split at h
      all_goals first
        | (simp at h; done)
        | (simp only [Option.some.injEq, Prod.mk.injEq] at h
           obtain ⟨rfl, rfl⟩ := h
           first
             | exact sends_ok_nil _
             | (apply sends_ok_append
                · exact sends_ok_broadcast _ _ _ _ _ rfl
                · intro fd f hf
                  simp at hf))
    | guess_submit guess =>
      simp only [handle, handle_tcp_client, handle_guess_submit] at h
      repeat' split at h
      all_goals first
        | (simp at h; done)
        | exact end_game_sends_only _ _ _ _ h
        | (simp only [Option.some.injEq, Prod.mk.injEq] at h
           obtain ⟨rfl, rfl⟩ := h
           exact sends_ok_nil _)
    | client_leave =>
      simp only [handle, handle_tcp_client, remove_client] at h
      repeat' split at h
      all_goals first
        | (simp at h; done)
        | (simp only [Option.some.injEq, Prod.mk.injEq] at h
           obtain ⟨rfl, rfl⟩ := h
           intro fd f hf
           simp at hf)
    | history_req =>
      simp only [handle, handle_tcp_client, handle_history_req] at h
      repeat' split at h
      all_goals first
        | (simp at h; done)
        | (simp only [Option.some.injEq, Prod.mk.injEq] at h
           obtain ⟨rfl, rfl⟩ := h
           apply sends_ok_append
           · exact sends_ok_map _ _ _ _ (fun row _ => Or.inl ⟨_, _, _, _, rfl⟩)
           · exact sends_ok_single _ _ _ (Or.inr rfl))
    | room_list_req =>
      simp only [handle, handle_tcp_client, handle_room_list_req] at h
      repeat' split at h
      all_goals first
        | (simp at h; done)
        | (simp only [Option.some.injEq, Prod.mk.injEq] at h
           obtain ⟨rfl, rfl⟩ := h
           exact sends_ok_single _ _ _ ⟨_, _, rfl⟩)
    | create_room room_name nickname =>
      simp only [handle, handle_tcp_client, handle_create_room] at h
      repeat' split at h
      all_goals first
        | (simp at h; done)
        | (simp only [Option.some.injEq, Prod.mk.injEq] at h
           obtain ⟨rfl, rfl⟩ := h
           first
             | exact sends_ok_single _ _ _ (Or.inl ⟨_, _, _, _, rfl⟩)
             | exact sends_ok_single _ _ _ (Or.inr rfl))
    | join_room room_id nickname =>
      simp only [handle, handle_tcp_client, handle_join_room] at h
      repeat' split at h
      all_goals first
        | (simp at h; done)
        | (simp only [Option.some.injEq, Prod.mk.injEq] at h
           obtain ⟨rfl, rfl⟩ := h
           first
             | exact sends_ok_single _ _ _ (Or.inl ⟨_, _, _, _, rfl⟩)
             | exact sends_ok_single _ _ _ (Or.inr rfl))
    | leave_room room_id =>
      simp only [handle, handle_tcp_client, handle_leave_room] at h
      repeat' split at h
      all_goals first
        | (simp at h; done)
        | (simp only [Option.some.injEq, Prod.mk.injEq] at h
           obtain ⟨rfl, rfl⟩ := h
           exact sends_ok_single _ _ _ ⟨_, rfl⟩)
    | other type =>
      simp only [handle, handle_tcp_client, Option.some.injEq, Prod.mk.injEq] at h
      obtain ⟨rfl, rfl⟩ := h
      intro fd f hf
      simp at hf
/-! ## A room in GUESSING under the handlers that do not end a round -/

/-- A room read through `room_at` is the room at the index `toNat` of the table. -/
theorem room_at_get (s : Server) (rid : Int) (room : Room) (h : room_at s rid = some room) :
    s.rooms[rid.toNat]? = some room := by
  unfold room_at at h
  split at h
  · simp at h
  · exact h

/-- Writing a room that stays in GUESSING if it was keeps the room `r` in GUESSING; when the
written room may instead satisfy `Q`, the room `r` is in GUESSING or satisfies `Q`. -/
theorem in_guessing_set_or (Q : Room → Prop) (s : Server) (r k : Nat) (roomk x : Room)
    (cl : List ClientInfo) (h : in_guessing s r) (hk : s.rooms[k]? = some roomk)
    (hx : roomk.game.state = GameState.GAME_GUESSING →
      x.game.state = GameState.GAME_GUESSING ∨ Q x) :
    in_guessing { rooms := s.rooms.set k x, clients := cl } r
      ∨ ∃ room1, ({ rooms := s.rooms.set k x, clients := cl } : Server).rooms[r]? = some room1
          ∧ Q room1 := by
  obtain ⟨room, hroom, hst⟩ := h
  by_cases hkr : k = r
  · subst hkr
    have hlt : k < s.rooms.length := (List.getElem?_eq_some_iff.1 hk).1
    have heq : roomk = room := by
      rw [hk] at hroom
      exact Option.some.inj hroom
    rcases hx (heq ▸ hst) with h1 | h1
    · exact Or.inl ⟨x, by simp [hlt], h1⟩
    · exact Or.inr ⟨x, by simp [hlt], h1⟩
  · exact Or.inl ⟨room, by simp [List.getElem?_set_ne hkr, hroom], hst⟩

/-- Writing a room that stays in GUESSING if it was keeps the room `r` in GUESSING. -/
theorem in_guessing_set (s : Server) (r k : Nat) (roomk x : Room) (cl : List ClientInfo)
    (h : in_guessing s r) (hk : s.rooms[k]? = some roomk)
    (hx : roomk.game.state = GameState.GAME_GUESSING →
      x.game.state = GameState.GAME_GUESSING) :
    in_guessing { rooms := s.rooms.set k x, clients := cl } r := by
  rcases in_guessing_set_or (fun _ => False) s r k roomk x cl h hk (fun hg => Or.inl (hx hg))
    with h1 | ⟨_, _, h1⟩
  · exact h1
  · exact absurd h1 id

/-- The same for a room read through `room_at`. -/
theorem in_guessing_set_at (s : Server) (r : Nat) (rid : Int) (roomk x : Room)
    (cl : List ClientInfo) (h : in_guessing s r) (hk : room_at s rid = some roomk)
    (hx : roomk.game.state = GameState.GAME_GUESSING →
      x.game.state = GameState.GAME_GUESSING) :
    in_guessing { rooms := s.rooms.set rid.toNat x, clients := cl } r :=
  in_guessing_set s r rid.toNat roomk x cl h (room_at_get s rid roomk hk) hx

/-- The function `start_game` leaves a room in GUESSING as it is. -/
theorem in_guessing_start_game (env : Env) (s s1 : Server) (k r : Nat) (out : List Out)
    (h : start_game env s k = some (s1, out)) (hs : in_guessing s r) : in_guessing s1 r := by
  simp only [start_game, start_round] at h
  repeat' split at h
  all_goals first
    | (simp at h; done)
    | (simp only [Option.some.injEq, Prod.mk.injEq] at h
       obtain ⟨rfl, rfl⟩ := h
       first
         | exact hs
         | exact in_guessing_set _ _ _ _ _ _ hs (by assumption) (by intro hg; simp_all))

/-- The room part of `MSG_LEAVE_ROOM` does not write the game state. -/
theorem leave_room_state (room : Room) (fd : Int) :
    (leave_room room fd).game.state = room.game.state := by
  unfold leave_room
  split
  · rfl
  · split <;> rfl

/-- The room part of `remove_client` keeps a game in GUESSING in that state, or empties the
room and resets the game. -/
theorem remove_from_room_state (room : Room) (client_id : Nat) (g : ClientInfo)
    (hg : room.game.state = GameState.GAME_GUESSING) :
    (remove_from_room room client_id g).game.state = GameState.GAME_GUESSING
      ∨ ((remove_from_room room client_id g).client_count = 0
          ∧ (remove_from_room room client_id g).game.state = GameState.GAME_WAITING) := by
  simp only [remove_from_room]
  cases hf : find_first (fun c => c.id == client_id) room.clients with
  | none =>
    left
    cases hr : g.ready <;> simp [hg]
  | some p =>
    by_cases h0 : room.client_count - 1 = 0
    · right
      simp [h0, init_game]
    · left
      cases hr : g.ready <;> simp [h0, hg]

/-- The function `remove_client` keeps a room in GUESSING in that state, unless it empties
the room: the game is then reset to WAITING. -/
theorem in_guessing_remove_client (s s1 : Server) (client_id r : Nat) (out : List Out)
    (h : remove_client s client_id = some (s1, out)) (hs : in_guessing s r) :
    in_guessing s1 r
      ∨ ∃ room1, s1.rooms[r]? = some room1 ∧ room1.client_count = 0
          ∧ room1.game.state = GameState.GAME_WAITING := by
  simp only [remove_client] at h
  repeat' split at h
  all_goals first
    | (simp at h; done)
    | (simp only [Option.some.injEq, Prod.mk.injEq] at h
       obtain ⟨rfl, rfl⟩ := h
       first
         | exact Or.inl hs
         | exact in_guessing_set_or
             (fun x => x.client_count = 0 ∧ x.game.state = GameState.GAME_WAITING)
             s r _ _ _ _ hs (room_at_get _ _ _ (by assumption))
             (remove_from_room_state _ _ _))

/-- Every message other than a GUESS and a LEAVE keeps a room in GUESSING in that state. -/
theorem in_guessing_tcp_client (env : Env) (s s1 : Server) (client_id r : Nat) (msg : Msg)
    (out : List Out) (h : handle_tcp_client env s client_id msg = some (s1, out))
    (hs : in_guessing s r) (hg : ∀ guess, msg ≠ Msg.guess_submit guess)
    (hl : msg ≠ Msg.client_leave) : in_guessing s1 r := by
  cases msg with
  | guess_submit guess => exact absurd rfl (hg guess)
  | client_leave => exact absurd rfl hl
  | client_join nickname =>
    simp only [handle_tcp_client, handle_client_join] at h
    repeat' split at h
    all_goals first
      | (simp at h; done)
      | (simp only [Option.some.injEq, Prod.mk.injEq] at h
         obtain ⟨rfl, rfl⟩ := h
         exact hs)
  | client_ready =>
    simp only [handle_tcp_client, handle_client_ready] at h
    repeat' split at h
    all_goals first
      | (simp at h; done)
      | exact in_guessing_start_game _ _ _ _ _ _ h
          (in_guessing_set_at _ _ _ _ _ _ hs (by assumption) (by intro hg; simp_all))
      | (simp only [Option.some.injEq, Prod.mk.injEq] at h
         obtain ⟨rfl, rfl⟩ := h
         first
           | exact hs
           | exact in_guessing_set_at _ _ _ _ _ _ hs (by assumption) (by intro hg; simp_all))
  | painter_finish =>
    simp only [handle_tcp_client, handle_painter_finish] at h
    repeat' split at h
    all_goals first
      | (simp at h; done)
      | (simp only [Option.some.injEq, Prod.mk.injEq] at h
         obtain ⟨rfl, rfl⟩ := h
         first
           | exact hs
           | exact in_guessing_set_at _ _ _ _ _ _ hs (by assumption) (by intro _; rfl))
  | history_req =>
    simp only [handle_tcp_client, handle_history_req] at h
    repeat' split at h
    all_goals first
      | (simp at h; done)
      | (simp only [Option.some.injEq, Prod.mk.injEq] at h
         obtain ⟨rfl, rfl⟩ := h
         exact hs)
  | room_list_req =>
    simp only [handle_tcp_client, handle_room_list_req] at h
    repeat' split at h
    all_goals first
      | (simp at h; done)
      | (simp only [Option.some.injEq, Prod.mk.injEq] at h
         obtain ⟨rfl, rfl⟩ := h
         exact hs)
  | create_room room_name nickname =>
    simp only [handle_tcp_client, handle_create_room] at h
    repeat' split at h
    all_goals first
      | (simp at h; done)
      | (simp only [Option.some.injEq, Prod.mk.injEq] at h
         obtain ⟨rfl, rfl⟩ := h
         first
           | exact hs
           | exact in_guessing_set _ _ _ _ _ _ hs (find_first_get _ _ _ _ (by assumption))
               (by intro hg; exact hg))
  | join_room room_id nickname =>
    simp only [handle_tcp_client, handle_join_room] at h
    repeat' split at h
    all_goals first
      | (simp at h; done)
      | (simp only [Option.some.injEq, Prod.mk.injEq] at h
         obtain ⟨rfl, rfl⟩ := h
         first
           | exact hs
           | exact in_guessing_set _ _ _ _ _ _ hs (by assumption) (by intro hg; exact hg))
  | leave_room room_id =>
    simp only [handle_tcp_client, handle_leave_room] at h
    repeat' split at h
    all_goals first
      | (simp at h; done)
      | (simp only [Option.some.injEq, Prod.mk.injEq] at h
         obtain ⟨rfl, rfl⟩ := h
         first
           | exact hs
           | exact in_guessing_set _ _ _ _ _ _ hs (by assumption)
               (by intro hg; exact (leave_room_state _ _).trans hg))
  | other type =>
    simp only [handle_tcp_client, Option.some.injEq, Prod.mk.injEq] at h
    obtain ⟨rfl, rfl⟩ := h
    exact hs

/-- A datagram keeps a room in GUESSING in that state. -/
theorem in_guessing_udp_server (s s1 : Server) (client_addr r : Nat)
    (paint_msg : PaintDataMessage) (out : List Out)
    (h : handle_udp_server s client_addr paint_msg = some (s1, out)) (hs : in_guessing s r) :
    in_guessing s1 r := by
  simp only [handle_udp_server] at h
  repeat' split at h
  all_goals first
    | (simp at h; done)
    | (simp only [Option.some.injEq, Prod.mk.injEq] at h
       obtain ⟨rfl, rfl⟩ := h
       first
         | exact hs
         | exact in_guessing_set_at _ _ _ _ _ _ hs (by assumption) (by intro hg; exact hg))

/-- The store of an AI reply keeps a room in GUESSING in that state. -/
theorem in_guessing_ai_store (s s1 : Server) (room_id r : Nat) (predicted : List Nat)
    (score is_correct : Int) (out : List Out)
    (h : ai_store s room_id predicted score is_correct = some (s1, out))
    (hs : in_guessing s r) : in_guessing s1 r := by
  simp only [ai_store] at h
  repeat' split at h
  all_goals first
    | (simp at h; done)
    | (simp only [Option.some.injEq, Prod.mk.injEq] at h
       obtain ⟨rfl, rfl⟩ := h
       exact in_guessing_set _ _ _ _ _ _ hs (by assumption) (by intro hg; exact hg))
/-! ## `end_game` on a room in GUESSING -/

/-- When `end_game` returns on a room in GUESSING, it has written that room as
`after_end_game` says, run the reset loop on the client table, and sent the GAME_END
broadcast followed by the AI broadcast. -/
theorem end_game_some (s s1 : Server) (r : Nat) (room : Room) (out : List Out)
    (hroom : s.rooms[r]? = some room) (hid : r < MAX_ROOMS)
    (hst : room.game.state = GameState.GAME_GUESSING)
    (h : end_game s r = some (s1, out)) :
    s1.rooms = s.rooms.set r (after_end_game room)
      ∧ reset_globals room.clients s.clients = some s1.clients
      ∧ out = game_end_broadcast room ++ ai_broadcast room := by
  simp only [end_game, hroom, hst, ne_eq, not_true_eq_false, if_false] at h
  cases hcl : reset_globals room.clients s.clients with
  | none => simp [hcl] at h
  | some cl =>
    simp only [hcl, Option.some.injEq, Prod.mk.injEq] at h
    obtain ⟨rfl, rfl⟩ := h
    refine ⟨rfl, rfl, ?_⟩
    simp only [game_end_broadcast, ai_broadcast]
    rw [broadcast_message_all s _ r room hroom hid]
    split
    · rw [broadcast_message_all s _ r room hroom hid]
    · rfl

/-- The function `end_game` returns on a room in GUESSING whose occupied slots carry valid
client ids. -/
theorem end_game_guessing (s : Server) (r : Nat) (room : Room)
    (hroom : s.rooms[r]? = some room) (hid : r < MAX_ROOMS)
    (hst : room.game.state = GameState.GAME_GUESSING)
    (hvalid : ∀ c ∈ room.clients, seated c = true → c.id < s.clients.length) :
    ∃ cl, reset_globals room.clients s.clients = some cl ∧ cl.length = s.clients.length ∧
      end_game s r
        = some ({ rooms := s.rooms.set r (after_end_game room), clients := cl },
            game_end_broadcast room ++ ai_broadcast room) := by
  obtain ⟨cl, hcl, hlen⟩ := reset_globals_some room.clients s.clients hvalid
  refine ⟨cl, hcl, hlen, ?_⟩
  have h : end_game s r
      = some ({ rooms := s.rooms.set r (after_end_game room), clients := cl },
          broadcast_message s (game_end_msg room) (-1) (r : Int)
            ++ (if room.ai_result_ready then
                  broadcast_message s (ai_result_msg room) (-1) (r : Int)
                else [])) := by
    simp only [end_game, hroom, hst, ne_eq, not_true_eq_false, if_false, hcl]
    rfl
  obtain ⟨_, _, hout⟩ := end_game_some s _ r room _ hroom hid hst h
  rw [h, hout]

/-- The slots after a guess is stored keep their descriptors and ids. -/
theorem record_guess_valid (slots : List ClientInfo) (client_id n : Nat) (guess : List Nat)
    (h : ∀ c ∈ slots, seated c = true → c.id < n) :
    ∀ c ∈ record_guess slots client_id guess, seated c = true → c.id < n := by
  unfold record_guess
  split
  · exact h
  · rename_i i c0 hf
    intro c hc hseat
    rcases List.mem_or_eq_of_mem_set hc with hc | rfl
    · exact h c hc hseat
    · exact h c0 (List.mem_iff_getElem?.2 ⟨i, find_first_get _ _ _ _ hf⟩) hseat

/-- The test `all_guessed` holds exactly when every seated member that is not flagged as
painter has `has_guessed` set. -/
theorem all_guessed_iff (slots : List ClientInfo) :
    all_guessed slots = true
      ↔ ∀ c ∈ slots, seated c = true → c.is_painter = false → c.has_guessed = true := by
  simp only [all_guessed, List.all_eq_true]
  constructor
  · intro h c hc hs hp
    have := h c hc
    simp [hs, hp] at this
    exact this
  · intro h c hc
    by_cases hs : seated c = true
    · by_cases hp : c.is_painter = false
      · simp [hs, hp, h c hc hs hp]
      · simp [hs, hp]
    · simp [hs]

/-- The body of the room loop on a room in GUESSING. -/
theorem game_timer_room_guessing (env : Env) (s : Server) (i : Nat) (room : Room)
    (hroom : s.rooms[i]? = some room)
    (hst : room.game.state = GameState.GAME_GUESSING) :
    game_timer_room env s i
      = if env.now - room.game.guess_start_time ≥ 30 then end_game s i else some (s, []) := by
  simp [game_timer_room, hroom, hst]
/-- No frame built by an event other than a GUESS message and a timer tick is a
GAME_END. -/
theorem emitted_by_not_game_end (ev : Event) (f : Frame)
    (hg : ∀ client_id guess, ev ≠ Event.recv client_id (Msg.guess_submit guess))
    (ht : ev ≠ Event.tick) (h : emitted_by ev f) : f.base.type ≠ MSG_GAME_END := by
  cases ev with
  | tick => exact absurd rfl ht
  | accept socket_fd => exact absurd h id
  | closed client_id => exact absurd h id
  | datagram client_addr paint_msg => exact absurd h id
  | ai_reply room_id predicted score is_correct => exact absurd h id
  | recv client_id msg =>
    cases msg with
    | guess_submit guess => exact absurd rfl (hg client_id guess)
    | client_join nickname => exact absurd h id
    | client_leave => exact absurd h id
    | other type => exact absurd h id
    | client_ready =>
      obtain ⟨game, c, rfl⟩ := h
      simp [game_start_msg, MSG_GAME_START, MSG_GAME_END]
    | painter_finish =>
      simp only [emitted_by] at h
      subst h
      simp [painter_finish_frame, base_only, MSG_PAINTER_FINISH, MSG_GAME_END]
    | history_req =>
      rcases h with ⟨a, b, c, d, rfl⟩ | rfl
      · simp [history_data_frame, MSG_HISTORY_DATA, MSG_GAME_END]
      · simp [base_only, MSG_HISTORY_END, MSG_GAME_END]
    | room_list_req =>
      obtain ⟨n, l, rfl⟩ := h
      simp [room_list_frame, MSG_ROOM_LIST, MSG_GAME_END]
    | create_room room_name nickname =>
      rcases h with ⟨a, b, c, d, rfl⟩ | rfl
      · simp [room_created_frame, MSG_ROOM_CREATED, MSG_GAME_END]
      · simp [base_only, MSG_ERROR, MSG_GAME_END]
    | join_room room_id nickname =>
      rcases h with ⟨a, b, c, d, rfl⟩ | rfl
      · simp [room_joined_frame, MSG_ROOM_JOINED, MSG_GAME_END]
      · simp [base_only, MSG_ERROR, MSG_GAME_END]
    | leave_room room_id =>
      obtain ⟨a, rfl⟩ := h
      simp [room_left_frame, MSG_ROOM_LEFT, MSG_GAME_END]

/-! ## C22: when a round ends -/

/-- C22: for a room in GUESSING: a GUESS from a client of the room ends the round (the room
is written as `after_end_game` says, hence back in WAITING, and GAME_END goes to every
seated member, followed by the parked AI result) exactly when, once the guess is stored,
every seated member not flagged as painter has `has_guessed` set, and otherwise only stores
the guess; a GUESS from a client of another room leaves the room as it is; a timer tick
ends the round in the same way exactly when `now - guess_start_time >= 30`, and before
that leaves the room as it is; and every other event sends no GAME_END and leaves the room
in GUESSING, except that a disconnect which empties the room resets its game to WAITING.
The part on a GUESS from a client of the room is stated for a guess that fits `guess[64]`
(fewer than 64 bytes before its NUL), the only ones `strcpy` of lines 734 and 740 copies
within the buffer. -/
theorem round_end_iff (s : Server) (r : Nat) (room : Room)
    (hroom : s.rooms[r]? = some room) (hid : r < MAX_ROOMS)
    (hst : room.game.state = GameState.GAME_GUESSING) :
    (∀ (client_id : Nat) (g : ClientInfo) (guess : List Nat),
        s.clients[client_id]? = some g → g.room_id = (r : Int) →
        (∀ c ∈ room.clients, seated c = true → c.id < s.clients.length) →
        (cstr guess).length < 64 →
        (all_guessed (recorded room client_id (cstr guess)).clients = true
            ↔ ∀ c ∈ (recorded room client_id (cstr guess)).clients,
                seated c = true → c.is_painter = false → c.has_guessed = true)
        ∧ (all_guessed (recorded room client_id (cstr guess)).clients = true →
            ∃ s1,
              handle_guess_submit s client_id guess
                = some (s1, game_end_broadcast (recorded room client_id (cstr guess))
                    ++ ai_broadcast (recorded room client_id (cstr guess)))
              ∧ s1.rooms[r]? = some (after_end_game (recorded room client_id (cstr guess))))
        ∧ (all_guessed (recorded room client_id (cstr guess)).clients = false →
            handle_guess_submit s client_id guess
              = some ({ rooms := s.rooms.set r (recorded room client_id (cstr guess))
                        clients := s.clients.set client_id
                          { g with guess := cstr guess, has_guessed := true } }, [])))
    ∧ (∀ (client_id : Nat) (g : ClientInfo) (guess : List Nat) (s1 : Server) (out : List Out),
        s.clients[client_id]? = some g → g.room_id ≠ (r : Int) →
        handle_guess_submit s client_id guess = some (s1, out) → s1.rooms[r]? = some room)
    ∧ (∀ env : Env,
        (30 ≤ env.now - room.game.guess_start_time →
          ((∀ c ∈ room.clients, seated c = true → c.id < s.clients.length) →
            ∃ s1,
              game_timer_room env s r
                = some (s1, game_end_broadcast room ++ ai_broadcast room)
              ∧ s1.rooms[r]? = some (after_end_game room))
          ∧ ∀ s2 out, game_timer env s = some (s2, out) →
              s2.rooms[r]? = some (after_end_game room)
                ∧ ∃ a c, out = a ++ (game_end_broadcast room ++ ai_broadcast room) ++ c)
        ∧ (env.now - room.game.guess_start_time < 30 →
            game_timer_room env s r = some (s, [])
            ∧ ∀ s2 out, game_timer env s = some (s2, out) → s2.rooms[r]? = some room))
    ∧ (∀ (env : Env) (ev : Event) (s1 : Server) (out : List Out),
        (∀ client_id guess, ev ≠ Event.recv client_id (Msg.guess_submit guess)) →
        ev ≠ Event.tick → handle env s ev = some (s1, out) →
        (∀ fd f, Out.send fd f ∈ out → f.base.type ≠ MSG_GAME_END)
        ∧ (in_guessing s1 r
            ∨ ((∃ client_id,
                  ev = Event.closed client_id ∨ ev = Event.recv client_id Msg.client_leave)
                ∧ ∃ room1, s1.rooms[r]? = some room1 ∧ room1.client_count = 0
                    ∧ room1.game.state = GameState.GAME_WAITING))) := by
  have hrlt : r < s.rooms.length := (List.getElem?_eq_some_iff.1 hroom).1
  have hne : (r : Int) ≠ -1 := by omega
  have hat : room_at s (r : Int) = some room := by simp [room_at, hroom]
  refine ⟨?_, ?_, ?_, ?_⟩
  · intro client_id g guess hg hrid hvalid hfit
    have hstep : handle_guess_submit s client_id guess
        = if all_guessed (recorded room client_id (cstr guess)).clients = true then
            end_game { rooms := s.rooms.set r (recorded room client_id (cstr guess))
                       clients := s.clients.set client_id
                         { g with guess := cstr guess, has_guessed := true } } r
          else
            some ({ rooms := s.rooms.set r (recorded room client_id (cstr guess))
                    clients := s.clients.set client_id
                      { g with guess := cstr guess, has_guessed := true } }, []) := by
      simp only [handle_guess_submit, hg]
      rw [hrid]
      simp only [hne, hat, Int.toNat_ofNat, ne_eq, not_false_eq_true, if_true, strcpy, hfit]
      rfl
    refine ⟨all_guessed_iff _, ?_, ?_⟩
    · intro hall
      rw [hstep, if_pos hall]
      obtain ⟨cl, _, _, hend⟩ := end_game_guessing
        { rooms := s.rooms.set r (recorded room client_id (cstr guess))
          clients := s.clients.set client_id
            { g with guess := cstr guess, has_guessed := true } } r
        (recorded room client_id (cstr guess)) (by simp [hrlt]) hid hst
        (by
          simp only [List.length_set]
          exact record_guess_valid room.clients client_id _ (cstr guess) hvalid)
      refine ⟨_, hend, ?_⟩
      simp [hrlt]
    · intro hall
      rw [hstep, if_neg (by simp [hall])]
  · intro client_id g guess s1 out hg hrid h
    simp only [handle_guess_submit, hg] at h
    by_cases hno : g.room_id = -1
    · simp only [hno, ne_eq, not_true_eq_false, if_false, Option.some.injEq,
        Prod.mk.injEq] at h
      rw [← h.1]
      exact hroom
    · simp only [ne_eq, hno, not_false_eq_true, if_true] at h
      cases hk : room_at s g.room_id with
      | none => simp [hk] at h
      | some roomk =>
        simp only [hk] at h
        have hnn : ¬ g.room_id < 0 := by
          intro hlt
          simp [room_at, hlt] at hk
        have hkr : g.room_id.toNat ≠ r := by
          intro heq
          apply hrid
          rw [← heq]
          exact (Int.toNat_of_nonneg (by omega)).symm
        cases hcp : strcpy 64 guess with
        | none => simp [hcp] at h
        | some stored =>
          simp only [hcp] at h
          split at h
          · rw [end_game_rooms_other _ _ _ r _ h (Ne.symm hkr)]
            simp [List.getElem?_set_ne hkr, hroom]
          · simp only [Option.some.injEq, Prod.mk.injEq] at h
            rw [← h.1]
            simp [List.getElem?_set_ne hkr, hroom]
  · intro env
    refine ⟨?_, ?_⟩
    · intro hdl
      refine ⟨?_, ?_⟩
      · intro hvalid
        rw [game_timer_room_guessing env s r room hroom hst, if_pos hdl]
        obtain ⟨cl, _, _, hend⟩ := end_game_guessing s r room hroom hid hst hvalid
        refine ⟨_, hend, ?_⟩
        simp [hrlt]
      · intro s2 out h
        obtain ⟨sa, sb, a, b, c, ha, hb, hc, hout⟩ :=
          game_timer_from_at env MAX_ROOMS 0 s s2 out h r (by omega) (by omega)
        have hra : sa.rooms[r]? = some room := by rw [ha, hroom]
        have hlt : r < sa.rooms.length := (List.getElem?_eq_some_iff.1 hra).1
        rw [game_timer_room_guessing env sa r room hra hst, if_pos hdl] at hb
        obtain ⟨hrooms, _, hb2⟩ := end_game_some sa sb r room b hra hid hst hb
        refine ⟨?_, a, c, ?_⟩
        · rw [hc, hrooms]
          simp [hlt]
        · rw [hout, hb2]
    · intro hdl
      have hnot : ¬ env.now - room.game.guess_start_time ≥ 30 := by omega
      refine ⟨?_, ?_⟩
      · rw [game_timer_room_guessing env s r room hroom hst, if_neg hnot]
      · intro s2 out h
        obtain ⟨sa, sb, a, b, c, ha, hb, hc, _⟩ :=
          game_timer_from_at env MAX_ROOMS 0 s s2 out h r (by omega) (by omega)
        have hra : sa.rooms[r]? = some room := by rw [ha, hroom]
        rw [game_timer_room_guessing env sa r room hra hst, if_neg hnot] at hb
        simp only [Option.some.injEq, Prod.mk.injEq] at hb
        obtain ⟨rfl, rfl⟩ := hb
        rw [hc, hra]
  · intro env ev s1 out hg ht h
    have hs : in_guessing s r := ⟨room, hroom, hst⟩
    refine ⟨fun fd f hf =>
      emitted_by_not_game_end ev f hg ht (handle_sends env s s1 ev out h fd f hf), ?_⟩
    cases ev with
    | tick => exact absurd rfl ht
    | accept socket_fd =>
      left
      simp only [handle, add_client] at h
      split at h
      all_goals
        simp only [Option.some.injEq, Prod.mk.injEq] at h
        obtain ⟨rfl, rfl⟩ := h
        exact hs
    | closed client_id =>
      rcases in_guessing_remove_client s s1 client_id r out h hs with h1 | h1
      · exact Or.inl h1
      · exact Or.inr ⟨⟨client_id, Or.inl rfl⟩, h1⟩
    | datagram client_addr paint_msg =>
      exact Or.inl (in_guessing_udp_server s s1 client_addr r paint_msg out h hs)
    | ai_reply room_id predicted score is_correct =>
      exact Or.inl (in_guessing_ai_store s s1 room_id r predicted score is_correct out h hs)
    | recv client_id msg =>
      by_cases hl : msg = Msg.client_leave
      · subst hl
        rcases in_guessing_remove_client s s1 client_id r out h hs with h1 | h1
        · exact Or.inl h1
        · exact Or.inr ⟨⟨client_id, Or.inr rfl⟩, h1⟩
      · exact Or.inl (in_guessing_tcp_client env s s1 client_id r msg out h hs
          (fun guess hm => hg client_id guess (by rw [hm])) hl)

/-- C22 (witness): the statement at the states reached by `two_right_run` (the guess of
client 3 is the last one missing and ends the round) and by `guessing_run` (the guess of
client 1 is only stored; the tick at time 140 ends the round, the tick at time 139 does
nothing); the guess is the five-byte string "apple". -/
theorem round_end_iff_witness :
    (∃ s1,
        handle_guess_submit (server_after two_right_run) 3 apple
          = some (s1, game_end_broadcast (recorded two_right_room 3 (cstr apple))
              ++ ai_broadcast (recorded two_right_room 3 (cstr apple)))
        ∧ s1.rooms[0]? = some (after_end_game (recorded two_right_room 3 (cstr apple))))
    ∧ handle_guess_submit (server_after guessing_run) 1 apple
        = some ({ rooms := (server_after guessing_run).rooms.set 0
                    (recorded guessing_room 1 (cstr apple))
                  clients := (server_after guessing_run).clients.set 1
                    { (server_after guessing_run).clients.getD 1 free_client with
                      guess := cstr apple, has_guessed := true } }, [])
    ∧ (∃ s1,
        game_timer_room (env_at 140 0) (server_after guessing_run) 0
          = some (s1, game_end_broadcast guessing_room ++ ai_broadcast guessing_room)
        ∧ s1.rooms[0]? = some (after_end_game guessing_room))
    ∧ game_timer_room (env_at 139 0) (server_after guessing_run) 0
        = some (server_after guessing_run, []) :=
  ⟨((round_end_iff (server_after two_right_run) 0 two_right_room (by decide) (by decide)
        (by decide)).1 3 ((server_after two_right_run).clients.getD 3 free_client) apple
        (by decide) (by decide) (by decide) (by decide)).2.1 (by decide),
    ((round_end_iff (server_after guessing_run) 0 guessing_room (by decide) (by decide)
        (by decide)).1 1 ((server_after guessing_run).clients.getD 1 free_client) apple
        (by decide) (by decide) (by decide) (by decide)).2.2 (by decide),
    ((round_end_iff (server_after guessing_run) 0 guessing_room (by decide) (by decide)
        (by decide)).2.2.1 (env_at 140 0)).1 (by decide) |>.1 (by decide),
    (((round_end_iff (server_after guessing_run) 0 guessing_room (by decide) (by decide)
        (by decide)).2.2.1 (env_at 139 0)).2 (by decide)).1⟩

/-! ## C23: what `end_game` clears and what it keeps -/

/-- The reset loop of `end_game` keeps every record of the client table the same member,
and keeps clear what was clear. -/
theorem reset_globals_keeps (cs : List ClientInfo) :
    ∀ (cl cl1 : List ClientInfo), reset_globals cs cl = some cl1 →
      ∀ (k : Nat) (g : ClientInfo), cl[k]? = some g →
        ∃ g1, cl1[k]? = some g1 ∧ same_member g g1 ∧ (cleared g → cleared g1) := by
  induction cs with
  | nil =>
    intro cl cl1 h k g hk
    simp only [reset_globals, Option.some.injEq] at h
    subst h
    exact ⟨g, hk, ⟨rfl, rfl, rfl, rfl, rfl, rfl⟩, id⟩
  | cons c cs ih =>
    intro cl cl1 h k g hk
    simp only [reset_globals] at h
    split at h
    · cases h0 : cl[c.id]? with
      | none => simp [h0] at h
      | some g0 =>
        simp only [h0] at h
        have hklt : k < cl.length := (List.getElem?_eq_some_iff.1 hk).1
        by_cases hkc : c.id = k
        · subst hkc
          have hg : g0 = g := by
            rw [h0] at hk
            exact Option.some.inj hk
          subst hg
          obtain ⟨g1, h1, hsame, hclear⟩ :=
            ih _ cl1 h c.id (reset_flags g0) (by simp [hklt])
          refine ⟨g1, h1, hsame, fun _ => hclear ⟨rfl, rfl, rfl, rfl⟩⟩
        · exact ih _ cl1 h k g (by simp [List.getElem?_set_ne hkc, hk])
    · exact ih cl cl1 h k g hk

/-- The reset loop of `end_game` leaves clear the record of every occupied slot. -/
theorem reset_globals_clears (cs : List ClientInfo) :
    ∀ (cl cl1 : List ClientInfo), reset_globals cs cl = some cl1 →
      ∀ c ∈ cs, seated c = true → ∃ g1, cl1[c.id]? = some g1 ∧ cleared g1 := by
  induction cs with
  | nil =>
    intro cl cl1 _ c hc
    simp at hc
  | cons c0 cs ih =>
    intro cl cl1 h c hc hseat
    simp only [reset_globals] at h
    split at h
    · cases h0 : cl[c0.id]? with
      | none => simp [h0] at h
      | some g0 =>
        simp only [h0] at h
        have hlt : c0.id < cl.length := (List.getElem?_eq_some_iff.1 h0).1
        rcases List.mem_cons.1 hc with rfl | hc
        · obtain ⟨g1, h1, _, hclear⟩ :=
            reset_globals_keeps cs _ cl1 h c.id (reset_flags g0) (by simp [hlt])
          exact ⟨g1, h1, hclear ⟨rfl, rfl, rfl, rfl⟩⟩
        · exact ih _ cl1 h c hc hseat
    · rename_i hns
      rcases List.mem_cons.1 hc with rfl | hc
      · exact absurd hseat hns
      · exact ih cl cl1 h c hc hseat

/-- C23: `end_game` on a room in GUESSING (whose occupied slots carry valid client ids)
returns; afterwards the room is in WAITING with `painter_id = -1`, `ready_count = 0` and an
empty `current_word`; every occupied slot has `ready`, `has_guessed`, `is_painter` and the
stored guess cleared, and so has the global record of every occupied slot; membership is
kept: every slot and every global record keeps its descriptor, id, nickname and room,
a free slot is untouched, `client_count`, `total_clients` and the room name are unchanged;
and no other room is modified. -/
theorem end_game_clears_keeps (s : Server) (r : Nat) (room : Room)
    (hroom : s.rooms[r]? = some room) (hid : r < MAX_ROOMS)
    (hst : room.game.state = GameState.GAME_GUESSING)
    (hvalid : ∀ c ∈ room.clients, seated c = true → c.id < s.clients.length) :
    ∃ s1 out room1,
      end_game s r = some (s1, out) ∧ s1.rooms[r]? = some room1
      ∧ room1.game.state = GameState.GAME_WAITING ∧ room1.game.painter_id = -1
      ∧ room1.game.ready_count = 0 ∧ room1.game.current_word = []
      ∧ room1.client_count = room.client_count
      ∧ room1.game.total_clients = room.game.total_clients
      ∧ room1.name = room.name
      ∧ room1.clients.length = room.clients.length
      ∧ (∀ (k : Nat) (c : ClientInfo), room.clients[k]? = some c →
          ∃ c1, room1.clients[k]? = some c1 ∧ same_member c c1
            ∧ (seated c = true → cleared c1) ∧ (seated c = false → c1 = c))
      ∧ (∀ c ∈ room.clients, seated c = true →
          ∃ g1, s1.clients[c.id]? = some g1 ∧ cleared g1)
      ∧ (∀ (k : Nat) (g : ClientInfo), s.clients[k]? = some g →
          ∃ g1, s1.clients[k]? = some g1 ∧ same_member g g1)
      ∧ s1.rooms.length = s.rooms.length
      ∧ ∀ j : Nat, j ≠ r → s1.rooms[j]? = s.rooms[j]? := by
  have hrlt : r < s.rooms.length := (List.getElem?_eq_some_iff.1 hroom).1
  obtain ⟨cl, hcl, _, hend⟩ := end_game_guessing s r room hroom hid hst hvalid
  refine ⟨_, _, after_end_game room, hend, by simp [hrlt], rfl, rfl, rfl, rfl, rfl, rfl, rfl,
    by simp [after_end_game], ?_, ?_, ?_, by simp, ?_⟩
  · intro k c hk
    by_cases hs : seated c = true
    · refine ⟨reset_flags c, by simp [after_end_game, hk, hs], ⟨rfl, rfl, rfl, rfl, rfl, rfl⟩,
        fun _ => ⟨rfl, rfl, rfl, rfl⟩, fun h => ?_⟩
      rw [h] at hs
      exact absurd hs (by simp)
    · refine ⟨c, by simp [after_end_game, hk, hs], ⟨rfl, rfl, rfl, rfl, rfl, rfl⟩,
        fun h => absurd h hs, fun _ => rfl⟩
  · intro c hc hseat
    exact reset_globals_clears room.clients s.clients cl hcl c hc hseat
  · intro k g hk
    obtain ⟨g1, h1, hsame, _⟩ := reset_globals_keeps room.clients s.clients cl hcl k g hk
    exact ⟨g1, h1, hsame⟩
  · intro j hj
    simp [List.getElem?_set_ne (Ne.symm hj)]

/-- C23 (witness): the statement at the state reached by `two_right_run` (room 0 in
GUESSING, clients 1 and 2 have guessed). -/
theorem end_game_clears_keeps_witness :
    ∃ s1 out room1,
      end_game (server_after two_right_run) 0 = some (s1, out) ∧ s1.rooms[0]? = some room1
      ∧ room1.game.state = GameState.GAME_WAITING ∧ room1.game.painter_id = -1
      ∧ room1.game.ready_count = 0 ∧ room1.game.current_word = []
      ∧ room1.client_count = two_right_room.client_count
      ∧ room1.game.total_clients = two_right_room.game.total_clients
      ∧ room1.name = two_right_room.name
      ∧ room1.clients.length = two_right_room.clients.length
      ∧ (∀ (k : Nat) (c : ClientInfo), two_right_room.clients[k]? = some c →
          ∃ c1, room1.clients[k]? = some c1 ∧ same_member c c1
            ∧ (seated c = true → cleared c1) ∧ (seated c = false → c1 = c))
      ∧ (∀ c ∈ two_right_room.clients, seated c = true →
          ∃ g1, s1.clients[c.id]? = some g1 ∧ cleared g1)
      ∧ (∀ (k : Nat) (g : ClientInfo), (server_after two_right_run).clients[k]? = some g →
          ∃ g1, s1.clients[k]? = some g1 ∧ same_member g g1)
      ∧ s1.rooms.length = (server_after two_right_run).rooms.length
      ∧ ∀ j : Nat, j ≠ 0 → s1.rooms[j]? = (server_after two_right_run).rooms[j]? :=
  end_game_clears_keeps (server_after two_right_run) 0 two_right_room
    (by decide) (by decide) (by decide) (by decide)

/-! ## C24: GAME_END once, and before the AI result -/

/-- C24: `end_game` on a room in GUESSING (whose occupied slots carry valid client ids)
returns, and its effects are exactly: one GAME_END frame to every occupied slot, in slot
order, followed, if and only if a result is parked (`ai_result_ready`), by one
AI_GUESS_RESULT frame to every occupied slot; afterwards `ai_result_ready` is 0 and the
room is no longer in GUESSING, so that a second call sends nothing and changes nothing;
and on a room that is not in GUESSING `end_game` changes nothing and sends nothing. -/
theorem game_end_once_before_ai (s : Server) (r : Nat) (room : Room)
    (hroom : s.rooms[r]? = some room) (hid : r < MAX_ROOMS)
    (hvalid : ∀ c ∈ room.clients, seated c = true → c.id < s.clients.length) :
    (room.game.state = GameState.GAME_GUESSING →
      ∃ s1 room1,
        end_game s r
          = some (s1,
              (room.clients.filter seated).map
                  (fun c => Out.send c.socket_fd (game_end_msg room))
                ++ (if room.ai_result_ready then
                      (room.clients.filter seated).map
                        (fun c => Out.send c.socket_fd (ai_result_msg room))
                    else []))
        ∧ (game_end_msg room).base.type = MSG_GAME_END
        ∧ (ai_result_msg room).base.type = MSG_AI_GUESS_RESULT
        ∧ s1.rooms[r]? = some room1
        ∧ room1.ai_result_ready = false
        ∧ room1.game.state ≠ GameState.GAME_GUESSING
        ∧ end_game s1 r = some (s1, []))
    ∧ (room.game.state ≠ GameState.GAME_GUESSING → end_game s r = some (s, [])) := by
  have hrlt : r < s.rooms.length := (List.getElem?_eq_some_iff.1 hroom).1
  constructor
  · intro hst
    obtain ⟨cl, _, _, hend⟩ := end_game_guessing s r room hroom hid hst hvalid
    have h1 : ({ rooms := s.rooms.set r (after_end_game room), clients := cl } : Server).rooms[r]?
        = some (after_end_game room) := by simp [hrlt]
    refine ⟨_, after_end_game room, hend, rfl, rfl, h1, rfl, by simp [after_end_game], ?_⟩
    simp only [end_game, h1]
    simp [after_end_game]
  · intro hst
    simp only [end_game, hroom]
    rw [if_pos hst]

/-- C24 (witness): the statement at the state reached by `two_right_run` (room 0 in
GUESSING with four seated members). -/
theorem game_end_once_before_ai_witness :
    ∃ s1 room1,
      end_game (server_after two_right_run) 0
        = some (s1,
            (two_right_room.clients.filter seated).map
                (fun c => Out.send c.socket_fd (game_end_msg two_right_room))
              ++ (if two_right_room.ai_result_ready then
                    (two_right_room.clients.filter seated).map
                      (fun c => Out.send c.socket_fd (ai_result_msg two_right_room))
                  else []))
      ∧ (game_end_msg two_right_room).base.type = MSG_GAME_END
      ∧ (ai_result_msg two_right_room).base.type = MSG_AI_GUESS_RESULT
      ∧ s1.rooms[0]? = some room1
      ∧ room1.ai_result_ready = false
      ∧ room1.game.state ≠ GameState.GAME_GUESSING
      ∧ end_game s1 0 = some (s1, []) :=
  (game_end_once_before_ai (server_after two_right_run) 0 two_right_room
    (by decide) (by decide) (by decide)).1 (by decide)

/-! ## C25: an AI reply that arrives after its round -/

/-- C25: a reply of the AI thread of the first round that arrives after the GAME_START of
the second round is parked and released at the end of the second round.  After
`first_round_run` one AI thread is running and room 0 is back in WAITING; in `late_ai_run`
its reply arrives during the second round, whose own AI thread is still running when
client 1 guesses: the guess ends the second round with GAME_END followed by
AI_GUESS_RESULT carrying the reply of the first round.  A reply that arrives between the
two rounds (`between_rounds_ai_run`) is cleared by `start_game` and not sent. -/
theorem late_ai_reply_released :
    pending_after first_round_run = some [0]
    ∧ (game_view (server_after first_round_run)).head?
        = some (false, 2, GameState.GAME_WAITING, 0, 2)
    ∧ pending_after late_ai_run = some [0]
    ∧ (game_view (server_after late_ai_run)).head?
        = some (false, 2, GameState.GAME_GUESSING, 2, 2)
    ∧ (handle_guess_submit (server_after late_ai_run) 1 apple).map (fun p => p.2)
        = some [Out.send 5 (game_end_frame apple 1 1), Out.send 6 (game_end_frame apple 1 1),
                Out.send 5 (ai_result_frame cat 7 0), Out.send 6 (ai_result_frame cat 7 0)]
    ∧ pending_after between_rounds_ai_run = some [0]
    ∧ (handle_guess_submit (server_after between_rounds_ai_run) 1 apple).map (fun p => p.2)
        = some [Out.send 5 (game_end_frame apple 1 1),
                Out.send 6 (game_end_frame apple 1 1)] :=
  ⟨by decide, by decide, by decide, by decide, by decide, by decide, by decide⟩

/-! ## C26: the painter disconnects during a round -/

/-- The winner loop of `end_game` changes nothing when no seated member has guessed. -/
theorem tally_none (word : List Nat) (cs : List ClientInfo) (acc : Nat × Nat)
    (h : ∀ c ∈ cs, guessed c = false) : tally word cs acc = acc := by
  induction cs generalizing acc with
  | nil => rfl
  | cons c cs ih =>
    have hc : (seated c && c.has_guessed) = false := h c (List.mem_cons_self _ _)
    simp only [tally, hc]
    exact ih acc (fun d hd => h d (List.mem_cons_of_mem _ hd))

/-- The guess deadline on a room in GUESSING in which nobody has guessed: the body of the
timer loop ends the round with GAME_END carrying `winner_id = 255` and `guess_count = 0`. -/
theorem timeout_no_winner (env : Env) (s : Server) (r : Nat) (room : Room)
    (hroom : s.rooms[r]? = some room) (hid : r < MAX_ROOMS)
    (hst : room.game.state = GameState.GAME_GUESSING)
    (hvalid : ∀ c ∈ room.clients, seated c = true → c.id < s.clients.length)
    (hnone : ∀ c ∈ room.clients, guessed c = false)
    (hdl : 30 ≤ env.now - room.game.guess_start_time) :
    ∃ s1,
      game_timer_room env s r
        = some (s1,
            (room.clients.filter seated).map
                (fun c => Out.send c.socket_fd
                  (game_end_frame (cstr room.game.current_word) 255 0))
              ++ ai_broadcast room)
      ∧ s1.rooms[r]? = some (after_end_game room) := by
  have hrlt : r < s.rooms.length := (List.getElem?_eq_some_iff.1 hroom).1
  rw [game_timer_room_guessing env s r room hroom hst, if_pos hdl]
  obtain ⟨cl, _, _, hend⟩ := end_game_guessing s r room hroom hid hst hvalid
  have hmsg : game_end_msg room = game_end_frame (cstr room.game.current_word) 255 0 := by
    simp only [game_end_msg, tally_none _ _ _ hnone]
    rfl
  refine ⟨{ rooms := s.rooms.set r (after_end_game room), clients := cl }, ?_, by simp [hrlt]⟩
  rw [hend, game_end_broadcast, hmsg]

/-- The disconnect of the painter `p` of a room in PAINTING or GUESSING on an undisturbed
round: its global record still names the room and is still ready, and the room counts at
least one other member.  Then `remove_client` closes the socket and frees the slot that
carries the painter's id; the game
state, `painter_id`, `current_word` and both time stamps are unchanged, `total_clients`,
`ready_count` and `client_count` each drop by exactly one, the room keeps its name.
Afterwards no PAINTER_FINISH of a connected client moves the room; from PAINTING the timer
leaves the room alone before the paint deadline, and at the deadline takes it to GUESSING
with the PAINTER_FINISH broadcast to the remaining members and the AI request; and in
GUESSING, when nobody has guessed, the timer at the guess deadline sends GAME_END with
`winner_id = 255` and `guess_count = 0` to the remaining members. -/
theorem painter_disconnect_keeps_round (s : Server) (p r i : Nat) (g c : ClientInfo)
    (room : Room)
    (hg : s.clients[p]? = some g) (hconn : g.socket_fd ≠ -1) (hp : p < MAX_CLIENTS)
    (hrid : g.room_id = (r : Int)) (hroom : s.rooms[r]? = some room) (hid : r < MAX_ROOMS)
    (hpainter : room.game.painter_id = (p : Int))
    (hst : room.game.state = GameState.GAME_PAINTING
      ∨ room.game.state = GameState.GAME_GUESSING)
    (hready : g.ready = true)
    (hslot : find_first (fun m => m.id == p) room.clients = some (i, c))
    (hothers : 2 ≤ room.client_count)
    (hvalid : ∀ m ∈ room.clients, seated m = true → m.id < s.clients.length) :
    ∃ s1 room1,
      remove_client s p = some (s1, [Out.close g.socket_fd])
      ∧ connected s1 p = false
      ∧ s1.rooms[r]? = some room1
      ∧ room1.game.state = room.game.state
      ∧ (room1.game.state = GameState.GAME_PAINTING
          ∨ room1.game.state = GameState.GAME_GUESSING)
      ∧ room1.game.painter_id = room.game.painter_id
      ∧ room1.game.current_word = room.game.current_word
      ∧ room1.game.paint_start_time = room.game.paint_start_time
      ∧ room1.game.guess_start_time = room.game.guess_start_time
      ∧ room1.game.total_clients = room.game.total_clients - 1
      ∧ room1.game.ready_count = room.game.ready_count - 1
      ∧ room1.client_count = room.client_count - 1
      ∧ room1.name = room.name
      ∧ room1.clients = room.clients.set i { c with socket_fd := -1 }
      ∧ (∀ (env : Env) (q : Nat) (s2 : Server) (out : List Out), connected s1 q = true →
          handle_painter_finish env s1 q = some (s2, out) → s2.rooms[r]? = some room1)
      ∧ (room.game.state = GameState.GAME_PAINTING → ∀ env : Env,
          (env.now - room.game.paint_start_time < 60 →
            game_timer_room env s1 r = some (s1, []))
          ∧ (60 ≤ env.now - room.game.paint_start_time →
            game_timer_room env s1 r
              = some ({ s1 with rooms := s1.rooms.set r (to_guessing env.now room1) },
                  Out.spawn_ai r :: finish_broadcast room1)
            ∧ ∀ env2 : Env, 30 ≤ env2.now - env.now →
                (∀ m ∈ room1.clients, guessed m = false) →
                ∃ s3,
                  game_timer_room env2
                      { s1 with rooms := s1.rooms.set r (to_guessing env.now room1) } r
                    = some (s3,
                        (room1.clients.filter seated).map
                            (fun m => Out.send m.socket_fd
                              (game_end_frame (cstr room.game.current_word) 255 0))
                          ++ ai_broadcast room1)))
      ∧ (room.game.state = GameState.GAME_GUESSING → ∀ env : Env,
          30 ≤ env.now - room.game.guess_start_time →
          (∀ m ∈ room1.clients, guessed m = false) →
          ∃ s3,
            game_timer_room env s1 r
              = some (s3,
                  (room1.clients.filter seated).map
                      (fun m => Out.send m.socket_fd
                        (game_end_frame (cstr room.game.current_word) 255 0))
                    ++ ai_broadcast room1)) := by
  have hrlt : r < s.rooms.length := (List.getElem?_eq_some_iff.1 hroom).1
  have hplt : p < s.clients.length := (List.getElem?_eq_some_iff.1 hg).1
  have hne : (r : Int) ≠ -1 := by omega
  have hat : room_at s (r : Int) = some room := by simp [room_at, hroom]
  have hcc : ¬ room.client_count - 1 = 0 := by omega
  obtain ⟨s1, hs1⟩ : ∃ s1 : Server, s1 =
      { rooms := s.rooms.set r (member_removed room i c)
        clients := s.clients.set p { g with socket_fd := -1, room_id := -1 } } := ⟨_, rfl⟩
  have hrem : remove_client s p = some (s1, [Out.close g.socket_fd]) := by
    rw [hs1]
    simp only [remove_client, hp, hg, if_true]
    rw [hrid]
    simp only [hconn, hne, hat, ne_eq, not_false_eq_true, if_true, Int.toNat_ofNat,
      remove_from_room, hready, hslot, hcc, if_false]
    rfl
  have hr1 : s1.rooms[r]? = some (member_removed room i c) := by
    rw [hs1]
    simp [hrlt]
  have hr1lt : r < s1.rooms.length := (List.getElem?_eq_some_iff.1 hr1).1
  have hvalid1 : ∀ m ∈ (member_removed room i c).clients,
      seated m = true → m.id < s1.clients.length := by
    intro m hm hseat
    rw [hs1]
    simp only [List.length_set]
    rcases List.mem_or_eq_of_mem_set hm with hm | rfl
    · exact hvalid m hm hseat
    · simp [seated] at hseat
  refine ⟨s1, member_removed room i c, hrem, ?_, hr1, rfl, hst, rfl, rfl, rfl, rfl, rfl, rfl,
    rfl, rfl, rfl, ?_, ?_, ?_⟩
  · rw [hs1]
    simp [connected, hplt]
  · intro env q s2 out hq h
    have hqp : q ≠ p := by
      intro hqp
      subst hqp
      rw [hs1] at hq
      simp [connected, hplt] at hq
    simp only [handle_painter_finish] at h
    repeat' split at h
    all_goals first
      | (simp at h; done)
      | (simp only [Option.some.injEq, Prod.mk.injEq] at h
         obtain ⟨rfl, rfl⟩ := h
         first
           | exact hr1
           | (rename_i gq _ _ _ roomq hatq hcond
              have hk := room_at_get _ _ _ hatq
              by_cases hkr : gq.room_id.toNat = r
              · rw [hkr, hr1] at hk
                have hk2 : member_removed room i c = roomq := Option.some.inj hk
                rw [← hk2] at hcond
                have hpq : (q : Int) = (p : Int) := hcond.1.trans hpainter
                exact absurd (by exact_mod_cast hpq) hqp
              · rw [List.getElem?_set_ne hkr]
                exact hr1))
  · intro hpaint env
    refine ⟨?_, ?_⟩
    · intro hdl
      rw [game_timer_room_painting env s1 r _ hr1 hid hpaint, if_neg (by simpa using hdl)]
    · intro hdl
      refine ⟨?_, ?_⟩
      · rw [game_timer_room_painting env s1 r _ hr1 hid hpaint, if_pos (by simpa using hdl)]
      · intro env2 hdl2 hnone
        obtain ⟨s3, h3, _⟩ := timeout_no_winner env2
          { s1 with rooms := s1.rooms.set r (to_guessing env.now (member_removed room i c)) }
          r (to_guessing env.now (member_removed room i c))
          (by simp [hr1lt]) hid rfl hvalid1 hnone hdl2
        exact ⟨s3, h3⟩
  · intro hguess env hdl hnone
    obtain ⟨s3, h3, _⟩ := timeout_no_winner env s1 r (member_removed room i c)
      hr1 hid hguess hvalid1 hnone hdl
    exact ⟨s3, h3⟩

/-- The statement of `painter_disconnect_keeps_round` at the state reached by `painting_run`,
for client 0, the painter of room 0, which has three other members. -/
theorem painter_disconnect_keeps_round_witness :
    ∃ s1 room1,
      remove_client (server_after painting_run) 0
        = some (s1, [Out.close painter_record.socket_fd])
      ∧ connected s1 0 = false
      ∧ s1.rooms[0]? = some room1
      ∧ room1.game.state = painting_room.game.state
      ∧ (room1.game.state = GameState.GAME_PAINTING
          ∨ room1.game.state = GameState.GAME_GUESSING)
      ∧ room1.game.painter_id = painting_room.game.painter_id
      ∧ room1.game.current_word = painting_room.game.current_word
      ∧ room1.game.paint_start_time = painting_room.game.paint_start_time
      ∧ room1.game.guess_start_time = painting_room.game.guess_start_time
      ∧ room1.game.total_clients = painting_room.game.total_clients - 1
      ∧ room1.game.ready_count = painting_room.game.ready_count - 1
      ∧ room1.client_count = painting_room.client_count - 1
      ∧ room1.name = painting_room.name
      ∧ room1.clients = painting_room.clients.set 0 { painter_slot with socket_fd := -1 }
      ∧ (∀ (env : Env) (q : Nat) (s2 : Server) (out : List Out), connected s1 q = true →
          handle_painter_finish env s1 q = some (s2, out) → s2.rooms[0]? = some room1)
      ∧ (painting_room.game.state = GameState.GAME_PAINTING → ∀ env : Env,
          (env.now - painting_room.game.paint_start_time < 60 →
            game_timer_room env s1 0 = some (s1, []))
          ∧ (60 ≤ env.now - painting_room.game.paint_start_time →
            game_timer_room env s1 0
              = some ({ s1 with rooms := s1.rooms.set 0 (to_guessing env.now room1) },
                  Out.spawn_ai 0 :: finish_broadcast room1)
            ∧ ∀ env2 : Env, 30 ≤ env2.now - env.now →
                (∀ m ∈ room1.clients, guessed m = false) →
                ∃ s3,
                  game_timer_room env2
                      { s1 with rooms := s1.rooms.set 0 (to_guessing env.now room1) } 0
                    = some (s3,
                        (room1.clients.filter seated).map
                            (fun m => Out.send m.socket_fd
                              (game_end_frame (cstr painting_room.game.current_word) 255 0))
                          ++ ai_broadcast room1)))
      ∧ (painting_room.game.state = GameState.GAME_GUESSING → ∀ env : Env,
          30 ≤ env.now - painting_room.game.guess_start_time →
          (∀ m ∈ room1.clients, guessed m = false) →
          ∃ s3,
            game_timer_room env s1 0
              = some (s3,
                  (room1.clients.filter seated).map
                      (fun m => Out.send m.socket_fd
                        (game_end_frame (cstr painting_room.game.current_word) 255 0))
                    ++ ai_broadcast room1)) :=
  painter_disconnect_keeps_round (server_after painting_run) 0 0 0 painter_record
    painter_slot painting_room (by decide) (by decide) (by decide) (by decide) (by decide)
    (by decide) (by decide) (by decide) (by decide) (by decide) (by decide) (by decide)

/-- The scenario on the whole timer: after `painter_gone_run` room 0 is still in PAINTING
with three members; the tick at time 160 sends PAINTER_FINISH to the three remaining
members and starts the AI thread; the tick at time 190 sends them GAME_END with
`winner_id = 255` and `guess_count = 0`. -/
theorem painter_gone_timeline :
    (game_view (server_after painter_gone_run)).head?
      = some (false, 3, GameState.GAME_PAINTING, 3, 3)
    ∧ (game_timer (env_at 160 0) (server_after painter_gone_run)).map (fun q => q.2)
      = some [Out.spawn_ai 0, Out.send 6 painter_finish_frame, Out.send 7 painter_finish_frame,
              Out.send 8 painter_finish_frame]
    ∧ ((game_timer (env_at 160 0) (server_after painter_gone_run)).bind
        (fun q => game_timer (env_at 190 0) q.1)).map (fun q => q.2)
      = some [Out.send 6 (game_end_frame apple 255 0), Out.send 7 (game_end_frame apple 255 0),
              Out.send 8 (game_end_frame apple 255 0)] :=
  ⟨by decide, by decide, by decide⟩

/-- C26 (the code at the failing inputs).  After `painting_run` room 0 is in PAINTING with
four members, all ready, and client 0 paints.  (1) After `painter_stale_leave_run` the
painter is disconnected, yet room 0 still counts four members and four ready ones and the
painter's slot is still occupied, so that the paint deadline sends a PAINTER_FINISH to the
closed descriptor 5.  (2) After `painter_rejoin_run` the painter sits in room 0 again with
`ready = 0`, and its disconnect takes `total_clients` from 4 to 3 but leaves `ready_count`
at 3.  (3) After `painter_id_reused_run` the painter has gone, `painter_id` is still 0, and
a newcomer that was given the client id 0 is seated in room 0; its PAINTER_FINISH at time
113 is honoured: the room goes to GUESSING with `guess_start_time = 113`, 47 seconds before
the paint deadline, with the PAINTER_FINISH broadcast and the AI request. -/
theorem painter_disconnect_diverges :
    (game_view (server_after painting_run)).head?
      = some (false, 4, GameState.GAME_PAINTING, 4, 4)
    ∧ connected (server_after painter_stale_leave_run) 0 = false
    ∧ (game_view (server_after painter_stale_leave_run)).head?
      = some (false, 4, GameState.GAME_PAINTING, 4, 4)
    ∧ (seat_view (server_after painter_stale_leave_run)).head?
      = some (4, 4, [(0, 0), (1, 1), (2, 2), (3, 3)])
    ∧ (game_timer (env_at 160 0) (server_after painter_stale_leave_run)).map (fun q => q.2)
      = some [Out.spawn_ai 0, Out.send 5 painter_finish_frame, Out.send 6 painter_finish_frame,
              Out.send 7 painter_finish_frame, Out.send 8 painter_finish_frame]
    ∧ (ready_view (server_after painter_rejoin_run)).head?
      = some (GameState.GAME_PAINTING, 3, 4, [(0, false), (1, true), (2, true), (3, true)])
    ∧ ((remove_client (server_after painter_rejoin_run) 0).bind
        (fun q => (ready_view q.1).head?))
      = some (GameState.GAME_PAINTING, 3, 3, [(1, true), (2, true), (3, true)])
    ∧ (game_view (server_after painter_gone_run)).head?
      = some (false, 3, GameState.GAME_PAINTING, 3, 3)
    ∧ connected (server_after painter_gone_run) 0 = false
    ∧ (word_view (server_after painter_id_reused_run)).head? = some (0, apple)
    ∧ (seat_view (server_after painter_id_reused_run)).head?
      = some (4, 4, [(0, 0), (1, 1), (2, 2), (3, 3)])
    ∧ (handle_painter_finish (env_at 113 0) (server_after painter_id_reused_run) 0).map
        (fun q => q.2)
      = some [Out.send 9 painter_finish_frame, Out.send 6 painter_finish_frame,
              Out.send 7 painter_finish_frame, Out.send 8 painter_finish_frame,
              Out.spawn_ai 0]
    ∧ ((handle_painter_finish (env_at 113 0) (server_after painter_id_reused_run) 0).bind
        (fun q => q.1.rooms.head?.map (fun r => (r.game.state, r.game.guess_start_time))))
      = some (GameState.GAME_GUESSING, 113) :=
  ⟨by decide, by decide, by decide, by decide, by decide, by decide, by decide, by decide,
    by decide, by decide, by decide, by decide, by decide⟩

/-! ## C27: the length fields of the frames -/

/-- Every frame built by a handler is of an outbound type, carries the `data_len` the
struct layout gives for its type, and is the image of a struct of `4 + data_len` bytes. -/
theorem emitted_by_wire (ev : Event) (f : Frame) (h : emitted_by ev f) :
    f.base.type ∈ outbound_types
      ∧ f.base.data_len = abi_data_len f.base.type
      ∧ sizeof_frame f = sizeof_BaseMessage + f.base.data_len := by
  have hGS : MSG_GAME_START ∈ outbound_types := by decide
  have hGE : MSG_GAME_END ∈ outbound_types := by decide
  have hER : MSG_ERROR ∈ outbound_types := by decide
  have hPF : MSG_PAINTER_FINISH ∈ outbound_types := by decide
  have hHD : MSG_HISTORY_DATA ∈ outbound_types := by decide
  have hHE : MSG_HISTORY_END ∈ outbound_types := by decide
  have hRL : MSG_ROOM_LIST ∈ outbound_types := by decide
  have hRC : MSG_ROOM_CREATED ∈ outbound_types := by decide
  have hRJ : MSG_ROOM_JOINED ∈ outbound_types := by decide
  have hLF : MSG_ROOM_LEFT ∈ outbound_types := by decide
  have hAI : MSG_AI_GUESS_RESULT ∈ outbound_types := by decide
  cases ev with
  | accept socket_fd => exact absurd h id
  | closed client_id => exact absurd h id
  | datagram client_addr paint_msg => exact absurd h id
  | ai_reply room_id predicted score is_correct => exact absurd h id
  | tick =>
    rcases h with rfl | ⟨room, rfl | rfl⟩
    · exact ⟨hPF, rfl, rfl⟩
    · exact ⟨hGE, rfl, rfl⟩
    · exact ⟨hAI, rfl, rfl⟩
  | recv client_id msg =>
    cases msg with
    | client_join nickname => exact absurd h id
    | client_leave => exact absurd h id
    | other type => exact absurd h id
    | client_ready =>
      obtain ⟨game, c, rfl⟩ := h
      exact ⟨hGS, rfl, rfl⟩
    | painter_finish =>
      simp only [emitted_by] at h
      subst h
      exact ⟨hPF, rfl, rfl⟩
    | guess_submit guess =>
      rcases h with ⟨room, rfl | rfl⟩
      · exact ⟨hGE, rfl, rfl⟩
      · exact ⟨hAI, rfl, rfl⟩
    | history_req =>
      rcases h with ⟨a, b, c, d, rfl⟩ | rfl
      · exact ⟨hHD, rfl, rfl⟩
      · exact ⟨hHE, rfl, rfl⟩
    | room_list_req =>
      obtain ⟨n, l, rfl⟩ := h
      exact ⟨hRL, rfl, rfl⟩
    | create_room room_name nickname =>
      rcases h with ⟨a, b, c, d, rfl⟩ | rfl
      · exact ⟨hRC, rfl, rfl⟩
      · exact ⟨hER, rfl, rfl⟩
    | join_room room_id nickname =>
      rcases h with ⟨a, b, c, d, rfl⟩ | rfl
      · exact ⟨hRJ, rfl, rfl⟩
      · exact ⟨hER, rfl, rfl⟩
    | leave_room room_id =>
      obtain ⟨a, rfl⟩ := h
      exact ⟨hLF, rfl, rfl⟩

/-- C27 (as the code has it): every frame a handler writes to a stream socket is of an
outbound type; its `data_len` is `sizeof(message struct) - sizeof(BaseMessage)` under
natural alignment, that is 40 for GAME_START, 34 for GAME_END, 132 for HISTORY_DATA, 342
for ROOM_LIST, 66 for ROOM_CREATED and ROOM_JOINED, 2 for ROOM_LEFT, 34 for
AI_GUESS_RESULT and 0 for ERROR, PAINTER_FINISH and HISTORY_END; the struct sent has
`4 + data_len` bytes; and `data_len` is the sum of the field widths of the wire table
exactly for the types other than GAME_START, ROOM_LIST and ROOM_LEFT, whose structs are
padded. -/
theorem frames_obey_abi_table (env : Env) (s s1 : Server) (ev : Event) (out : List Out)
    (h : handle env s ev = some (s1, out)) :
    (∀ fd f, Out.send fd f ∈ out →
        f.base.type ∈ outbound_types
        ∧ f.base.data_len = abi_data_len f.base.type
        ∧ sizeof_frame f = 4 + f.base.data_len
        ∧ (f.base.data_len = table_data_len f.base.type ↔ f.base.type ∉ padded_types))
    ∧ outbound_types.map abi_data_len = [40, 34, 0, 0, 132, 0, 342, 66, 66, 2, 34]
    ∧ outbound_types.map table_data_len = [37, 34, 0, 0, 132, 0, 341, 66, 66, 1, 34] := by
  refine ⟨?_, by decide, by decide⟩
  intro fd f hf
  obtain ⟨h1, h2, h3⟩ := emitted_by_wire ev f (handle_sends env s s1 ev out h fd f hf)
  refine ⟨h1, h2, h3, ?_⟩
  rw [h2]
  have hall : ∀ t ∈ outbound_types,
      (abi_data_len t = table_data_len t ↔ t ∉ padded_types) := by decide
  exact hall _ h1

/-- C27 (witness): the ROOM_LIST frame sent to client 0 after `one_client_run`. -/
theorem frames_obey_abi_table_witness :
    (room_list_frame 0 []).base.type ∈ outbound_types
    ∧ (room_list_frame 0 []).base.data_len = abi_data_len (room_list_frame 0 []).base.type
    ∧ sizeof_frame (room_list_frame 0 []) = 4 + (room_list_frame 0 []).base.data_len
    ∧ ((room_list_frame 0 []).base.data_len = table_data_len (room_list_frame 0 []).base.type
        ↔ (room_list_frame 0 []).base.type ∉ padded_types) :=
  (frames_obey_abi_table (env_at 101 0) (server_after one_client_run)
    (server_after one_client_run) (Event.recv 0 Msg.room_list_req)
    [Out.send 5 (room_list_frame 0 [])] (by decide)).1 5 (room_list_frame 0 [])
    (List.mem_singleton.2 rfl)

/-- C27 (counterexample): the GAME_START frames of `painting_run`, a ROOM_LIST frame and a
ROOM_LEFT frame carry `data_len` 40, 342 and 2, where the wire table gives 37, 341
and 1. -/
theorem data_len_differs_from_table :
    (handle_client_ready (env_at 100 0) (server_after almost_ready_run) 3).map
        (fun q => sent_lens q.2)
      = some [(MSG_GAME_START, 40), (MSG_GAME_START, 40), (MSG_GAME_START, 40),
              (MSG_GAME_START, 40)]
    ∧ table_data_len MSG_GAME_START = 37
    ∧ (handle_room_list_req (server_after lobby_run) 1).map (fun q => sent_lens q.2)
      = some [(MSG_ROOM_LIST, 342)]
    ∧ table_data_len MSG_ROOM_LIST = 341
    ∧ (handle_leave_room (server_after lobby_run) 1 0).map (fun q => sent_lens q.2)
      = some [(MSG_ROOM_LEFT, 2)]
    ∧ table_data_len MSG_ROOM_LEFT = 1 :=
  ⟨by decide, by decide, by decide, by decide, by decide, by decide⟩

/-! ## C28: the order of the two locks -/

/-- A sequence of operations on `rooms_mutex` alone respects the lock order. -/
theorem ordered_from_rooms_only (ops : List LockOp) :
    ∀ held : List Mutex, ops.all on_rooms_mutex = true → ordered_from held ops = true := by
  induction ops with
  | nil => intro held _; rfl
  | cons op ops ih =>
    intro held h
    simp only [List.all_cons, Bool.and_eq_true] at h
    cases op with
    | lock m =>
      cases m with
      | clients_mutex => simp [on_rooms_mutex] at h
      | rooms_mutex =>
        simp only [ordered_from, Bool.and_eq_true, Bool.not_eq_true']
        exact ⟨by simp, ih _ h.2⟩
    | unlock m =>
      simp only [ordered_from]
      exact ih _ h.2

/-- The room loop of `game_timer` works on `rooms_mutex` alone. -/
theorem locks_timer_acts_rooms_only (acts : List TimerAct) :
    (locks_timer_acts acts).all on_rooms_mutex = true := by
  induction acts with
  | nil => rfl
  | cons a acts ih =>
    simp only [locks_timer_acts, List.all_append, Bool.and_eq_true]
    refine ⟨?_, ih⟩
    cases a with
    | idle => rfl
    | paint_deadline => decide
    | guess_deadline guessing ai_ready => cases guessing <;> cases ai_ready <;> decide

/-- C28: on the execution paths of the handlers, `clients_mutex` is taken while
`rooms_mutex` is held exactly on two paths: `MSG_CREATE_ROOM` when a free room is found
(line 837 inside the lock of line 823) and `MSG_JOIN_ROOM` when a free slot is found
(line 885 inside the lock of line 876); `remove_client` and the datagram reader take the
two locks in the opposite order.  A thread in `MSG_CREATE_ROOM` and a thread in
`remove_client` that have each taken their first lock are deadlocked. -/
theorem lock_order_violated :
    lock_order_ok (locks_of (Path.create_room true)) = false
    ∧ lock_order_ok (locks_of (Path.join_room true)) = false
    ∧ (∀ path : Path, lock_order_ok (locks_of path) = false
        ↔ path = Path.create_room true ∨ path = Path.join_room true)
    ∧ locks_of (Path.create_room true)
        = [LockOp.lock Mutex.rooms_mutex, LockOp.lock Mutex.clients_mutex,
            LockOp.unlock Mutex.clients_mutex, LockOp.unlock Mutex.rooms_mutex]
    ∧ locks_of (Path.remove_client true true)
        = [LockOp.lock Mutex.clients_mutex, LockOp.lock Mutex.rooms_mutex,
            LockOp.unlock Mutex.rooms_mutex, LockOp.unlock Mutex.clients_mutex]
    ∧ (interleave
          { todo1 := locks_of (Path.create_room true)
            todo2 := locks_of (Path.remove_client true true)
            held1 := [], held2 := [] } [true, false]).map deadlocked = some true := by
  refine ⟨by decide, by decide, ?_, by decide, by decide, by decide⟩
  intro path
  cases path with
  | add_client => decide
  | client_join => decide
  | history_req => decide
  | room_list_req => decide
  | leave_room => decide
  | remove_client a b => cases a <;> cases b <;> decide
  | client_ready a b => cases a <;> cases b <;> decide
  | painter_finish a b => cases a <;> cases b <;> decide
  | guess_submit a b c d => cases a <;> cases b <;> cases c <;> cases d <;> decide
  | client_leave a b => cases a <;> cases b <;> decide
  | create_room a => cases a <;> decide
  | join_room a => cases a <;> decide
  | udp_server a b => cases a <;> cases b <;> decide
  | ai_guess_thread a b => cases a <;> cases b <;> decide
  | game_timer acts =>
    have hok : lock_order_ok (locks_of (Path.game_timer acts)) = true := by
      apply ordered_from_rooms_only
      simp only [locks_of, locks_game_timer, List.all_append, Bool.and_eq_true]
      exact ⟨⟨by decide, locks_timer_acts_rooms_only acts⟩, by decide⟩
    simp [hok]

/-! ## C29: `ready_count` and the ready flags of the seated members -/

/-- C29: the invariant `ready_count = number of ready seated slots` does not hold in every
reachable state.  JOIN_ROOM copies the sender's global record, `ready` flag included, into the
slot and leaves `ready_count` alone.  After `ready_then_join_run` room 0 is in WAITING with
`ready_count = 0` while the slot of client 1, seated by a successful JOIN_ROOM, has
`ready` set.  When client 0 then sends READY, every seated member of room 0 is ready but
`ready_count` is 1 of 2, so the round does not start; a READY of client 1 finds its slot
already ready and does nothing.  LEAVE_ROOM clears `ready` in the global record but not
`has_guessed`: after `guess_then_move_run` the slot of client 1 in the room it has just
created has `has_guessed` set and holds the old guess. -/
theorem ready_count_misses_ready_slot :
    (¬ ∀ s, Reachable s → ∀ r ∈ s.rooms, r.game.ready_count = (ready_slots r : Int))
    ∧ (ready_view (server_after ready_then_join_run)).head?
      = some (GameState.GAME_WAITING, 0, 2, [(0, false), (1, true)])
    ∧ (ready_view (server_after both_flagged_run)).head?
      = some (GameState.GAME_READY, 1, 2, [(0, true), (1, true)])
    ∧ handle_client_ready (env_at 105 0) (server_after both_flagged_run) 1
      = some (server_after both_flagged_run, [])
    ∧ (guess_view (server_after guess_then_move_run))[1]? = some (-1, [(1, true, apple)]) :=
  ⟨fun h => absurd
      (h (server_after ready_then_join_run) (reachable_server_after _ (by decide)))
      (by decide),
    by decide, by decide, by decide, by decide⟩

/-! ## C30: a room whose members are all ready -/

/-- C30: a reachable state has a room that waits although `ready_count == total_clients`
and `total_clients >= 2`.  After `two_of_three_run` room 0 is in READY with two of three
members ready.  When the member that is not ready leaves, by LEAVE_ROOM or by closing its
connection, the room stays in READY with `ready_count = total_clients = 2`: LEAVE_ROOM
sends ROOM_LEFT only, the disconnect sends nothing, no GAME_START is sent; and a READY of
either remaining member changes nothing afterwards, their slots being ready already. -/
theorem all_ready_room_left_waiting :
    (¬ ∀ s, Reachable s → ∀ r ∈ s.rooms, ¬ waits_fully_ready r)
    ∧ (ready_view (server_after two_of_three_run)).head?
      = some (GameState.GAME_READY, 2, 3, [(0, true), (1, true), (2, false)])
    ∧ (handle_leave_room (server_after two_of_three_run) 2 0).map (fun q => q.2)
      = some [Out.send 7 (room_left_frame 0)]
    ∧ (ready_view (server_after last_unready_leaves_run)).head?
      = some (GameState.GAME_READY, 2, 2, [(0, true), (1, true)])
    ∧ handle_client_ready (env_at 104 0) (server_after last_unready_leaves_run) 0
      = some (server_after last_unready_leaves_run, [])
    ∧ handle_client_ready (env_at 104 0) (server_after last_unready_leaves_run) 1
      = some (server_after last_unready_leaves_run, [])
    ∧ (remove_client (server_after two_of_three_run) 2).map (fun q => q.2)
      = some [Out.close 7]
    ∧ (ready_view (server_after last_unready_closes_run)).head?
      = some (GameState.GAME_READY, 2, 2, [(0, true), (1, true)]) :=
  ⟨fun h => absurd
      (h (server_after last_unready_leaves_run) (reachable_server_after _ (by decide)))
      (by decide),
    by decide, by decide, by decide, by decide, by decide, by decide, by decide⟩

end DrawGuess
